import Mathlib

/-!
# Insteon protocol engine: message codec, link records and the link database

A shallow embedding of `message.go`, `link.go` and `linkdb.go`.

* Go `byte` / `uint8` values are natural numbers; where the Go code can wrap
  around (shifts and conversions to `uint8`) the reduction `% 256` is explicit.
* Go `[]byte` is `List Nat`; `[3]byte` is `Byte3`.
* A method with a pointer receiver that mutates the receiver returns the
  receiver after the call together with the Go return value.
* `*Link` values are addresses into an explicit heap of `Link` objects, so that
  aliasing between the slots of a link database is represented.
-/

namespace Insteon

/-! ## Go slices and arrays -/

/-- Go builtin `copy(dst, src)`: the contents of `dst` after the call. The
first `min (len dst) (len src)` elements are overwritten by those of `src`. -/
def copy (dst src : List Nat) : List Nat :=
  src.take dst.length ++ dst.drop src.length

/-- Go slice expression `data[lo:hi]`. -/
def subslice (data : List Nat) (lo hi : Nat) : List Nat :=
  (data.take hi).drop lo

/-- Go `copy(data[lo:hi], src)`: the contents of `data` after the call (the
slice expression shares the backing array of `data`). -/
def copyAt (data : List Nat) (lo hi : Nat) (src : List Nat) : List Nat :=
  data.take lo ++ copy (subslice data lo hi) src ++ data.drop hi

/-- Go `make([]byte, n)`. -/
def make (n : Nat) : List Nat :=
  List.replicate n 0

/-- Go array type `[3]byte`. -/
structure Byte3 where
  b0 : Nat
  b1 : Nat
  b2 : Nat
deriving DecidableEq, Repr

/-- Go `a[:]` for an array `a` of type `[3]byte`. -/
def Byte3.toSlice (a : Byte3) : List Nat :=
  [a.b0, a.b1, a.b2]

/-- The array whose slice view `a[:]` now holds `l`. -/
def Byte3.ofSlice (l : List Nat) : Byte3 :=
  ⟨l.getD 0 0, l.getD 1 0, l.getD 2 0⟩

/-- Go `copy(a[:], src)` for an array `a` of type `[3]byte`: the array after the call. -/
def Byte3.copyFrom (a : Byte3) (src : List Nat) : Byte3 :=
  Byte3.ofSlice (copy a.toSlice src)

/-- Address is a 3-byte device identifier (`[3]byte`). -/
abbrev Address := Byte3

/-- Command is a 3-byte array: group byte, command 1, command 2. -/
abbrev Command := Byte3

/-- Go `error` values produced by the embedded code; `none : Option Error` is `nil`. -/
inductive Error where
  /-- The value of `newBufError(ErrBufferTooShort, need, got)`. -/
  | ErrBufferTooShort (need got : Nat)
  /-- The value of `fmt.Errorf("link is 8 bytes, got %d", got)`. -/
  | linkLength (got : Nat)
  /-- Any other error, identified by its text (for instance one returned by a `LinkWriter`). -/
  | other (msg : String)
  /-- The variable `ErrLinkNotFound` of package insteon (linkdb.go). -/
  | ErrLinkNotFound
  /-- The variable `ErrAlreadyLinked` of package insteon (linkdb.go). -/
  | ErrAlreadyLinked
  /-- The variable `ErrNotLinked` of package insteon. -/
  | ErrNotLinked
  /-- The variable `ErrAlreadyLinked` of package link (link/link.go), a value
  distinct from the one of package insteon. -/
  | linkErrAlreadyLinked
  /-- The variable `io.EOF` of the Go standard library. -/
  | EOF
  /-- The variable `io.ErrUnexpectedEOF` of the Go standard library. -/
  | ErrUnexpectedEOF
  /-- The variable `io.ErrShortBuffer` of the Go standard library. -/
  | ErrShortBuffer
  /-- The variable `bufio.ErrInvalidUnreadByte` of the Go standard library. -/
  | ErrInvalidUnreadByte
deriving DecidableEq, Repr

/-! ## message.go -/

/-- StandardMsgLen is the length of an insteon standard message minus the crc byte. -/
def StandardMsgLen : Nat := 9

/-- ExtendedMsgLen is the length of an insteon extended message minus the crc byte. -/
def ExtendedMsgLen : Nat := 23

/-- MessageType is a Go `int`. -/
abbrev MessageType := Int

def MsgTypeDirect : MessageType := 0
def MsgTypeDirectAck : MessageType := 0x20
def MsgTypeDirectNak : MessageType := 0xA0
def MsgTypeAllLinkCleanup : MessageType := 0x40
def MsgTypeAllLinkCleanupAck : MessageType := 0x60
def MsgTypeAllLinkCleanupNak : MessageType := 0xE0
def MsgTypeBroadcast : MessageType := 0x80
def MsgTypeAllLinkBroadcast : MessageType := 0xC0

/-- The eight message types, in increasing order. -/
def messageTypes : List MessageType :=
  [MsgTypeDirect, MsgTypeDirectAck, MsgTypeAllLinkCleanup, MsgTypeAllLinkCleanupAck,
   MsgTypeBroadcast, MsgTypeDirectNak, MsgTypeAllLinkBroadcast, MsgTypeAllLinkCleanupNak]

/-- Flags is the flags byte in an insteon message. -/
abbrev Flags := Nat

def StandardBroadcast : Flags := 0x8a
def StandardAllLinkBroadcast : Flags := 0xca
def StandardDirectMessage : Flags := 0x0a
def StandardDirectAck : Flags := 0x2a
def StandardDirectNak : Flags := 0xaa
def ExtendedDirectMessage : Flags := 0x1a
def ExtendedDirectAck : Flags := 0x3a
def ExtendedDirectNak : Flags := 0xba

/-- Go conversion `uint8(x)` of an `int`. -/
def uint8 (x : Int) : Nat :=
  (x % 256).toNat

/-- Flag allows building of MessageFlags from component parts. The arguments
`hopsLeft` and `maxHops` are `uint8`; shifts are reduced modulo 256. -/
def Flag (messageType : MessageType) (extended : Bool) (hopsLeft maxHops : Nat) : Flags :=
  if hopsLeft > 3 || maxHops > 3 then 0
  else
    let e : Nat := if extended then 1 else 0
    uint8 messageType ||| (e <<< 4) % 256 ||| (hopsLeft <<< 2) % 256 ||| maxHops

/-- Type will return the MessageType of the flags. -/
def Flags.Type_ (f : Flags) : MessageType :=
  ((f &&& 0xe0 : Nat) : Int)

/-- Standard will indicate if the insteon message is standard length. -/
def Flags.Standard (f : Flags) : Bool :=
  f &&& 0x10 == 0x00

/-- Extended will indicate if the insteon message is extended length. -/
def Flags.Extended (f : Flags) : Bool :=
  f &&& 0x10 == 0x10

/-- TTL is the remaining number of times an insteon message will be retransmitted. -/
def Flags.TTL (f : Flags) : Int :=
  (((f &&& 0x0f) >>> 2 : Nat) : Int)

/-- MaxTTL is the maximum number of times a message can be repeated. -/
def Flags.MaxTTL (f : Flags) : Int :=
  ((f &&& 0x03 : Nat) : Int)

/-- Message is a single insteon message. -/
structure Message where
  Src : Address
  Dst : Address
  Flags : Flags
  Command : Command
  Payload : List Nat
deriving DecidableEq, Repr

/-- The zero value of `Message` (a fresh `&Message{}`): `Payload` is the nil slice. -/
def Message.zero : Message :=
  ⟨⟨0, 0, 0⟩, ⟨0, 0, 0⟩, 0, ⟨0, 0, 0⟩, []⟩

/-- MarshalBinary will convert the Message to a byte slice appropriate for
sending out onto the insteon network. Returns `(data, err)`. -/
def Message.MarshalBinary (m : Message) : List Nat × Option Error :=
  let data := make StandardMsgLen
  let data := copyAt data 0 3 m.Src.toSlice
  let data := copyAt data 3 6 m.Dst.toSlice
  let data := data.set 6 m.Flags
  let data := data.set 7 m.Command.b1
  let data := data.set 8 m.Command.b2
  let data :=
    if m.Flags.Extended then
      copyAt (data ++ make 14) 9 23 m.Payload
    else data
  (data, none)

/-- UnmarshalBinary will take a byte slice and unmarshal it into the Message
fields. Returns the receiver after the call and the error. -/
def Message.UnmarshalBinary (m : Message) (data : List Nat) : Message × Option Error :=
  if data.length < StandardMsgLen then
    (m, some (Error.ErrBufferTooShort StandardMsgLen data.length))
  else
    let m := { m with Src := m.Src.copyFrom (subslice data 0 3) }
    let m := { m with Dst := m.Dst.copyFrom (subslice data 3 6) }
    let m := { m with Flags := data.getD 6 0 }
    let m :=
      if data.getD 6 0 &&& 0xe0 == 0xa0 || data.getD 6 0 &&& 0xe0 == 0xe0 then
        { m with Command := ⟨(0x70 &&& data.getD 6 0) >>> 4, data.getD 7 0, data.getD 8 0⟩ }
      else
        { m with Command := ⟨data.getD 6 0 >>> 4, data.getD 7 0, data.getD 8 0⟩ }
    if m.Flags.Extended then
      if data.length < ExtendedMsgLen then
        (m, some (Error.ErrBufferTooShort ExtendedMsgLen data.length))
      else
        ({ m with Payload := copy (make 14) (data.drop 9) }, none)
    else
      (m, none)

/-- The receiver of `UnmarshalBinary` once the nine header bytes of `d` have
been stored in it (the state reached before the extended-length check). -/
def decodedHeader (m : Message) (d : List Nat) : Message :=
  { Src := m.Src.copyFrom (subslice d 0 3)
    Dst := m.Dst.copyFrom (subslice d 3 6)
    Flags := d.getD 6 0
    Command :=
      ⟨if d.getD 6 0 &&& 0xe0 == 0xa0 || d.getD 6 0 &&& 0xe0 == 0xe0
          then (0x70 &&& d.getD 6 0) >>> 4 else d.getD 6 0 >>> 4,
        d.getD 7 0, d.getD 8 0⟩
    Payload := m.Payload }

/-! ## link.go -/

/-- RecordControlFlags is a Go `byte`. -/
abbrev RecordControlFlags := Nat

/-- Go `^x` on a `byte`. -/
def complement8 (x : Nat) : Nat :=
  255 - x % 256

def RecordControlFlags.setBit (rcf : RecordControlFlags) (pos : Nat) : RecordControlFlags :=
  rcf ||| (1 <<< pos) % 256

def RecordControlFlags.clearBit (rcf : RecordControlFlags) (pos : Nat) : RecordControlFlags :=
  rcf &&& complement8 ((1 <<< pos) % 256)

def RecordControlFlags.InUse (rcf : RecordControlFlags) : Bool :=
  rcf &&& 0x80 == 0x80

def RecordControlFlags.setInUse (rcf : RecordControlFlags) : RecordControlFlags :=
  rcf.setBit 7

def RecordControlFlags.Available (rcf : RecordControlFlags) : Bool :=
  rcf &&& 0x80 == 0x00

def RecordControlFlags.setAvailable (rcf : RecordControlFlags) : RecordControlFlags :=
  rcf.clearBit 7

def RecordControlFlags.Controller (rcf : RecordControlFlags) : Bool :=
  rcf &&& 0x40 == 0x40

def RecordControlFlags.setController (rcf : RecordControlFlags) : RecordControlFlags :=
  rcf.setBit 6

def RecordControlFlags.Responder (rcf : RecordControlFlags) : Bool :=
  rcf &&& 0x40 == 0x00

def RecordControlFlags.setResponder (rcf : RecordControlFlags) : RecordControlFlags :=
  rcf.clearBit 6

/-- Group is a Go `byte`. -/
abbrev Group := Nat

/-- MemAddress is a Go `int`. -/
abbrev MemAddress := Int

/-- Link is one record of the all-link database. -/
structure Link where
  Flags : RecordControlFlags
  Group : Group
  Address : Address
  Data : Byte3
deriving DecidableEq, Repr

/-- A Go `*Link`: `none` is the nil pointer, `some a` points at the `Link`
object stored at address `a`. -/
abbrev LinkPtr := Option Nat

/-- The `Link` objects of the program, by address. -/
abbrev Heap := Nat → Link

/-- Equal on `*Link` receivers and arguments: pointer identity first, then the
nil checks, then the field comparison. -/
def Link.Equal (heap : Heap) (l other : LinkPtr) : Bool :=
  if l = other then true
  else
    match l, other with
    | some p, some q =>
        ((heap p).Flags.InUse == (heap q).Flags.InUse)
          && ((heap p).Flags.Controller == (heap q).Flags.Controller)
          && decide ((heap p).Group = (heap q).Group)
          && decide ((heap p).Address = (heap q).Address)
    | _, _ => false

/-- MarshalBinary of the record `l` points at. Returns `(data, err)`. -/
def Link.MarshalBinary (l : Link) : List Nat × Option Error :=
  let data := make 8
  let data := data.set 0 l.Flags
  let data := data.set 1 l.Group
  let data := copyAt data 2 5 l.Address.toSlice
  let data := copyAt data 5 8 l.Data.toSlice
  (data, none)

/-- UnmarshalBinary into the record `l` points at. Returns the record after the
call and the error. -/
def Link.UnmarshalBinary (l : Link) (buf : List Nat) : Link × Option Error :=
  if buf.length < 8 then
    (l, some (Error.linkLength buf.length))
  else
    let l := { l with Flags := buf.getD 0 0 }
    let l := { l with Group := buf.getD 1 0 }
    let l := { l with Address := l.Address.copyFrom (subslice buf 2 5) }
    let l := { l with Data := l.Data.copyFrom (subslice buf 5 8) }
    (l, none)

/-! ## linkdb.go -/

/-- One call of `WriteLink(memAddress, link)`. -/
structure WriteCall where
  memAddress : MemAddress
  link : LinkPtr
deriving DecidableEq, Repr

/-- LinkWriter is an interface in the source. An implementation is represented
by the list of `WriteLink` calls it has received, oldest first, and by the
error it answers with, which may depend on the heap and on all calls received
up to and including the current one. -/
structure LinkWriter where
  calls : List WriteCall
  respond : Heap → List WriteCall → Option Error

/-- WriteLink records the call and returns the implementation's answer. -/
def LinkWriter.WriteLink (w : LinkWriter) (heap : Heap) (memAddress : MemAddress)
    (link : LinkPtr) : LinkWriter × Option Error :=
  let calls := w.calls ++ [⟨memAddress, link⟩]
  ({ w with calls := calls }, w.respond heap calls)

/-- A LinkWriter that has received no call and whose WriteLink always succeeds. -/
def LinkWriter.succeeding : LinkWriter :=
  ⟨[], fun _ _ => none⟩

/-- BaseLinkDB embeds a LinkWriter and holds the slice of `*Link`. -/
structure BaseLinkDB where
  LinkWriter : LinkWriter
  links : List LinkPtr

/-- The outcome of a method of `*BaseLinkDB`: `none` is a run-time panic (nil
pointer dereference); otherwise the database and the heap after the call and
the returned error. -/
abbrev Outcome := Option (BaseLinkDB × Heap × Option Error)

/-- The `for i, link := range db.links` loop of AddLink, started at index `i`
with the current `linkPos` and `memAddress`; returns their values after the
loop, or `none` when `link.Flags` dereferences a nil pointer. -/
def BaseLinkDB.addLinkScan (heap : Heap) :
    List LinkPtr → Int → Int → MemAddress → Option (Int × MemAddress)
  | [], _, linkPos, memAddress => some (linkPos, memAddress)
  | none :: _, _, _, _ => none
  | some p :: rest, i, linkPos, memAddress =>
      if (heap p).Flags.Available then some (i, memAddress)
      else BaseLinkDB.addLinkScan heap rest (i + 1) linkPos (memAddress - 8)

def BaseLinkDB.AddLink (db : BaseLinkDB) (heap : Heap) (newLink : LinkPtr) : Outcome :=
  match BaseLinkDB.addLinkScan heap db.links 0 (-1) 0x0fff with
  | none => none
  | some (linkPos, memAddress) =>
      let memAddress := memAddress - 8
      let links :=
        if linkPos ≥ 0 then db.links.set linkPos.toNat newLink
        else db.links ++ [newLink]
      let r := db.LinkWriter.WriteLink heap memAddress newLink
      some ({ LinkWriter := r.1, links := links }, heap, r.2)

def BaseLinkDB.Links (db : BaseLinkDB) : List LinkPtr :=
  db.links

/-- The `for _, link := range db.links` loop of RemoveLink over the remaining
slots, with the current `memAddress`. -/
def BaseLinkDB.removeLinkLoop (db : BaseLinkDB) (heap : Heap) (oldLink : LinkPtr) :
    List LinkPtr → MemAddress → Outcome
  | [], _ => some (db, heap, none)
  | link :: rest, memAddress =>
      let memAddress := memAddress - 8
      if Link.Equal heap link oldLink then
        match link with
        | none => none
        | some p =>
            let heap :=
              Function.update heap p { heap p with Flags := (heap p).Flags.setAvailable }
            let r := db.LinkWriter.WriteLink heap memAddress link
            some ({ db with LinkWriter := r.1 }, heap, r.2)
      else BaseLinkDB.removeLinkLoop db heap oldLink rest memAddress

def BaseLinkDB.RemoveLink (db : BaseLinkDB) (heap : Heap) (oldLink : LinkPtr) : Outcome :=
  BaseLinkDB.removeLinkLoop db heap oldLink db.links 0x0fff

/-- Running a method on the database and heap left by an earlier call; a panic
or a returned error of the earlier call is kept and the method is not run. -/
def Outcome.andThen (o : Outcome) (f : BaseLinkDB → Heap → Outcome) : Outcome :=
  match o with
  | none => none
  | some (db, heap, none) => f db heap
  | some (db, heap, some e) => some (db, heap, some e)

/-! ## Devices

The functions of `linkdb.go` and `link/link.go` drive devices through
interfaces (`Linkable`, `AddressableLinkable`, `LinkDB`). An interface value is
a device identity; the calls made on devices are recorded in a trace, and what
a call returns is given by the environment, as a function of the calls made
before it. `Address()` is a getter and is not recorded. -/

/-- The identity of an interface value (`l1 != l2` compares identities). -/
abbrev Dev := Nat

/-- One recorded call on a device, or one `time.Sleep`. -/
inductive DevCall where
  /-- Links() of `link/link.go` devices. -/
  | Links (d : Dev)
  /-- RemoveLinks(links...) with the variadic arguments as a list. -/
  | RemoveLinks (d : Dev) (links : List LinkPtr)
  | EnterLinkingMode (d : Dev) (group : Group)
  | EnterUnlinkingMode (d : Dev) (group : Group)
  | ExitLinkingMode (d : Dev)
  /-- A call `time.Sleep(seconds * time.Second)`. -/
  | Sleep (seconds : Nat)
  /-- LinkDB() of `linkdb.go` devices. -/
  | LinkDB (d : Dev)
  /-- Links() on the LinkDB returned by the LinkDB() of `d`. -/
  | DBLinks (d : Dev)
  /-- RemoveLink(link) on the LinkDB returned by the LinkDB() of `d`. -/
  | DBRemoveLink (d : Dev) (link : LinkPtr)
  | TapSetButton (d : Dev) (n : Int)
deriving DecidableEq, Repr

/-- The calls made so far, oldest first. -/
abbrev Trace := List DevCall

/-- The devices: what each interface method returns, given the calls made before. -/
structure Devices where
  /-- Address() of a device. -/
  Address : Dev → Address
  /-- The dynamic type of the device implements I2Linkable. -/
  isI2Linkable : Dev → Bool
  /-- The dynamic type of the device implements I1Linkable. -/
  isI1Linkable : Dev → Bool
  /-- The result `(links, err)` of Links(). -/
  links : Dev → Trace → List LinkPtr × Option Error
  /-- The result of LinkDB(): whether the returned LinkDB is non-nil, and the error. -/
  linkDB : Dev → Trace → Bool × Option Error
  /-- The result of Links() on the device's LinkDB. -/
  dbLinks : Dev → Trace → List LinkPtr
  /-- The error returned by any other call. -/
  result : DevCall → Trace → Option Error

/-- A call whose only result is an error: the error returned and the extended trace. -/
def Devices.call (env : Devices) (c : DevCall) (t : Trace) : Option Error × Trace :=
  (env.result c t, t ++ [c])

/-! ## linkdb.go: FindLink, CrossLink, CreateLink -/

/-- FindLink, on the slice `dbLinks` returned by `db.Links()`. Returns `none`
when `link.Flags` dereferences a nil pointer, otherwise the pointer returned. -/
def FindLink (heap : Heap) (dbLinks : List LinkPtr) (controller : Bool) (address : Address)
    (group : Group) : Option LinkPtr :=
  match dbLinks with
  | [] => some none
  | none :: _ => none
  | some p :: rest =>
      if ((heap p).Flags.Controller == controller) && decide ((heap p).Address = address)
          && decide ((heap p).Group = group) then
        some (some p)
      else FindLink heap rest controller address group

/-- CreateLink. Returns `none` on a panic (a method call on a nil LinkDB, or a
nil pointer dereference in FindLink), otherwise the error and the trace. -/
def CreateLink (env : Devices) (heap : Heap) (controller responder : Dev) (group : Group)
    (t : Trace) : Option (Option Error × Trace) :=
  let r1 := env.linkDB controller t
  let t := t ++ [DevCall.LinkDB controller]
  let controllerDB := r1.1
  let err := r1.2
  let r2 : (Bool × Option Error) × Trace :=
    if err = none ∨ err = some Error.ErrNotLinked then
      (env.linkDB responder t, t ++ [DevCall.LinkDB responder])
    else ((false, err), t)
  let responderDB := r2.1.1
  let err := r2.1.2
  let t := r2.2
  if err = none ∨ err = some Error.ErrNotLinked then
    if controllerDB = false then none
    else
      let lc := env.dbLinks controller t
      let t := t ++ [DevCall.DBLinks controller]
      match FindLink heap lc true (env.Address responder) group with
      | none => none
      | some controllerLink =>
        if responderDB = false then none
        else
          let lr := env.dbLinks responder t
          let t := t ++ [DevCall.DBLinks responder]
          match FindLink heap lr false (env.Address controller) group with
          | none => none
          | some responderLink =>
            if controllerLink ≠ none ∧ responderLink ≠ none then
              some (some Error.ErrAlreadyLinked, t)
            else
              let s1 : Option Error × Trace :=
                if controllerLink ≠ none then
                  env.call (DevCall.DBRemoveLink controller controllerLink) t
                else (err, t)
              let s2 : Option Error × Trace :=
                if s1.1 = none ∧ responderLink ≠ none then
                  env.call (DevCall.DBRemoveLink responder controllerLink) s1.2
                else s1
              let s3 : Option Error × Trace :=
                if env.isI2Linkable controller then
                  env.call (DevCall.EnterLinkingMode controller group) s2.2
                else if env.isI1Linkable controller then
                  env.call (DevCall.TapSetButton controller 2) s2.2
                else s2
              let s4 : Option Error × Trace :=
                if s3.1 = none then
                  if env.isI2Linkable controller then
                    env.call (DevCall.EnterLinkingMode controller group) s3.2
                  else if env.isI1Linkable controller then
                    env.call (DevCall.TapSetButton controller 1) s3.2
                  else s3
                else s3
              some s4
  else some (err, t)

/-- CrossLink of `linkdb.go`. -/
def CrossLink (env : Devices) (heap : Heap) (l1 l2 : Dev) (group : Group) (t : Trace) :
    Option (Option Error × Trace) :=
  match CreateLink env heap l1 l2 group t with
  | none => none
  | some (err, t) =>
      if err = none ∨ err = some Error.ErrAlreadyLinked then
        match CreateLink env heap l2 l1 group t with
        | none => none
        | some (err, t) =>
            if err = some Error.ErrAlreadyLinked then some (none, t) else some (err, t)
      else some (err, t)

/-! ## link/link.go -/

/-- LinkRecord is the record type used by package link; its declaration is not
among the sources, and it is given the fields of `Link`. -/
abbrev LinkRecord := Link

namespace link

/-- ErrAlreadyLinked of package link. -/
def ErrAlreadyLinked : Error := Error.linkErrAlreadyLinked

/-- The inner loop `for _, l2 := range links[i+1:]` of FindDuplicateLinks: the
slice `duplicates` after the loop. `Equal` is the method `LinkRecord.Equal`,
whose declaration is not among the sources. -/
def findDuplicatesInner (Equal : LinkPtr → LinkPtr → Bool) (l1 : LinkPtr) :
    List LinkPtr → List LinkPtr → List LinkPtr
  | [], duplicates => duplicates
  | l2 :: rest, duplicates =>
      if Equal l1 l2 then findDuplicatesInner Equal l1 rest (duplicates ++ [l2])
      else findDuplicatesInner Equal l1 rest duplicates

/-- The outer loop `for i, l1 := range links` of FindDuplicateLinks over the
remaining links `links[i:]`: the slice `duplicates` after the loop. -/
def findDuplicatesOuter (Equal : LinkPtr → LinkPtr → Bool) :
    List LinkPtr → List LinkPtr → List LinkPtr
  | [], duplicates => duplicates
  | l1 :: rest, duplicates =>
      findDuplicatesOuter Equal rest (findDuplicatesInner Equal l1 rest duplicates)

/-- FindDuplicateLinks will perform a linear search of the LinkDB and return
any links that are duplicates. Returns `(duplicates, err)` and the trace. -/
def FindDuplicateLinks (env : Devices) (Equal : LinkPtr → LinkPtr → Bool) (linkable : Dev)
    (t : Trace) : (List LinkPtr × Option Error) × Trace :=
  let r := env.links linkable t
  let t := t ++ [DevCall.Links linkable]
  if r.2 = none then ((findDuplicatesOuter Equal r.1 [], r.2), t)
  else (([], r.2), t)

/-- The loop of FindLinkRecord over the remaining links: `none` when
`link.Flags` dereferences a nil pointer, `some (some p)` when the loop returns
the record `p`, `some none` when the loop ends without returning. -/
def findLinkRecordLoop (heap : Heap) (controller : Bool) (address : Address) (group : Group) :
    List LinkPtr → Option LinkPtr
  | [] => some none
  | none :: _ => none
  | some p :: rest =>
      if ((heap p).Flags.Controller == controller) && decide ((heap p).Address = address)
          && decide ((heap p).Group = group) then
        some (some p)
      else findLinkRecordLoop heap controller address group rest

/-- FindLinkRecord will perform a linear search of the database and return a
LinkRecord that matches the group, address and controller/responder indicator.
Returns `none` on a panic, otherwise `(link, err)` and the trace. -/
def FindLinkRecord (env : Devices) (heap : Heap) (linkable : Dev) (controller : Bool)
    (address : Address) (group : Group) (t : Trace) :
    Option ((LinkPtr × Option Error) × Trace) :=
  let r := env.links linkable t
  let t := t ++ [DevCall.Links linkable]
  if r.2 = none then
    match findLinkRecordLoop heap controller address group r.1 with
    | none => none
    | some (some p) => some ((some p, none), t)
    | some none => some ((none, r.2), t)
  else some ((none, r.2), t)

/-- ForceLink will create links in the controller and responder All-Link
databases without first checking if the links exist. The deferred calls run
last, in reverse order of their `defer` statements; their results are dropped. -/
def ForceLink (env : Devices) (group : Group) (controller responder : Dev) (t : Trace) :
    Option Error × Trace :=
  let s1 := env.call (DevCall.EnterLinkingMode controller group) t
  let t := s1.2 ++ [DevCall.Sleep 2]
  let s2 : (Option Error × Trace) × Bool :=
    if s1.1 = none then (env.call (DevCall.EnterLinkingMode responder group) t, true)
    else ((s1.1, t), false)
  let err := s2.1.1
  let t := s2.1.2 ++ [DevCall.Sleep 1]
  let t := if s2.2 then (env.call (DevCall.ExitLinkingMode responder) t).2 else t
  let t := (env.call (DevCall.ExitLinkingMode controller) t).2
  (err, t)

/-- Unlink will unlink a controller from a responder for a given Group. -/
def Unlink (env : Devices) (group : Group) (controller responder : Dev) (t : Trace) :
    Option Error × Trace :=
  let s1 := env.call (DevCall.EnterUnlinkingMode controller group) t
  let t := s1.2 ++ [DevCall.Sleep 2]
  let s2 : (Option Error × Trace) × Bool :=
    if s1.1 = none then (env.call (DevCall.EnterLinkingMode responder group) t, true)
    else ((s1.1, t), false)
  let err := s2.1.1
  let t := s2.1.2 ++ [DevCall.Sleep 1]
  let t := if s2.2 then (env.call (DevCall.ExitLinkingMode responder) t).2 else t
  let t := (env.call (DevCall.ExitLinkingMode controller) t).2
  (err, t)

/-- The loop of UnlinkAll over the remaining links, with the current `err`;
`none` when `link.Address` dereferences a nil pointer. -/
def unlinkAllLoop (env : Devices) (heap : Heap) (controller responder : Dev) :
    List LinkPtr → Option Error → Trace → Option (Option Error × Trace)
  | [], err, t => some (err, t)
  | none :: _, _, _ => none
  | some p :: rest, err, t =>
      if (heap p).Address = env.Address responder then
        let r := Unlink env (heap p).Group responder controller t
        unlinkAllLoop env heap controller responder rest r.1 r.2
      else unlinkAllLoop env heap controller responder rest err t

/-- UnlinkAll will unlink all groups between a controller and a responder device. -/
def UnlinkAll (env : Devices) (heap : Heap) (controller responder : Dev) (t : Trace) :
    Option (Option Error × Trace) :=
  let r := env.links controller t
  let t := t ++ [DevCall.Links controller]
  if r.2 = none then unlinkAllLoop env heap controller responder r.1 r.2 t
  else some (r.2, t)

/-- Link will add appropriate entries to the controller's and responder's
All-Link database. The result of ForceLink is dropped, as in the source. -/
def Link (env : Devices) (heap : Heap) (group : Group) (controller responder : Dev)
    (t : Trace) : Option (Option Error × Trace) :=
  match FindLinkRecord env heap controller true (env.Address responder) group t with
  | none => none
  | some ((controllerLink, err), t) =>
    if err = none then
      match FindLinkRecord env heap responder false (env.Address controller) group t with
      | none => none
      | some ((responderLink, err), t) =>
        if err = none then
          if controllerLink ≠ none ∧ responderLink ≠ none then
            some (some ErrAlreadyLinked, t)
          else
            let s1 : Option Error × Trace :=
              if controllerLink ≠ none then
                env.call (DevCall.RemoveLinks controller [controllerLink]) t
              else (err, t)
            let s2 : Option Error × Trace :=
              if s1.1 = none ∧ responderLink ≠ none then
                env.call (DevCall.RemoveLinks responder [controllerLink]) s1.2
              else s1
            some (s2.1, (ForceLink env group controller responder s2.2).2)
        else some (err, t)
    else some (err, t)

/-- CrossLink will create bi-directional links between the two linkable devices. -/
def CrossLink (env : Devices) (heap : Heap) (group : Group) (l1 l2 : Dev) (t : Trace) :
    Option (Option Error × Trace) :=
  match Link env heap group l1 l2 t with
  | none => none
  | some (err, t) =>
      if err = none ∨ err = some ErrAlreadyLinked then
        match Link env heap group l2 l1 t with
        | none => none
        | some (err, t) =>
            if err = some ErrAlreadyLinked then some (none, t) else some (err, t)
      else some (err, t)

/-- The inner loop `for _, l2 := range linkable[i:]` of CrossLinkAll over the
remaining devices: `some (some err, t)` when the function returns `err` from
inside the loop, `some (none, t)` when the loop ends. -/
def crossLinkAllInner (env : Devices) (heap : Heap) (group : Group) (l1 : Dev) :
    List Dev → Trace → Option (Option Error × Trace)
  | [], t => some (none, t)
  | l2 :: rest, t =>
      if l1 ≠ l2 then
        match CrossLink env heap group l1 l2 t with
        | none => none
        | some (some err, t) => some (some err, t)
        | some (none, t) => crossLinkAllInner env heap group l1 rest t
      else crossLinkAllInner env heap group l1 rest t

/-- The outer loop `for i, l1 := range linkable` of CrossLinkAll over the
remaining devices `linkable[i:]`, and the final `return nil`. -/
def crossLinkAllOuter (env : Devices) (heap : Heap) (group : Group) :
    List Dev → Trace → Option (Option Error × Trace)
  | [], t => some (none, t)
  | l1 :: rest, t =>
      match crossLinkAllInner env heap group l1 (l1 :: rest) t with
      | none => none
      | some (some err, t) => some (some err, t)
      | some (none, t) => crossLinkAllOuter env heap group rest t

/-- CrossLinkAll will create bi-directional links among all the devices listed. -/
def CrossLinkAll (env : Devices) (heap : Heap) (group : Group) (linkable : List Dev)
    (t : Trace) : Option (Option Error × Trace) :=
  crossLinkAllOuter env heap group linkable t

end link

/-! ## plm/port.go

`Port.in` is a `*bufio.Reader`. The reader is represented by the bytes it has
still to deliver (buffered or yet to arrive from the underlying reader), by the
byte kept for UnreadByte, and by the error the underlying reader returns, on
every read, once its bytes are used up. -/

/-- The state of a `bufio.Reader`, after the Go standard library:
`lastByte` is the field of that name (the last byte read, `-1` when there is
none to unread). -/
structure Reader where
  data : List Nat
  lastByte : Int
  err : Error
deriving DecidableEq, Repr

/-- ReadByte of `bufio.Reader`: the next byte, or `(0, err)` when the
underlying reader has failed; a failed ReadByte leaves `lastByte` as it was. -/
def Reader.ReadByte (r : Reader) : (Nat × Option Error) × Reader :=
  match r.data with
  | [] => ((0, some r.err), r)
  | b :: rest => ((b, none), { r with data := rest, lastByte := (b : Int) })

/-- UnreadByte of `bufio.Reader`: fails when there is no last byte, otherwise
puts the last byte back in front and forgets it. (The library also refuses when
nothing has been consumed from a non-empty buffer, which cannot be the case
right after a ReadByte.) -/
def Reader.UnreadByte (r : Reader) : Option Error × Reader :=
  if r.lastByte < 0 then (some Error.ErrInvalidUnreadByte, r)
  else (none, { r with data := r.lastByte.toNat :: r.data, lastByte := -1 })

/-- `io.ReadAtLeast(r, buf, min)` on a `bufio.Reader`: the contents of `buf`
after the call, the error, and the reader. With `min > len(buf)` it fails with
ErrShortBuffer; with `min = 0` it reads nothing; otherwise it fills `buf` from
the front with the bytes at hand and fails when fewer than `min` are there,
with the reader's error, or with ErrUnexpectedEOF in place of EOF when some
bytes were read. -/
def Reader.ReadAtLeast (r : Reader) (buf : List Nat) (min : Nat) :
    (List Nat × Option Error) × Reader :=
  if buf.length < min then ((buf, some Error.ErrShortBuffer), r)
  else if min = 0 then ((buf, none), r)
  else
    let got := r.data.take buf.length
    let r2 : Reader :=
      { r with data := r.data.drop buf.length,
               lastByte := if got = [] then r.lastByte else (got.getLastD 0 : Int) }
    let err : Option Error :=
      if min ≤ got.length then none
      else if got = [] then some r.err
      else if r.err = Error.EOF then some Error.ErrUnexpectedEOF
      else some r.err
    ((copy buf got, err), r2)

/-- What a call of Port.Read comes to. -/
inductive ReadResult where
  /-- The synchronisation loop is still running after the given number of iterations. -/
  | running
  /-- A run-time panic (index out of range). -/
  | panic
  /-- The call returned `(buf, err)`, leaving the reader in state `r`. -/
  | returned (buf : List Nat) (err : Option Error) (r : Reader)
deriving DecidableEq, Repr

/-- The synchronisation loop `for err == nil` of Port.Read, run for at most
`fuel` iterations: `returned buf err r` gives the variables `buf` and `err`
after the loop. `commandLens` is the map of that name, whose declaration is not
among the sources (`none` is a failed lookup). -/
def Port.readLoop (commandLens : Nat → Option Nat) : Nat → Reader → ReadResult
  | 0, _ => ReadResult.running
  | fuel + 1, r =>
      let rb := r.ReadByte
      match rb.1.2 with
      | some e => ReadResult.returned [] (some e) rb.2
      | none =>
          if rb.1.1 ≠ 0x02 then Port.readLoop commandLens fuel rb.2
          else
            let rs := rb.2.ReadByte
            match commandLens rs.1.1 with
            | some packetLen =>
                let buf := ((make (packetLen + 2)).set 0 0x02).set 1 rs.1.1
                let ra := rs.2.ReadAtLeast (buf.drop 2) packetLen
                ReadResult.returned (buf.take 2 ++ ra.1.1) ra.1.2 ra.2
            | none =>
                let ru := rs.2.UnreadByte
                match ru.1 with
                | none => Port.readLoop commandLens fuel ru.2
                | some e => ReadResult.returned [] (some e) ru.2

/-- Port.Read, with the synchronisation loop run for at most `fuel` iterations. -/
def Port.Read (commandLens : Nat → Option Nat) (fuel : Nat) (r : Reader) : ReadResult :=
  match Port.readLoop commandLens fuel r with
  | ReadResult.returned buf none r =>
      if buf.getD 1 0 = 0x62 then
        if buf.length ≤ 5 then ReadResult.panic
        else if Flags.Extended (buf.getD 5 0) then
          let buf := buf ++ make 14
          let ra := r.ReadAtLeast (buf.drop 9) 14
          ReadResult.returned (buf.take 9 ++ ra.1.1) ra.1.2 ra.2
        else ReadResult.returned buf none r
      else ReadResult.returned buf none r
  | other => other

/-! ## Connection construction and listeners

`connection.go` is not among the sources; only its tests are. -/

/-- Modelled from the spec: NewConnection called with the option
ConnectionTTL(ttl), of which `connection.go` (missing) holds the code. "A
configurable TTL (0-3; any other value is a construction-time error)"; the
error names the invalid value, with the text checked by TestNewConnectionTTL.
The result is the error returned, nil on success. -/
def NewConnectionTTL (ttl : Nat) : Option Error :=
  if ttl > 3 then
    some (Error.other ("invalid ttl " ++ toString ttl ++ ", must be in range 0-3"))
  else none

/-- Modelled from the spec: a registered listener of `connection.go` (missing):
its message type, its commands and its bounded queue, oldest message first. -/
structure msgListener where
  t : MessageType
  cmds : List Command
  queue : List Message
deriving DecidableEq, Repr

/-- Modelled from the spec: the listener registry of `connection.go` (missing):
the listeners by the identity of their queue, the queue capacity `bufLen`, and
the identity the next queue will get. -/
structure msgListeners where
  listeners : List (Nat × msgListener)
  bufLen : Nat
  next : Nat
deriving DecidableEq, Repr

/-- Modelled from the spec: AddListener(type, commands...) of `connection.go`
(missing) registers a listener with an empty queue and returns the queue. -/
def msgListeners.AddListener (ml : msgListeners) (t : MessageType) (cmds : List Command) :
    Nat × msgListeners :=
  (ml.next,
    { ml with listeners := ml.listeners ++ [(ml.next, ⟨t, cmds, []⟩)], next := ml.next + 1 })

/-- Modelled from the spec: RemoveListener(queue) of `connection.go` (missing)
"deregisters and is idempotent". -/
def msgListeners.RemoveListener (ml : msgListeners) (ch : Nat) : msgListeners :=
  { ml with listeners := ml.listeners.filter (fun kl => kl.1 ≠ ch) }

/-- Modelled from the spec: what deliver of `connection.go` (missing) does to
one listener: frames "matching the filter" (type and command) "are pushed to a
small bounded queue per listener"; "a full queue silently drops the new frame". -/
def msgListener.offer (bufLen : Nat) (l : msgListener) (m : Message) : msgListener :=
  if l.t = m.Flags.Type_ ∧ m.Command ∈ l.cmds ∧ l.queue.length < bufLen then
    { l with queue := l.queue ++ [m] }
  else l

/-- Modelled from the spec: deliver of `connection.go` (missing): "every inbound
frame is offered to all registered listener queues". -/
def msgListeners.deliver (ml : msgListeners) (m : Message) : msgListeners :=
  { ml with listeners := ml.listeners.map (fun kl => (kl.1, kl.2.offer ml.bufLen m)) }

/-! ## Helper definitions used by the statements -/

/-- The slot holds a record whose in-use bit is clear (the test `link.Flags.Available()`
of AddLink, on a non-nil slot). -/
def slotAvailable (heap : Heap) (p : LinkPtr) : Bool :=
  match p with
  | some a => (heap a).Flags.Available
  | none => false

/-- The message sent in `connection_test.go`: a standard broadcast whose
command group byte is zero. -/
def broadcastExample : Message :=
  ⟨⟨0, 0, 0⟩, ⟨7, 79, 42⟩, StandardBroadcast, ⟨0, 1, 0⟩, []⟩

/-- An extended direct message with a 14-byte payload. -/
def extendedExample : Message :=
  ⟨⟨1, 2, 3⟩, ⟨4, 5, 6⟩, ExtendedDirectMessage, ⟨1, 0x2f, 0⟩,
    [1, 2, 3, 4, 5, 6, 7, 8, 9, 10, 11, 12, 13, 14]⟩

/-- A heap in which the object at address `a` is an in-use controller record
of group `a`. -/
def exampleHeap : Heap :=
  fun a => ⟨0xe2, a, ⟨1, 2, 3⟩, ⟨3, 28, 1⟩⟩

/-- The empty database over a writer that always succeeds. -/
def emptyDB : BaseLinkDB :=
  ⟨LinkWriter.succeeding, []⟩

/-- A heap in which the records at even addresses are in use and the records
at odd addresses are available. -/
def mixedHeap : Heap :=
  fun a => ⟨if a % 2 = 0 then 0xe2 else 0x62, a, ⟨1, 2, 3⟩, ⟨3, 28, 1⟩⟩

/-- A database of four slots holding the objects at addresses 0, 2, 1, 3. -/
def exampleDB : BaseLinkDB :=
  ⟨LinkWriter.succeeding, [some 0, some 2, some 1, some 3]⟩

/-- The test made by FindLink and by FindLinkRecord on one slot: the record is
there, its controller bit equals the requested role, and its Address and Group
equal the requested ones. -/
def linkMatches (heap : Heap) (controller : Bool) (address : Address) (group : Group)
    (l : LinkPtr) : Bool :=
  match l with
  | some p =>
      ((heap p).Flags.Controller == controller) && decide ((heap p).Address = address)
        && decide ((heap p).Group = group)
  | none => false

/-- All pairs `(l[i], l[j])` with `i < j`, in lexicographic order of `(i, j)`. -/
def pairsLex {α : Type} : List α → List (α × α)
  | [] => []
  | x :: rest => rest.map (fun y => (x, y)) ++ pairsLex rest

/-- CrossLink of package link on each pair of the list in turn, stopping at the
first CrossLink that returns an error, which is returned; nil when none fails. -/
def crossLinkEach (env : Devices) (heap : Heap) (group : Group) :
    List (Dev × Dev) → Trace → Option (Option Error × Trace)
  | [], t => some (none, t)
  | (a, b) :: rest, t =>
      match link.CrossLink env heap group a b t with
      | none => none
      | some (some err, t) => some (some err, t)
      | some (none, t) => crossLinkEach env heap group rest t

/-- Continuing a run that has neither panicked nor returned an error. -/
def continueRun (r : Option (Option Error × Trace))
    (f : Trace → Option (Option Error × Trace)) : Option (Option Error × Trace) :=
  match r with
  | none => none
  | some (some err, t) => some (some err, t)
  | some (none, t) => f t

/-- The later record of every pair of positions `i < j` whose records are
Equal, in lexicographic order of `(i, j)`. -/
def duplicatesOf (Equal : LinkPtr → LinkPtr → Bool) (L : List LinkPtr) : List LinkPtr :=
  ((pairsLex L).filter (fun p => Equal p.1 p.2)).map Prod.snd

/-- Two devices 0 and 1 with addresses 00.00.00 and 00.00.01; device 1 holds one
record (the object at address 10) and device 0 holds none; every call succeeds. -/
def staleDevices : Devices :=
  { Address := fun d => ⟨0, 0, d⟩
    isI2Linkable := fun _ => true
    isI1Linkable := fun _ => false
    links := fun d _ => (if d = 1 then [some 10] else [], none)
    linkDB := fun _ _ => (true, none)
    dbLinks := fun d _ => if d = 1 then [some 10] else []
    result := fun _ _ => none }

/-- A heap whose objects are in-use responder records of group 5 for the device
with address 00.00.00. -/
def staleHeap : Heap :=
  fun _ => ⟨0xa2, 5, ⟨0, 0, 0⟩, ⟨0, 0, 0⟩⟩

/-- Devices with addresses 00.00.d; device d holds the objects at addresses 2d
and 2d+1; every call succeeds. -/
def linkedDevices : Devices :=
  { Address := fun d => ⟨0, 0, d⟩
    isI2Linkable := fun _ => true
    isI1Linkable := fun _ => false
    links := fun d _ => ([some (2 * d), some (2 * d + 1)], none)
    linkDB := fun _ _ => (true, none)
    dbLinks := fun d _ => [some (2 * d), some (2 * d + 1)]
    result := fun _ _ => none }

/-- A heap of group-5 records: at even addresses in-use controller records, at
odd addresses in-use responder records; the objects 0 and 1 are for the device
with address 00.00.01, all others for the device with address 00.00.00. With
`linkedDevices`, devices 0 and 1 are linked in both directions in group 5. -/
def linkedHeap : Heap :=
  fun a => ⟨if a % 2 = 0 then 0xe2 else 0xa2, 5, ⟨0, 0, if a < 2 then 1 else 0⟩, ⟨0, 0, 0⟩⟩

/-- Devices on which every call succeeds except EnterLinkingMode and
EnterUnlinkingMode on device 0, which return ErrNotLinked. -/
def refusingDevices : Devices :=
  { Address := fun d => ⟨0, 0, d⟩
    isI2Linkable := fun _ => true
    isI1Linkable := fun _ => false
    links := fun _ _ => ([], none)
    linkDB := fun _ _ => (true, none)
    dbLinks := fun _ _ => []
    result := fun c _ =>
      match c with
      | DevCall.EnterLinkingMode 0 _ => some Error.ErrNotLinked
      | DevCall.EnterUnlinkingMode 0 _ => some Error.ErrNotLinked
      | _ => none }

/-- Device 0 holds one record, the object at address 5 of `exampleHeap` (an
in-use controller record of group 5), whose Address 01.02.03 is the address of
device 1; every call succeeds. -/
def unlinkDevices : Devices :=
  { Address := fun d => if d = 1 then ⟨1, 2, 3⟩ else ⟨0, 0, d⟩
    isI2Linkable := fun _ => true
    isI1Linkable := fun _ => false
    links := fun d _ => (if d = 0 then [some 5] else [], none)
    linkDB := fun _ _ => (true, none)
    dbLinks := fun d _ => if d = 0 then [some 5] else []
    result := fun _ _ => none }

/-- A list of three records of which the first and the last are Equal (same
in-use bit, role, group and address) and differ in their Data. -/
def duplicateHeap : Heap :=
  fun a => ⟨0xe2, if a = 1 then 2 else 1, ⟨1, 2, 3⟩, ⟨a, 0, 0⟩⟩

/-- A device whose Links() returns the objects 0, 1, 2 of `duplicateHeap`. -/
def duplicateDevices : Devices :=
  { Address := fun d => ⟨0, 0, d⟩
    isI2Linkable := fun _ => true
    isI1Linkable := fun _ => false
    links := fun _ _ => ([some 0, some 1, some 2], none)
    linkDB := fun _ _ => (true, none)
    dbLinks := fun _ _ => [some 0, some 1, some 2]
    result := fun _ _ => none }

/-- No marker 0x02 of `garbage` is immediately followed by a known selector in
the stream made of `garbage` and then the byte `next`. -/
def isGarbage (table : Nat → Option Nat) (next : Nat) : List Nat → Bool
  | [] => true
  | g :: gs =>
      (decide (g ≠ 2) || (table (gs.headD next)).isNone) && isGarbage table next gs

/-- A complete well-formed frame: the marker 0x02, a selector known to the
table, and a body of the length the table gives, with 14 more bytes when the
selector is 0x62 and the flags byte at offset 5 has the extended bit. -/
def wellFormedFrame (table : Nat → Option Nat) (frame : List Nat) : Bool :=
  match frame with
  | 2 :: sel :: body =>
      match table sel with
      | some n =>
          decide (body.length =
            n + (if sel = 0x62 ∧ Flags.Extended (frame.getD 5 0) = true then 14 else 0))
      | none => false
  | _ => false

/-- A length table for the examples (the table of the repository is not among
the sources): selectors 0x50, 0x51, 0x58 and 0x62 with body lengths 9, 23, 1
and 7. -/
def exampleLens : Nat → Option Nat :=
  fun c =>
    if c = 0x50 then some 9 else if c = 0x51 then some 23
    else if c = 0x58 then some 1 else if c = 0x62 then some 7 else none

/-- Device 0 holds the records 1 and 2 of `exampleHeap` (groups 1 and 2), whose
Address 01.02.03 is the address of device 1; EnterUnlinkingMode fails for group
1 and every other call succeeds. -/
def maskingDevices : Devices :=
  { Address := fun d => if d = 1 then ⟨1, 2, 3⟩ else ⟨0, 0, d⟩
    isI2Linkable := fun _ => true
    isI1Linkable := fun _ => false
    links := fun d _ => (if d = 0 then [some 1, some 2] else [], none)
    linkDB := fun _ _ => (true, none)
    dbLinks := fun d _ => if d = 0 then [some 1, some 2] else []
    result := fun c _ =>
      match c with
      | DevCall.EnterUnlinkingMode _ 1 => some Error.ErrNotLinked
      | _ => none }

/-- Devices without any link record on which every call succeeds; they are
I2Linkable when `i2` holds and I1Linkable in any case. -/
def bareDevices (i2 : Bool) : Devices :=
  { Address := fun d => ⟨0, 0, d⟩
    isI2Linkable := fun _ => i2
    isI1Linkable := fun _ => true
    links := fun _ _ => ([], none)
    linkDB := fun _ _ => (true, none)
    dbLinks := fun _ _ => []
    result := fun _ _ => none }

/-- The registry of TestMsgListeners after its three AddListener calls, for the
commands `cmdPing` and `cmdALDB` (CmdPing and CmdReadWriteALDB, whose
declarations are not among the sources): queue capacity 1, listeners for
(Direct, Ping), (Broadcast, Ping) and (Direct, ReadWriteALDB). -/
def testListeners (cmdPing cmdALDB : Command) : msgListeners :=
  ((((⟨[], 1, 0⟩ : msgListeners).AddListener MsgTypeDirect [cmdPing]).2.AddListener
    MsgTypeBroadcast [cmdPing]).2.AddListener MsgTypeDirect [cmdALDB]).2

/-- A writer whose WriteLink always fails with ErrNotLinked. -/
def failingWriter : LinkWriter :=
  ⟨[], fun _ _ => some Error.ErrNotLinked⟩

/-- The two slots hold records that differ at most in the in-use bit (bit 7 of
Flags), or are both nil. -/
def sameButInUse (heap1 heap2 : Heap) (l1 l2 : LinkPtr) : Bool :=
  match l1, l2 with
  | some p, some q =>
      decide ((heap1 p).Flags ||| 0x80 = (heap2 q).Flags ||| 0x80)
        && decide ((heap1 p).Group = (heap2 q).Group)
        && decide ((heap1 p).Address = (heap2 q).Address)
        && decide ((heap1 p).Data = (heap2 q).Data)
  | none, none => true
  | _, _ => false

/-- Devices 0 and 1 of `linkedDevices` once every record has been marked
available: the flags of the records of `linkedHeap` without the in-use bit. -/
def tombstonedHeap : Heap :=
  fun a => { linkedHeap a with Flags := (linkedHeap a).Flags &&& 0x7f }

/-- A device whose Links() returns the objects 0, 1, 2, 3 of `duplicateHeap`, of
which the objects 0, 2 and 3 are mutually Equal and the object 1 is Equal to
none of them. -/
def groupDevices : Devices :=
  { Address := fun d => ⟨0, 0, d⟩
    isI2Linkable := fun _ => true
    isI1Linkable := fun _ => false
    links := fun _ _ => ([some 0, some 1, some 2, some 3], none)
    linkDB := fun _ _ => (true, none)
    dbLinks := fun _ _ => [some 0, some 1, some 2, some 3]
    result := fun _ _ => none }

/-! ## Message codec -/

theorem UnmarshalBinary_short (m : Message) (d : List Nat) (h : d.length < 9) :
    m.UnmarshalBinary d = (m, some (Error.ErrBufferTooShort 9 d.length)) := by
  unfold Message.UnmarshalBinary
  rw [if_pos (by simpa [StandardMsgLen] using h)]
  rfl

theorem UnmarshalBinary_long (m : Message) (d : List Nat) (h : ¬ d.length < 9) :
    m.UnmarshalBinary d =
      if Flags.Extended (d.getD 6 0) then
        if d.length < 23 then
          (decodedHeader m d, some (Error.ErrBufferTooShort 23 d.length))
        else
          ({ decodedHeader m d with Payload := copy (make 14) (d.drop 9) }, none)
      else (decodedHeader m d, none) := by
  unfold Message.UnmarshalBinary
  rw [if_neg (by simpa [StandardMsgLen] using h)]
  unfold decodedHeader
  dsimp only [ExtendedMsgLen]
  split <;> rfl

theorem and16_mod (f : Nat) : f &&& 0x10 = (f % 32) &&& 0x10 := by
  have h := Nat.and_pow_two_sub_one_eq_mod f 5
  norm_num at h
  rw [← h, Nat.and_assoc]
  rfl

theorem and16_cases (f : Nat) : f &&& 0x10 = 0 ∨ f &&& 0x10 = 0x10 := by
  rw [and16_mod]
  have hlt : f % 32 < 32 := Nat.mod_lt _ (by norm_num)
  revert hlt
  generalize f % 32 = x
  revert x
  decide

theorem Flags.Standard_eq_not_Extended (f : Flags) : f.Standard = !f.Extended := by
  unfold Flags.Standard Flags.Extended
  rcases and16_cases f with h | h <;> rw [h] <;> rfl

theorem MarshalBinary_standard (m : Message) (h : m.Flags.Extended = false) :
    m.MarshalBinary =
      ([m.Src.b0, m.Src.b1, m.Src.b2, m.Dst.b0, m.Dst.b1, m.Dst.b2,
        m.Flags, m.Command.b1, m.Command.b2], none) := by
  simp [Message.MarshalBinary, h, make, copyAt, copy, subslice, Byte3.toSlice, StandardMsgLen,
    List.replicate]

theorem MarshalBinary_extended (m : Message) (h : m.Flags.Extended = true) :
    m.MarshalBinary =
      ([m.Src.b0, m.Src.b1, m.Src.b2, m.Dst.b0, m.Dst.b1, m.Dst.b2,
        m.Flags, m.Command.b1, m.Command.b2] ++ copy (make 14) m.Payload, none) := by
  simp [Message.MarshalBinary, h, make, copyAt, copy, subslice, Byte3.toSlice, StandardMsgLen,
    List.replicate]

theorem copy_make_length (n : Nat) (p : List Nat) : (copy (make n) p).length = n := by
  simp [copy, make]
  omega

theorem copy_make_eq (n : Nat) (p : List Nat) :
    copy (make n) p = p.take n ++ List.replicate (n - p.length) 0 := by
  simp [copy, make]

theorem copy_make_self (p : List Nat) : copy (make p.length) p = p := by
  simp [copy_make_eq]

theorem decodedHeader_cons9 (m0 : Message) (s0 s1 s2 d0 d1 d2 f c1 c2 : Nat)
    (rest : List Nat) :
    decodedHeader m0 (s0 :: s1 :: s2 :: d0 :: d1 :: d2 :: f :: c1 :: c2 :: rest) =
      { Src := ⟨s0, s1, s2⟩, Dst := ⟨d0, d1, d2⟩, Flags := f,
        Command :=
          ⟨if f &&& 0xe0 == 0xa0 || f &&& 0xe0 == 0xe0 then (0x70 &&& f) >>> 4 else f >>> 4,
            c1, c2⟩,
        Payload := m0.Payload } := by
  simp [decodedHeader, Byte3.copyFrom, Byte3.ofSlice, copy, subslice, Byte3.toSlice]

theorem roundtrip_eq (m : Message)
    (hstd : m.Flags.Standard = true → m.Payload = [])
    (hext : m.Flags.Extended = true → m.Payload.length = 14) :
    Message.zero.UnmarshalBinary m.MarshalBinary.1 =
      ({ m with Command :=
            ⟨if m.Flags &&& 0xe0 == 0xa0 || m.Flags &&& 0xe0 == 0xe0
                then (0x70 &&& m.Flags) >>> 4 else m.Flags >>> 4,
              m.Command.b1, m.Command.b2⟩ }, none) := by
  cases h : m.Flags.Extended
  · have hs : m.Flags.Standard = true := by rw [Flags.Standard_eq_not_Extended, h]; rfl
    rw [MarshalBinary_standard m h, UnmarshalBinary_long _ _ (by simp)]
    dsimp only [List.getD_cons_succ, List.getD_cons_zero]
    rw [if_neg (by simp [h]), decodedHeader_cons9, hstd hs]
    rfl
  · have h14 := hext h
    rw [MarshalBinary_extended m h, UnmarshalBinary_long _ _ (by simp [copy_make_length])]
    simp only [List.cons_append, List.nil_append, List.getD_cons_succ, List.getD_cons_zero]
    rw [if_pos h, if_neg (by simp [copy_make_length]), decodedHeader_cons9]
    simp only [List.drop_succ_cons, List.drop_zero]
    rw [← h14, copy_make_self, copy_make_self]

/-- C1, as stated, fails: the standard broadcast message of `connection_test.go`
(empty payload, command group byte 0) is valid, is encoded and decoded without
error, and comes back with command group byte 8, so its Command is not
reproduced. -/
theorem Message_roundtrip_command_counterexample :
    broadcastExample.Flags.Standard = true ∧ broadcastExample.Payload = [] ∧
    broadcastExample.MarshalBinary = ([0, 0, 0, 7, 79, 42, 0x8a, 1, 0], none) ∧
    (Message.zero.UnmarshalBinary broadcastExample.MarshalBinary.1).2 = none ∧
    (Message.zero.UnmarshalBinary broadcastExample.MarshalBinary.1).1.Command = ⟨8, 1, 0⟩ ∧
    (Message.zero.UnmarshalBinary broadcastExample.MarshalBinary.1).1.Command
      ≠ broadcastExample.Command := by
  decide

/-- C1, amended: for every valid Message m (Payload empty when m.Flags is
standard, 14 bytes when extended), decoding MarshalBinary(m) into a fresh
Message succeeds and reproduces Src, Dst, Flags, Command[1], Command[2] and
Payload; Command[0] is not carried on the wire but recomputed from the flags
byte ((Flags and 0x70) >> 4 for the two NAK types, Flags >> 4 otherwise), so
the whole message is reproduced exactly when m.Command[0] has that value. -/
theorem Message_roundtrip (m : Message)
    (hstd : m.Flags.Standard = true → m.Payload = [])
    (hext : m.Flags.Extended = true → m.Payload.length = 14) :
    (Message.zero.UnmarshalBinary m.MarshalBinary.1).2 = none ∧
    (Message.zero.UnmarshalBinary m.MarshalBinary.1).1.Src = m.Src ∧
    (Message.zero.UnmarshalBinary m.MarshalBinary.1).1.Dst = m.Dst ∧
    (Message.zero.UnmarshalBinary m.MarshalBinary.1).1.Flags = m.Flags ∧
    (Message.zero.UnmarshalBinary m.MarshalBinary.1).1.Command.b1 = m.Command.b1 ∧
    (Message.zero.UnmarshalBinary m.MarshalBinary.1).1.Command.b2 = m.Command.b2 ∧
    (Message.zero.UnmarshalBinary m.MarshalBinary.1).1.Payload = m.Payload ∧
    (Message.zero.UnmarshalBinary m.MarshalBinary.1).1.Command.b0 =
      (if m.Flags &&& 0xe0 == 0xa0 || m.Flags &&& 0xe0 == 0xe0
        then (0x70 &&& m.Flags) >>> 4 else m.Flags >>> 4) ∧
    ((Message.zero.UnmarshalBinary m.MarshalBinary.1).1 = m ↔
      m.Command.b0 =
        (if m.Flags &&& 0xe0 == 0xa0 || m.Flags &&& 0xe0 == 0xe0
          then (0x70 &&& m.Flags) >>> 4 else m.Flags >>> 4)) := by
  rw [roundtrip_eq m hstd hext]
  refine ⟨rfl, rfl, rfl, rfl, rfl, rfl, rfl, rfl, ?_⟩
  obtain ⟨src, dst, flags, ⟨c0, c1, c2⟩, payload⟩ := m
  constructor
  · intro h
    have h2 := congrArg (fun x => x.Command.b0) h
    exact h2.symm
  · intro h
    dsimp only at h ⊢
    rw [← h]

/-- Message_roundtrip at an extended direct message with a 14-byte payload. -/
theorem Message_roundtrip_witness :
    (extendedExample.Flags.Extended = true ∧ extendedExample.Payload.length = 14) ∧
    (Message.zero.UnmarshalBinary extendedExample.MarshalBinary.1).1 = extendedExample :=
  ⟨by decide,
    (Message_roundtrip extendedExample (by decide) (by decide)).2.2.2.2.2.2.2.2.2 (by decide)⟩

/-- C3: MarshalBinary never fails; the first nine bytes are Src, Dst, Flags,
Command[1], Command[2]; the output is exactly 9 bytes for standard flags and
exactly 23 bytes for extended flags, where offsets 9-22 hold the first 14
bytes of the Payload, zero-padded on the right. -/
theorem MarshalBinary_layout (m : Message) :
    m.MarshalBinary.2 = none ∧
    m.MarshalBinary.1.take 9 =
      [m.Src.b0, m.Src.b1, m.Src.b2, m.Dst.b0, m.Dst.b1, m.Dst.b2,
        m.Flags, m.Command.b1, m.Command.b2] ∧
    (m.Flags.Standard = true → m.MarshalBinary.1.length = 9) ∧
    (m.Flags.Extended = true →
      m.MarshalBinary.1.length = 23 ∧
      m.MarshalBinary.1.drop 9 =
        m.Payload.take 14 ++ List.replicate (14 - m.Payload.length) 0) := by
  cases h : m.Flags.Extended
  · have hs : m.Flags.Standard = true := by rw [Flags.Standard_eq_not_Extended, h]; rfl
    rw [MarshalBinary_standard m h]
    simp [hs]
  · have hs : m.Flags.Standard = false := by rw [Flags.Standard_eq_not_Extended, h]; rfl
    rw [MarshalBinary_extended m h]
    simp [hs, copy_make_length, copy_make_eq]
    omega

/-- MarshalBinary_layout at an extended message whose payload has three bytes
and at the standard broadcast example. -/
theorem MarshalBinary_layout_witness :
    (({ extendedExample with Payload := [9, 8, 7] } : Message).MarshalBinary.1.length = 23 ∧
      ({ extendedExample with Payload := [9, 8, 7] } : Message).MarshalBinary.1.drop 9 =
        [9, 8, 7, 0, 0, 0, 0, 0, 0, 0, 0, 0, 0, 0]) ∧
    broadcastExample.MarshalBinary.1.length = 9 :=
  ⟨(MarshalBinary_layout { extendedExample with Payload := [9, 8, 7] }).2.2.2 (by decide),
    (MarshalBinary_layout broadcastExample).2.2.1 (by decide)⟩

/-- C4: UnmarshalBinary returns an error if and only if the input has fewer
than 9 bytes, or its flags byte d[6] has the extended bit 0x10 set and the
input has fewer than 23 bytes; the error is then the buffer-too-short error
(for 9 or for 23 bytes), and in every other case the result is nil. -/
theorem UnmarshalBinary_error_iff (m : Message) (d : List Nat) :
    ((m.UnmarshalBinary d).2 ≠ none ↔
      (d.length < 9 ∨ (d.getD 6 0 &&& 0x10 = 0x10 ∧ d.length < 23))) ∧
    (∀ e, (m.UnmarshalBinary d).2 = some e →
      e = Error.ErrBufferTooShort 9 d.length ∨ e = Error.ErrBufferTooShort 23 d.length) := by
  by_cases h9 : d.length < 9
  · rw [UnmarshalBinary_short m d h9]
    exact ⟨⟨fun _ => Or.inl h9, fun _ => by simp⟩, fun e he => Or.inl (Option.some.inj he).symm⟩
  · rw [UnmarshalBinary_long m d h9]
    have hx : Flags.Extended (d.getD 6 0) = true ↔ d.getD 6 0 &&& 0x10 = 0x10 := by
      unfold Flags.Extended
      exact beq_iff_eq
    by_cases he : Flags.Extended (d.getD 6 0) = true
    · have hx1 := hx.1 he
      rw [if_pos he]
      by_cases h23 : d.length < 23
      · rw [if_pos h23]
        exact ⟨⟨fun _ => Or.inr ⟨hx1, h23⟩, fun _ => by simp⟩,
          fun e h => Or.inr (Option.some.inj h).symm⟩
      · rw [if_neg h23]
        refine ⟨⟨fun h => absurd rfl h, fun h => ?_⟩, fun e h => by simp at h⟩
        rcases h with h | ⟨_, h⟩
        · exact absurd h h9
        · exact absurd h h23
    · have hx1 : ¬ (d.getD 6 0 &&& 0x10 = 0x10) := fun h => he (hx.2 h)
      rw [if_neg he]
      refine ⟨⟨fun h => absurd rfl h, fun h => ?_⟩, fun e h => by simp at h⟩
      rcases h with h | ⟨h, _⟩
      · exact absurd h h9
      · exact absurd h hx1

/-- UnmarshalBinary_error_iff at a 9-byte input whose flags byte is extended. -/
theorem UnmarshalBinary_error_iff_witness :
    (Message.zero.UnmarshalBinary [1, 2, 3, 4, 5, 6, 0x1a, 0x2f, 0]).2 ≠ none :=
  (UnmarshalBinary_error_iff Message.zero [1, 2, 3, 4, 5, 6, 0x1a, 0x2f, 0]).1.2
    (Or.inr ⟨by decide, by decide⟩)

/-- C5: for each of the eight message types t, every boolean e and all
hopsLeft, maxHops in 0..3, Flag(t, e, hopsLeft, maxHops) is the byte
t | (e ? 0x10 : 0) | hopsLeft<<2 | maxHops, and Type, Extended, Standard, TTL
and MaxTTL recover t, e, not e, hopsLeft and maxHops. -/
theorem Flag_accessors :
    ∀ t ∈ messageTypes, ∀ e : Bool, ∀ hopsLeft < 4, ∀ maxHops < 4,
      Flag t e hopsLeft maxHops
          = t.toNat ||| (if e then 0x10 else 0) ||| hopsLeft <<< 2 ||| maxHops ∧
      (Flag t e hopsLeft maxHops).Type_ = t ∧
      (Flag t e hopsLeft maxHops).Extended = e ∧
      (Flag t e hopsLeft maxHops).Standard = !e ∧
      (Flag t e hopsLeft maxHops).TTL = hopsLeft ∧
      (Flag t e hopsLeft maxHops).MaxTTL = maxHops := by
  decide

/-- Flag_accessors at an extended direct NAK with two hops left of three. -/
theorem Flag_accessors_witness :
    MsgTypeDirectNak ∈ messageTypes ∧ 2 < 4 ∧ 3 < 4 ∧
    Flag MsgTypeDirectNak true 2 3 = 0xbb ∧
    (Flag MsgTypeDirectNak true 2 3).Type_ = MsgTypeDirectNak ∧
    (Flag MsgTypeDirectNak true 2 3).TTL = 2 ∧
    (Flag MsgTypeDirectNak true 2 3).MaxTTL = 3 :=
  have h := Flag_accessors MsgTypeDirectNak (by decide) true 2 (by decide) 3 (by decide)
  ⟨by decide, by decide, by decide, h.1.trans (by decide), h.2.1, h.2.2.2.2.1, h.2.2.2.2.2⟩

/-! ## Link records -/

theorem Link_MarshalBinary_eq (l : Link) :
    l.MarshalBinary =
      ([l.Flags, l.Group, l.Address.b0, l.Address.b1, l.Address.b2,
        l.Data.b0, l.Data.b1, l.Data.b2], none) := by
  simp [Link.MarshalBinary, make, copyAt, copy, subslice, Byte3.toSlice, List.replicate]

/-- C2: for every Link record l, UnmarshalBinary applied to MarshalBinary(l)
succeeds and leaves the receiver (whatever it held before) equal to l in all
four fields. -/
theorem Link_roundtrip (l l0 : Link) :
    (l0.UnmarshalBinary l.MarshalBinary.1).2 = none ∧
    (l0.UnmarshalBinary l.MarshalBinary.1).1.Flags = l.Flags ∧
    (l0.UnmarshalBinary l.MarshalBinary.1).1.Group = l.Group ∧
    (l0.UnmarshalBinary l.MarshalBinary.1).1.Address = l.Address ∧
    (l0.UnmarshalBinary l.MarshalBinary.1).1.Data = l.Data := by
  rw [Link_MarshalBinary_eq]
  simp [Link.UnmarshalBinary, Byte3.copyFrom, Byte3.ofSlice, copy, subslice, Byte3.toSlice]

theorem and_mask_of_and_c0 {f g : Nat} (h : f &&& 0xC0 = g &&& 0xC0) (k : Nat)
    (hk : 0xC0 &&& k = k) : f &&& k = g &&& k := by
  rw [← hk, ← Nat.and_assoc, ← Nat.and_assoc, h]

/-- C6: for two non-nil Link records, Equal is true if and only if their
in-use bits agree, their controller bits agree, and their Groups and Addresses
are equal; consequently the result is the same in every heap in which the two
records keep flag bits 7 and 6, Group and Address, whatever their Data bytes
and their other six flag bits are. -/
theorem Link_Equal_iff (heap : Heap) (p q : Nat) :
    (Link.Equal heap (some p) (some q) = true ↔
      ((heap p).Flags.InUse = (heap q).Flags.InUse ∧
       (heap p).Flags.Controller = (heap q).Flags.Controller ∧
       (heap p).Group = (heap q).Group ∧
       (heap p).Address = (heap q).Address)) ∧
    (∀ heap2 : Heap,
      (∀ x, x = p ∨ x = q →
        (heap2 x).Flags &&& 0xC0 = (heap x).Flags &&& 0xC0 ∧
        (heap2 x).Group = (heap x).Group ∧ (heap2 x).Address = (heap x).Address) →
      Link.Equal heap2 (some p) (some q) = Link.Equal heap (some p) (some q)) := by
  have key : ∀ hp : Heap, Link.Equal hp (some p) (some q) = true ↔
      ((hp p).Flags.InUse = (hp q).Flags.InUse ∧
       (hp p).Flags.Controller = (hp q).Flags.Controller ∧
       (hp p).Group = (hp q).Group ∧
       (hp p).Address = (hp q).Address) := by
    intro hp
    unfold Link.Equal
    by_cases h : (some p : LinkPtr) = some q
    · have hpq : p = q := Option.some.inj h
      subst hpq
      simp
    · rw [if_neg h]
      simp [and_assoc]
  refine ⟨key heap, fun heap2 hagree => ?_⟩
  obtain ⟨hfp, hgp, hap⟩ := hagree p (Or.inl rfl)
  obtain ⟨hfq, hgq, haq⟩ := hagree q (Or.inr rfl)
  have e1 : (heap2 p).Flags.InUse = (heap p).Flags.InUse := by
    unfold RecordControlFlags.InUse
    rw [and_mask_of_and_c0 hfp 0x80 (by decide)]
  have e2 : (heap2 q).Flags.InUse = (heap q).Flags.InUse := by
    unfold RecordControlFlags.InUse
    rw [and_mask_of_and_c0 hfq 0x80 (by decide)]
  have e3 : (heap2 p).Flags.Controller = (heap p).Flags.Controller := by
    unfold RecordControlFlags.Controller
    rw [and_mask_of_and_c0 hfp 0x40 (by decide)]
  have e4 : (heap2 q).Flags.Controller = (heap q).Flags.Controller := by
    unfold RecordControlFlags.Controller
    rw [and_mask_of_and_c0 hfq 0x40 (by decide)]
  rw [Bool.eq_iff_iff, key heap2, key heap, e1, e2, e3, e4, hgp, hgq, hap, haq]

/-- Link_Equal_iff between `exampleHeap` and a heap whose records differ from
it in the Data bytes and in the low six flag bits. -/
theorem Link_Equal_iff_witness :
    Link.Equal (fun a => ⟨0xc0, a, ⟨1, 2, 3⟩, ⟨0, 0, 0⟩⟩) (some 1) (some 2)
      = Link.Equal exampleHeap (some 1) (some 2) :=
  (Link_Equal_iff exampleHeap 1 2).2 (fun a => ⟨0xc0, a, ⟨1, 2, 3⟩, ⟨0, 0, 0⟩⟩)
    (fun _ _ => ⟨by simp only [exampleHeap]; decide, rfl, rfl⟩)

/-- C7: for every Link record l, MarshalBinary succeeds and returns exactly 8
bytes: Flags, Group, the three Address bytes and the three Data bytes, in that
order. -/
theorem Link_MarshalBinary_layout (l : Link) :
    l.MarshalBinary.2 = none ∧
    l.MarshalBinary.1.length = 8 ∧
    l.MarshalBinary.1 =
      [l.Flags, l.Group] ++ [l.Address.b0, l.Address.b1, l.Address.b2]
        ++ [l.Data.b0, l.Data.b1, l.Data.b2] := by
  rw [Link_MarshalBinary_eq]
  simp

/-! ## Link database -/

theorem addLinkScan_eq (heap : Heap) (L : List LinkPtr) (hnn : ∀ p ∈ L, p ≠ none)
    (i0 lp : Int) (mem : MemAddress) :
    BaseLinkDB.addLinkScan heap L i0 lp mem =
      if L.findIdx (slotAvailable heap) < L.length then
        some (i0 + (L.findIdx (slotAvailable heap) : Nat),
          mem - 8 * (L.findIdx (slotAvailable heap) : Nat))
      else some (lp, mem - 8 * (L.length : Nat)) := by
  induction L generalizing i0 mem with
  | nil => simp [BaseLinkDB.addLinkScan]
  | cons p rest ih =>
    cases p with
    | none => exact absurd rfl (hnn none (List.mem_cons_self _ _))
    | some a =>
      have hrest : ∀ q ∈ rest, q ≠ none := fun q hq => hnn q (List.mem_cons_of_mem _ hq)
      rw [BaseLinkDB.addLinkScan, List.findIdx_cons]
      cases hav : (heap a).Flags.Available
      · have hs : slotAvailable heap (some a) = false := hav
        rw [hs, ih hrest]
        simp only [cond_false, List.length_cons, Nat.add_lt_add_iff_right, Bool.false_eq_true,
          if_false]
        split
        · congr 2 <;> push_cast <;> ring
        · congr 2; push_cast; ring
      · have hs : slotAvailable heap (some a) = true := hav
        rw [hs]
        simp

theorem AddLink_eq (db : BaseLinkDB) (heap : Heap) (newLink : LinkPtr)
    (hnn : ∀ p ∈ db.links, p ≠ none) :
    db.AddLink heap newLink =
      some ({ LinkWriter :=
                (db.LinkWriter.WriteLink heap
                  (0x0fff - 8 * ((db.links.findIdx (slotAvailable heap) : Nat) + 1)) newLink).1
              links :=
                if db.links.findIdx (slotAvailable heap) < db.links.length then
                  db.links.set (db.links.findIdx (slotAvailable heap)) newLink
                else db.links ++ [newLink] },
            heap,
            (db.LinkWriter.WriteLink heap
              (0x0fff - 8 * ((db.links.findIdx (slotAvailable heap) : Nat) + 1)) newLink).2) := by
  unfold BaseLinkDB.AddLink
  rw [addLinkScan_eq heap db.links hnn]
  by_cases h : db.links.findIdx (slotAvailable heap) < db.links.length
  · simp only [if_pos h]
    have h0 : (0 : Int) + (db.links.findIdx (slotAvailable heap) : Nat) ≥ 0 := by omega
    simp only [if_pos h0]
    have e1 : ((0 : Int) + (db.links.findIdx (slotAvailable heap) : Nat)).toNat
        = db.links.findIdx (slotAvailable heap) := by omega
    have e2 : (0x0fff : Int) - 8 * (db.links.findIdx (slotAvailable heap) : Nat) - 8
        = 0x0fff - 8 * ((db.links.findIdx (slotAvailable heap) : Nat) + 1) := by ring
    rw [e1, e2]
  · simp only [if_neg h]
    have hlen : db.links.findIdx (slotAvailable heap) = db.links.length :=
      Nat.le_antisymm (List.findIdx_le_length _) (Nat.le_of_not_lt h)
    have h0 : ¬ ((-1 : Int) ≥ 0) := by decide
    simp only [if_neg h0]
    have e2 : (0x0fff : Int) - 8 * (db.links.length : Nat) - 8
        = 0x0fff - 8 * ((db.links.findIdx (slotAvailable heap) : Nat) + 1) := by
      rw [hlen]; ring
    rw [e2]

theorem removeLinkLoop_cons (db : BaseLinkDB) (heap : Heap) (oldLink link : LinkPtr)
    (rest : List LinkPtr) (mem : MemAddress) :
    BaseLinkDB.removeLinkLoop db heap oldLink (link :: rest) mem =
      if Link.Equal heap link oldLink then
        match link with
        | none => none
        | some p =>
            some ({ db with
                    LinkWriter :=
                      (db.LinkWriter.WriteLink
                        (Function.update heap p { heap p with Flags := (heap p).Flags.setAvailable })
                        (mem - 8) (some p)).1 },
                  Function.update heap p { heap p with Flags := (heap p).Flags.setAvailable },
                  (db.LinkWriter.WriteLink
                    (Function.update heap p { heap p with Flags := (heap p).Flags.setAvailable })
                    (mem - 8) (some p)).2)
      else BaseLinkDB.removeLinkLoop db heap oldLink rest (mem - 8) := by
  cases link <;> rfl

theorem removeLinkLoop_eq (db : BaseLinkDB) (heap : Heap) (oldLink : LinkPtr)
    (rest : List LinkPtr) (mem : MemAddress) :
    BaseLinkDB.removeLinkLoop db heap oldLink rest mem =
      match rest[rest.findIdx (fun l => Link.Equal heap l oldLink)]? with
      | none => some (db, heap, none)
      | some none => none
      | some (some p) =>
          some ({ db with
                  LinkWriter :=
                    (db.LinkWriter.WriteLink
                      (Function.update heap p { heap p with Flags := (heap p).Flags.setAvailable })
                      (mem - 8 * ((rest.findIdx (fun l => Link.Equal heap l oldLink) : Nat) + 1))
                      (some p)).1 },
                Function.update heap p { heap p with Flags := (heap p).Flags.setAvailable },
                (db.LinkWriter.WriteLink
                  (Function.update heap p { heap p with Flags := (heap p).Flags.setAvailable })
                  (mem - 8 * ((rest.findIdx (fun l => Link.Equal heap l oldLink) : Nat) + 1))
                  (some p)).2) := by
  induction rest generalizing mem with
  | nil => simp [BaseLinkDB.removeLinkLoop]
  | cons link rest ih =>
    rw [removeLinkLoop_cons, List.findIdx_cons]
    cases heq : Link.Equal heap link oldLink
    · simp only [Bool.false_eq_true, if_false, cond_false, List.getElem?_cons_succ]
      rw [ih]
      have e : mem - 8 - 8 * ((rest.findIdx (fun l => Link.Equal heap l oldLink) : Nat) + 1)
          = mem - 8 * (((rest.findIdx (fun l => Link.Equal heap l oldLink) + 1 : Nat) : Int) + 1) := by
        push_cast; ring
      rw [e]
    · simp only [if_true, cond_true, List.getElem?_cons_zero]
      cases link with
      | none => rfl
      | some p =>
        have e : mem - 8 = mem - 8 * (((0 : Nat) : Int) + 1) := by norm_num
        simp only [e]

theorem findIdx_eq_of_first {α : Type} (P : α → Bool) (L : List α) (i : Nat)
    (hi : i < L.length) (h1 : P L[i] = true)
    (h2 : ∀ j (hj : j < L.length), j < i → P L[j] = false) : L.findIdx P = i :=
  (List.findIdx_eq hi).2 ⟨h1, fun j hji => h2 j (Nat.lt_trans hji hi) hji⟩

theorem AddLink_reuse (db : BaseLinkDB) (heap : Heap) (newLink : LinkPtr)
    (hnn : ∀ p ∈ db.links, p ≠ none) (i : Nat) (hi : i < db.links.length)
    (h1 : slotAvailable heap db.links[i] = true)
    (h2 : ∀ j (hj : j < db.links.length), j < i → slotAvailable heap db.links[j] = false) :
    (db.AddLink heap newLink).map (fun o => (o.1.links, o.1.LinkWriter.calls)) =
      some (db.links.set i newLink,
        db.LinkWriter.calls ++ [⟨0x0fff - 8 * ((i : Int) + 1), newLink⟩]) := by
  rw [AddLink_eq db heap newLink hnn, findIdx_eq_of_first _ _ i hi h1 h2, if_pos hi]
  rfl

theorem AddLink_append (db : BaseLinkDB) (heap : Heap) (newLink : LinkPtr)
    (hnn : ∀ p ∈ db.links, p ≠ none)
    (h : ∀ p ∈ db.links, slotAvailable heap p = false) :
    (db.AddLink heap newLink).map (fun o => (o.1.links, o.1.LinkWriter.calls)) =
      some (db.links ++ [newLink],
        db.LinkWriter.calls ++ [⟨0x0fff - 8 * ((db.links.length : Int) + 1), newLink⟩]) := by
  rw [AddLink_eq db heap newLink hnn, List.findIdx_eq_length_of_false h,
    if_neg (Nat.lt_irrefl _)]
  rfl

theorem RemoveLink_calls (db : BaseLinkDB) (heap : Heap) (oldLink : LinkPtr)
    (hnn : ∀ p ∈ db.links, p ≠ none) (i : Nat) (hi : i < db.links.length)
    (h1 : Link.Equal heap db.links[i] oldLink = true)
    (h2 : ∀ j (hj : j < db.links.length), j < i → Link.Equal heap db.links[j] oldLink = false) :
    (db.RemoveLink heap oldLink).map (fun o => o.1.LinkWriter.calls) =
      some (db.LinkWriter.calls ++ [⟨0x0fff - 8 * ((i : Int) + 1), db.links[i]⟩]) := by
  unfold BaseLinkDB.RemoveLink
  rw [removeLinkLoop_eq,
    findIdx_eq_of_first (fun l => Link.Equal heap l oldLink) db.links i hi h1 h2,
    List.getElem?_eq_getElem hi]
  cases hp : db.links[i] with
  | none => exact absurd hp (hnn _ (List.getElem_mem hi))
  | some p => rfl

/-- C8, as stated, fails: AddLink on the empty database over a succeeding
writer issues one write, and its address is 0x0FF7, not 0x0FFF. -/
theorem AddLink_empty_memAddress_counterexample :
    (emptyDB.AddLink exampleHeap (some 0)).map (fun o => o.1.LinkWriter.calls)
      = some [⟨0x0ff7, some 0⟩] ∧
    (emptyDB.AddLink exampleHeap (some 0)).map (fun o => o.1.LinkWriter.calls)
      ≠ some [⟨0x0fff - 8 * 0, some 0⟩] := by
  decide

/-- C8, amended: in BaseLinkDB the record held at slot index i (0-based) is
bound to memory address 0x0FFF - 8*(i+1). The single write issued by AddLink
when it stores a record at slot i (the first available slot, or the new last
slot when none is available) and the single write issued by RemoveLink when
the first matching record is at slot i both target that address; AddLink on an
empty database writes its record to address 0x0FF7. The stored pointers are
assumed non-nil. -/
theorem slot_memAddress (db : BaseLinkDB) (heap : Heap) (link : LinkPtr)
    (hnn : ∀ p ∈ db.links, p ≠ none) :
    (∀ i (hi : i < db.links.length), slotAvailable heap db.links[i] = true →
      (∀ j (hj : j < db.links.length), j < i → slotAvailable heap db.links[j] = false) →
      (db.AddLink heap link).map (fun o => (o.1.links, o.1.LinkWriter.calls)) =
        some (db.links.set i link,
          db.LinkWriter.calls ++ [⟨0x0fff - 8 * ((i : Int) + 1), link⟩])) ∧
    ((∀ p ∈ db.links, slotAvailable heap p = false) →
      (db.AddLink heap link).map (fun o => (o.1.links, o.1.LinkWriter.calls)) =
        some (db.links ++ [link],
          db.LinkWriter.calls ++ [⟨0x0fff - 8 * ((db.links.length : Int) + 1), link⟩])) ∧
    (∀ i (hi : i < db.links.length), Link.Equal heap db.links[i] link = true →
      (∀ j (hj : j < db.links.length), j < i → Link.Equal heap db.links[j] link = false) →
      (db.RemoveLink heap link).map (fun o => o.1.LinkWriter.calls) =
        some (db.LinkWriter.calls ++ [⟨0x0fff - 8 * ((i : Int) + 1), db.links[i]⟩])) ∧
    (db.links = [] →
      (db.AddLink heap link).map (fun o => (o.1.links, o.1.LinkWriter.calls)) =
        some ([link], db.LinkWriter.calls ++ [⟨0x0ff7, link⟩])) := by
  refine ⟨fun i hi h1 h2 => AddLink_reuse db heap link hnn i hi h1 h2,
    fun h => AddLink_append db heap link hnn h,
    fun i hi h1 h2 => RemoveLink_calls db heap link hnn i hi h1 h2, fun hempty => ?_⟩
  have h := AddLink_append db heap link hnn (by rw [hempty]; simp)
  rw [h, hempty]
  rfl

/-- The amended C8 on a four-slot database whose slot 2 is the first available
one: AddLink reuses slot 2 and writes to 0x0FE7, and RemoveLink of the record
in slot 1 writes to 0x0FEF. -/
theorem slot_memAddress_witness :
    (exampleDB.AddLink mixedHeap (some 4)).map (fun o => (o.1.links, o.1.LinkWriter.calls))
      = some ([some 0, some 2, some 4, some 3], [⟨0x0fe7, some 4⟩]) ∧
    (exampleDB.RemoveLink mixedHeap (some 2)).map (fun o => o.1.LinkWriter.calls)
      = some [⟨0x0fef, some 2⟩] :=
  ⟨(slot_memAddress exampleDB mixedHeap (some 4) (by decide)).1 2 (by decide) (by decide)
      (by decide),
    (slot_memAddress exampleDB mixedHeap (some 2) (by decide)).2.2.1 1 (by decide) (by decide)
      (by decide)⟩

/-- C9: for every database (of non-nil records) and every record r, AddLink(r)
returns after exactly one WriteLink call, which carries r; if some record has
its in-use bit clear, then with i the smallest index of such a record the
resulting sequence is the old one with slot i replaced by r; otherwise it is
the old one with r appended at the end. -/
theorem AddLink_slot (db : BaseLinkDB) (heap : Heap) (r : LinkPtr)
    (hnn : ∀ p ∈ db.links, p ≠ none) :
    (∃ memAddress : MemAddress,
      (db.AddLink heap r).map (fun o => o.1.LinkWriter.calls) =
        some (db.LinkWriter.calls ++ [⟨memAddress, r⟩])) ∧
    (∀ i (hi : i < db.links.length), slotAvailable heap db.links[i] = true →
      (∀ j (hj : j < db.links.length), j < i → slotAvailable heap db.links[j] = false) →
      (db.AddLink heap r).map (fun o => o.1.links) = some (db.links.set i r)) ∧
    ((∀ p ∈ db.links, slotAvailable heap p = false) →
      (db.AddLink heap r).map (fun o => o.1.links) = some (db.links ++ [r])) := by
  refine ⟨⟨0x0fff - 8 * ((db.links.findIdx (slotAvailable heap) : Nat) + 1), ?_⟩,
    fun i hi h1 h2 => ?_, fun h => ?_⟩
  · rw [AddLink_eq db heap r hnn]
    rfl
  · have h := AddLink_reuse db heap r hnn i hi h1 h2
    rw [AddLink_eq db heap r hnn] at h ⊢
    exact congrArg (Option.map Prod.fst) h
  · have h2 := AddLink_append db heap r hnn h
    rw [AddLink_eq db heap r hnn] at h2 ⊢
    exact congrArg (Option.map Prod.fst) h2

/-- AddLink_slot on the four-slot example: slot 2 is the first available one
and is replaced; on a database with no available slot the record is appended. -/
theorem AddLink_slot_witness :
    (exampleDB.AddLink mixedHeap (some 4)).map (fun o => o.1.links)
      = some [some 0, some 2, some 4, some 3] ∧
    (exampleDB.AddLink exampleHeap none).map (fun o => o.1.links)
      = some [some 0, some 2, some 1, some 3, none] :=
  ⟨(AddLink_slot exampleDB mixedHeap (some 4) (by decide)).2.1 2 (by decide) (by decide)
      (by decide),
    (AddLink_slot exampleDB exampleHeap none (by decide)).2.2 (by decide)⟩

theorem Available_of_InUse {f : RecordControlFlags} (h : f.InUse = true) :
    f.Available = false := by
  unfold RecordControlFlags.InUse at h
  unfold RecordControlFlags.Available
  have h1 : f &&& 0x80 = 0x80 := by simpa using h
  rw [h1]
  rfl

theorem Available_setAvailable (f : RecordControlFlags) : f.setAvailable.Available = true := by
  unfold RecordControlFlags.setAvailable RecordControlFlags.clearBit RecordControlFlags.Available
  have h1 : complement8 ((1 <<< 7) % 256) = 127 := by decide
  rw [h1, Nat.and_assoc]
  have h2 : (127 : Nat) &&& 0x80 = 0 := by decide
  rw [h2, Nat.and_zero]
  rfl

theorem Equal_self (heap : Heap) (l : LinkPtr) : Link.Equal heap l l = true := by
  simp [Link.Equal]

/-- C10: starting from an empty BaseLinkDB over a writer that always succeeds,
for all in-use records a and b and every record c, the calls AddLink(a),
AddLink(b), RemoveLink(a), AddLink(c) all return nil; the write for c goes to
the memory address of both writes for a (0x0FF7), the write for b to 0x0FEF,
and the database ends with two slots, c in the first and b in the second. -/
theorem AddLink_reuses_removed (w : LinkWriter)
    (hw : ∀ heap calls, w.respond heap calls = none)
    (heap : Heap) (a b : Nat) (c : LinkPtr)
    (ha : (heap a).Flags.InUse = true) (hb : (heap b).Flags.InUse = true) :
    ((((BaseLinkDB.AddLink ⟨w, []⟩ heap (some a)).andThen
          (fun db h => db.AddLink h (some b))).andThen
        (fun db h => db.RemoveLink h (some a))).andThen
      (fun db h => db.AddLink h c)).map (fun o => (o.1.links, o.1.LinkWriter.calls, o.2.2))
      = some ([c, some b],
          w.calls ++ [⟨0x0ff7, some a⟩, ⟨0x0fef, some b⟩, ⟨0x0ff7, some a⟩, ⟨0x0ff7, c⟩],
          none) := by
  have hna := Available_of_InUse ha
  have hnb := Available_of_InUse hb
  have s1 : BaseLinkDB.AddLink ⟨w, []⟩ heap (some a) =
      some (⟨⟨w.calls ++ [⟨0x0ff7, some a⟩], w.respond⟩, [some a]⟩, heap, none) := by
    simp [BaseLinkDB.AddLink, BaseLinkDB.addLinkScan, LinkWriter.WriteLink, hw]
  have s2 : BaseLinkDB.AddLink ⟨⟨w.calls ++ [⟨0x0ff7, some a⟩], w.respond⟩, [some a]⟩
        heap (some b) =
      some (⟨⟨w.calls ++ [⟨0x0ff7, some a⟩, ⟨0x0fef, some b⟩], w.respond⟩, [some a, some b]⟩,
        heap, none) := by
    simp [BaseLinkDB.AddLink, BaseLinkDB.addLinkScan, LinkWriter.WriteLink, hw, hna]
  have s3 : BaseLinkDB.RemoveLink
      ⟨⟨w.calls ++ [⟨0x0ff7, some a⟩, ⟨0x0fef, some b⟩], w.respond⟩, [some a, some b]⟩
        heap (some a) =
      some (⟨⟨w.calls ++ [⟨0x0ff7, some a⟩, ⟨0x0fef, some b⟩, ⟨0x0ff7, some a⟩], w.respond⟩,
          [some a, some b]⟩,
        Function.update heap a { heap a with Flags := (heap a).Flags.setAvailable }, none) := by
    simp [BaseLinkDB.RemoveLink, BaseLinkDB.removeLinkLoop, Equal_self, LinkWriter.WriteLink, hw]
  have s4 : BaseLinkDB.AddLink
      ⟨⟨w.calls ++ [⟨0x0ff7, some a⟩, ⟨0x0fef, some b⟩, ⟨0x0ff7, some a⟩], w.respond⟩,
          [some a, some b]⟩
        (Function.update heap a { heap a with Flags := (heap a).Flags.setAvailable }) c =
      some (⟨⟨w.calls ++ [⟨0x0ff7, some a⟩, ⟨0x0fef, some b⟩, ⟨0x0ff7, some a⟩, ⟨0x0ff7, c⟩],
            w.respond⟩, [c, some b]⟩,
        Function.update heap a { heap a with Flags := (heap a).Flags.setAvailable }, none) := by
    simp [BaseLinkDB.AddLink, BaseLinkDB.addLinkScan, LinkWriter.WriteLink, hw,
      Available_setAvailable]
  rw [s1]
  simp only [Outcome.andThen]
  rw [s2]
  simp only [Outcome.andThen]
  rw [s3]
  simp only [Outcome.andThen]
  rw [s4]
  rfl

/-- AddLink_reuses_removed with the always-succeeding writer on the in-use
records at addresses 0 and 1 of `exampleHeap`, adding the record at address 2
last. -/
theorem AddLink_reuses_removed_witness :
    (exampleHeap 0).Flags.InUse = true ∧ (exampleHeap 1).Flags.InUse = true ∧
    ((((BaseLinkDB.AddLink ⟨LinkWriter.succeeding, []⟩ exampleHeap (some 0)).andThen
          (fun db h => db.AddLink h (some 1))).andThen
        (fun db h => db.RemoveLink h (some 0))).andThen
      (fun db h => db.AddLink h (some 2))).map
        (fun o => (o.1.links, o.1.LinkWriter.calls, o.2.2))
      = some ([some 2, some 1],
          [⟨0x0ff7, some 0⟩, ⟨0x0fef, some 1⟩, ⟨0x0ff7, some 0⟩, ⟨0x0ff7, some 2⟩], none) :=
  ⟨by decide, by decide,
    AddLink_reuses_removed LinkWriter.succeeding (fun _ _ => rfl) exampleHeap 0 1 (some 2)
      (by decide) (by decide)⟩

/-! ## RemoveLink -/

theorem setAvailable_eq (f : RecordControlFlags) : f.setAvailable = f &&& 0x7f := by
  unfold RecordControlFlags.setAvailable RecordControlFlags.clearBit
  have h1 : complement8 ((1 <<< 7) % 256) = 0x7f := by decide
  rw [h1]

theorem testBit_and_7f (f k : Nat) :
    (f &&& 0x7f).testBit k = (f.testBit k && decide (k < 7)) := by
  rw [Nat.testBit_and]
  have h : (0x7f : Nat) = 2 ^ 7 - 1 := by norm_num
  rw [h, Nat.testBit_two_pow_sub_one]

theorem RemoveLink_eq_of_first (db : BaseLinkDB) (heap : Heap) (oldLink : LinkPtr)
    (i : Nat) (hi : i < db.links.length) (p : Nat) (hp : db.links[i] = some p)
    (h1 : Link.Equal heap (some p) oldLink = true)
    (h2 : ∀ j (hj : j < db.links.length), j < i → Link.Equal heap db.links[j] oldLink = false) :
    db.RemoveLink heap oldLink =
      some ({ db with
              LinkWriter :=
                (db.LinkWriter.WriteLink
                  (Function.update heap p { heap p with Flags := (heap p).Flags.setAvailable })
                  (0x0fff - 8 * ((i : Int) + 1)) (some p)).1 },
            Function.update heap p { heap p with Flags := (heap p).Flags.setAvailable },
            (db.LinkWriter.WriteLink
              (Function.update heap p { heap p with Flags := (heap p).Flags.setAvailable })
              (0x0fff - 8 * ((i : Int) + 1)) (some p)).2) := by
  unfold BaseLinkDB.RemoveLink
  rw [removeLinkLoop_eq,
    findIdx_eq_of_first (fun l => Link.Equal heap l oldLink) db.links i hi
      (by rw [hp]; exact h1) h2,
    List.getElem?_eq_getElem hi, hp]

/-- C11 does not hold for every database: the slots hold pointers, and two
slots may hold the same record object. AddLink of the in-use record a (object
0, flags 0xE2) twice on the empty database gives the slots [a, a]; RemoveLink(a)
then finds its first Equal record at index 0 and clears the in-use bit through
the pointer, so the record at index 1 is changed too, from 0xE2 to 0x62. -/
theorem RemoveLink_shared_record_counterexample :
    ((emptyDB.AddLink exampleHeap (some 0)).andThen
        (fun db heap => db.AddLink heap (some 0))).map
      (fun o => (o.1.links, o.1.links.map (fun l => l.map (fun a => (o.2.1 a).Flags)), o.2.2))
      = some ([some 0, some 0], [some 0xe2, some 0xe2], none) ∧
    Link.Equal exampleHeap (some 0) (some 0) = true ∧
    (((emptyDB.AddLink exampleHeap (some 0)).andThen
        (fun db heap => db.AddLink heap (some 0))).andThen
        (fun db heap => db.RemoveLink heap (some 0))).map
      (fun o => (o.1.links, o.1.links.map (fun l => l.map (fun a => (o.2.1 a).Flags)),
        o.1.LinkWriter.calls, o.2.2))
      = some ([some 0, some 0], [some 0x62, some 0x62],
          [⟨0x0ff7, some 0⟩, ⟨0x0fef, some 0⟩, ⟨0x0ff7, some 0⟩], none) := by
  decide

/-- C11, amended: for every database and every record r that is Equal to a
stored record, with i the smallest index of an Equal record and p the record
object in slot i, stored in no other slot, RemoveLink(r) returns with the slice
of slots unchanged (same length, same pointers), with every record at another
index unchanged, with the record at i changed only in its Flags, of which bit 7
is cleared and bits 0-6 are kept (Group, Address and Data unchanged), and after
exactly one WriteLink call, which carries that record as modified. -/
theorem RemoveLink_frame (db : BaseLinkDB) (heap : Heap) (r : LinkPtr)
    (i : Nat) (hi : i < db.links.length) (p : Nat) (hp : db.links[i] = some p)
    (h1 : Link.Equal heap (some p) r = true)
    (h2 : ∀ j (hj : j < db.links.length), j < i → Link.Equal heap db.links[j] r = false)
    (hdistinct : ∀ j (hj : j < db.links.length), j ≠ i → db.links[j] ≠ some p) :
    ∃ (w2 : LinkWriter) (heap2 : Heap) (err : Option Error),
      db.RemoveLink heap r = some (⟨w2, db.links⟩, heap2, err) ∧
      (∀ j (hj : j < db.links.length), j ≠ i →
        ∀ q, db.links[j] = some q → heap2 q = heap q) ∧
      (∀ q, q ≠ p → heap2 q = heap q) ∧
      (heap2 p).Flags = (heap p).Flags &&& 0x7f ∧
      (∀ k, k < 7 → (heap2 p).Flags.testBit k = (heap p).Flags.testBit k) ∧
      (heap2 p).Flags.testBit 7 = false ∧
      (heap2 p).Group = (heap p).Group ∧
      (heap2 p).Address = (heap p).Address ∧
      (heap2 p).Data = (heap p).Data ∧
      w2.calls = db.LinkWriter.calls ++ [⟨0x0fff - 8 * ((i : Int) + 1), some p⟩] ∧
      err = db.LinkWriter.respond heap2 w2.calls := by
  refine ⟨_, _, _, RemoveLink_eq_of_first db heap r i hi p hp h1 h2,
    ?_, ?_, ?_, ?_, ?_, ?_, ?_, ?_, ?_, ?_⟩
  · intro j hj hji q hq
    have hqp : q ≠ p := fun h => hdistinct j hj hji (by rw [hq, h])
    exact Function.update_noteq hqp _ _
  · intro q hqp
    exact Function.update_noteq hqp _ _
  · rw [Function.update_same]
    exact setAvailable_eq _
  · intro k hk
    rw [Function.update_same]
    show ((heap p).Flags.setAvailable).testBit k = _
    rw [setAvailable_eq, testBit_and_7f]
    simp [hk]
  · rw [Function.update_same]
    show ((heap p).Flags.setAvailable).testBit 7 = _
    rw [setAvailable_eq, testBit_and_7f]
    simp
  · rw [Function.update_same]
  · rw [Function.update_same]
  · rw [Function.update_same]
  · rfl
  · rfl

/-- RemoveLink_frame on the four-slot example: the record of slot 1 (object 2,
flags 0xE2) is the first Equal to itself; it ends with flags 0x62 and the one
write goes to 0x0FEF. -/
theorem RemoveLink_frame_witness :
    ∃ (w2 : LinkWriter) (heap2 : Heap) (err : Option Error),
      exampleDB.RemoveLink mixedHeap (some 2) = some (⟨w2, exampleDB.links⟩, heap2, err) ∧
      (heap2 2).Flags = 0x62 ∧ heap2 0 = mixedHeap 0 ∧
      w2.calls = [⟨0x0fef, some 2⟩] :=
  match RemoveLink_frame exampleDB mixedHeap (some 2) 1 (by decide) 2 (by decide) (by decide)
      (by decide) (by decide) with
  | ⟨w2, heap2, err, h, _, hq, hf, _, _, _, _, _, hc, _⟩ =>
      ⟨w2, heap2, err, h, hf.trans (by decide), hq 0 (by decide), hc.trans (by decide)⟩

/-! ## FindLink and FindLinkRecord -/

theorem findLinkRecordLoop_eq_FindLink (heap : Heap) (controller : Bool) (address : Address)
    (group : Group) (L : List LinkPtr) :
    link.findLinkRecordLoop heap controller address group L
      = FindLink heap L controller address group := by
  induction L with
  | nil => rfl
  | cons l rest ih =>
    cases l with
    | none => rfl
    | some p =>
      rw [link.findLinkRecordLoop, FindLink, ih]

theorem FindLink_eq_find (heap : Heap) (controller : Bool) (address : Address)
    (group : Group) (L : List LinkPtr) (hnn : ∀ l ∈ L, l ≠ none) :
    FindLink heap L controller address group
      = some ((L.find? (linkMatches heap controller address group)).join) := by
  induction L with
  | nil => rfl
  | cons l rest ih =>
    have hrest : ∀ q ∈ rest, q ≠ none := fun q hq => hnn q (List.mem_cons_of_mem _ hq)
    cases l with
    | none => exact absurd rfl (hnn none (List.mem_cons_self _ _))
    | some p =>
      rw [FindLink, List.find?_cons]
      by_cases h : linkMatches heap controller address group (some p) = true
      · have h2 := h
        unfold linkMatches at h2
        rw [if_pos h2, h]
        rfl
      · have h2 := h
        unfold linkMatches at h2
        rw [if_neg h2, ih hrest]
        simp only [Bool.not_eq_true] at h
        rw [h]

theorem find_eq_of_first {α : Type} (P : α → Bool) (L : List α) (i : Nat)
    (hi : i < L.length) (h1 : P L[i] = true)
    (h2 : ∀ j (hj : j < L.length), j < i → P L[j] = false) : L.find? P = some L[i] := by
  induction L generalizing i with
  | nil => exact absurd hi (Nat.not_lt_zero _)
  | cons x rest ih =>
    rw [List.find?_cons]
    cases i with
    | zero =>
      have : P x = true := h1
      rw [this]
      rfl
    | succ k =>
      have hx : P x = false := h2 0 (Nat.succ_pos _) (Nat.succ_pos _)
      rw [hx]
      have hk : k < rest.length := Nat.lt_of_succ_lt_succ hi
      exact ih k hk h1 (fun j hj hjk => h2 (j + 1) (Nat.succ_lt_succ hj) (Nat.succ_lt_succ hjk))

theorem find_join_eq_none_iff (heap : Heap) (controller : Bool) (address : Address)
    (group : Group) (L : List LinkPtr) :
    (L.find? (linkMatches heap controller address group)).join = none ↔
      ∀ l ∈ L, linkMatches heap controller address group l = false := by
  constructor
  · intro h l hl
    cases hf : L.find? (linkMatches heap controller address group) with
    | none =>
      rw [List.find?_eq_none] at hf
      simpa using hf l hl
    | some a =>
      have hPa : linkMatches heap controller address group a = true := List.find?_some hf
      rw [hf] at h
      cases a with
      | none => exact absurd hPa (by simp [linkMatches])
      | some p => exact absurd h (by simp)
  · intro h
    have : L.find? (linkMatches heap controller address group) = none := by
      rw [List.find?_eq_none]
      intro x hx
      simp [h x hx]
    rw [this]
    rfl

theorem find_join_ne_none (heap : Heap) (controller : Bool) (address : Address)
    (group : Group) (L : List LinkPtr)
    (h : ∃ l ∈ L, linkMatches heap controller address group l = true) :
    (L.find? (linkMatches heap controller address group)).join ≠ none := by
  intro hn
  obtain ⟨l, hl, hm⟩ := h
  have := (find_join_eq_none_iff heap controller address group L).1 hn l hl
  rw [this] at hm
  exact absurd hm (by simp)

theorem FindLinkRecord_eq (env : Devices) (heap : Heap) (linkable : Dev) (controller : Bool)
    (address : Address) (group : Group) (t : Trace) (L : List LinkPtr)
    (hL : env.links linkable t = (L, none)) (hnn : ∀ l ∈ L, l ≠ none) :
    link.FindLinkRecord env heap linkable controller address group t =
      some (((L.find? (linkMatches heap controller address group)).join, none),
        t ++ [DevCall.Links linkable]) := by
  unfold link.FindLinkRecord
  simp only [hL, if_true]
  rw [findLinkRecordLoop_eq_FindLink, FindLink_eq_find heap controller address group L hnn]
  cases (L.find? (linkMatches heap controller address group)).join <;> rfl

/-- C12: for every link list L (of non-nil records, returned without error by
Links()) and every query (controller-role flag, address, group), FindLink and
FindLinkRecord return the same pointer `found`; it is the record at the
smallest index whose controller bit equals the requested role and whose Address
and Group equal the requested ones, and it is nil exactly when no stored record
satisfies that condition. -/
theorem FindLink_FindLinkRecord_first (env : Devices) (heap : Heap) (linkable : Dev)
    (controller : Bool) (address : Address) (group : Group) (t : Trace) (L : List LinkPtr)
    (hL : env.links linkable t = (L, none)) (hnn : ∀ l ∈ L, l ≠ none) :
    ∃ found : LinkPtr,
      FindLink heap L controller address group = some found ∧
      link.FindLinkRecord env heap linkable controller address group t
        = some ((found, none), t ++ [DevCall.Links linkable]) ∧
      (∀ i (hi : i < L.length), linkMatches heap controller address group L[i] = true →
        (∀ j (hj : j < L.length), j < i →
          linkMatches heap controller address group L[j] = false) →
        found = L[i]) ∧
      (found = none ↔ ∀ l ∈ L, linkMatches heap controller address group l = false) := by
  refine ⟨_, FindLink_eq_find heap controller address group L hnn,
    FindLinkRecord_eq env heap linkable controller address group t L hL hnn, ?_, ?_⟩
  · intro i hi h1 h2
    rw [find_eq_of_first _ L i hi h1 h2]
    rfl
  · exact find_join_eq_none_iff heap controller address group L

/-- FindLink_FindLinkRecord_first on device 1 of `linkedDevices`, whose second
record (object 3) is the first responder record for 00.00.00 in group 5. -/
theorem FindLink_FindLinkRecord_first_witness :
    ∃ found : LinkPtr,
      FindLink linkedHeap [some 2, some 3] false ⟨0, 0, 0⟩ 5 = some found ∧
      link.FindLinkRecord linkedDevices linkedHeap 1 false ⟨0, 0, 0⟩ 5 []
        = some ((found, none), [DevCall.Links 1]) ∧
      found = some 3 :=
  match FindLink_FindLinkRecord_first linkedDevices linkedHeap 1 false ⟨0, 0, 0⟩ 5 []
      [some 2, some 3] rfl (by decide) with
  | ⟨found, h1, h2, h3, _⟩ =>
      ⟨found, h1, h2, h3 1 (by decide) (by decide) (by decide)⟩

/-! ## Link and CreateLink -/

theorem Link_both_found (env : Devices) (heap : Heap) (group : Group)
    (controller responder : Dev) (t : Trace) (Lc Lr : List LinkPtr)
    (hnnc : ∀ l ∈ Lc, l ≠ none) (hnnr : ∀ l ∈ Lr, l ≠ none)
    (hcl : ∃ l ∈ Lc, linkMatches heap true (env.Address responder) group l = true)
    (hrl : ∃ l ∈ Lr, linkMatches heap false (env.Address controller) group l = true)
    (hc : env.links controller t = (Lc, none))
    (hr : env.links responder (t ++ [DevCall.Links controller]) = (Lr, none)) :
    link.Link env heap group controller responder t =
      some (some link.ErrAlreadyLinked,
        t ++ [DevCall.Links controller, DevCall.Links responder]) := by
  unfold link.Link
  rw [FindLinkRecord_eq env heap controller true _ group t Lc hc hnnc]
  simp only [if_true]
  rw [FindLinkRecord_eq env heap responder false _ group _ Lr hr hnnr]
  simp only [if_true]
  rw [if_pos ⟨find_join_ne_none heap true _ group Lc hcl,
    find_join_ne_none heap false _ group Lr hrl⟩]
  simp

theorem CreateLink_both_found (env : Devices) (heap : Heap) (group : Group)
    (controller responder : Dev) (t : Trace) (Lc Lr : List LinkPtr)
    (hnnc : ∀ l ∈ Lc, l ≠ none) (hnnr : ∀ l ∈ Lr, l ≠ none)
    (hcl : ∃ l ∈ Lc, linkMatches heap true (env.Address responder) group l = true)
    (hrl : ∃ l ∈ Lr, linkMatches heap false (env.Address controller) group l = true)
    (e1 e2 : Option Error)
    (he1 : e1 = none ∨ e1 = some Error.ErrNotLinked)
    (he2 : e2 = none ∨ e2 = some Error.ErrNotLinked)
    (hdc : env.linkDB controller t = (true, e1))
    (hdr : env.linkDB responder (t ++ [DevCall.LinkDB controller]) = (true, e2))
    (hlc : env.dbLinks controller
      (t ++ [DevCall.LinkDB controller] ++ [DevCall.LinkDB responder]) = Lc)
    (hlr : env.dbLinks responder
      (t ++ [DevCall.LinkDB controller] ++ [DevCall.LinkDB responder]
        ++ [DevCall.DBLinks controller]) = Lr) :
    CreateLink env heap controller responder group t =
      some (some Error.ErrAlreadyLinked,
        t ++ [DevCall.LinkDB controller, DevCall.LinkDB responder,
          DevCall.DBLinks controller, DevCall.DBLinks responder]) := by
  unfold CreateLink
  simp only [hdc, if_pos he1, hdr, if_pos he2, hlc, hlr, Bool.true_eq_false, if_false]
  rw [FindLink_eq_find heap true _ group Lc hnnc, FindLink_eq_find heap false _ group Lr hnnr]
  simp only []
  rw [if_pos ⟨find_join_ne_none heap true _ group Lc hcl,
    find_join_ne_none heap false _ group Lr hrl⟩]
  simp

/-- C13: if the controller's link list contains a controller-role record for
(responder's address, group) and the responder's link list contains a
responder-role record for (controller's address, group), then Link returns
ErrAlreadyLinked after the two Links() calls and nothing else: no RemoveLinks,
no EnterLinkingMode and no ExitLinkingMode on either device. CreateLink of
linkdb.go likewise returns its ErrAlreadyLinked after reading the two link
databases, with no RemoveLink and no linking step. -/
theorem Link_already_linked (env : Devices) (heap : Heap) (group : Group)
    (controller responder : Dev) (t : Trace) (Lc Lr : List LinkPtr)
    (hnnc : ∀ l ∈ Lc, l ≠ none) (hnnr : ∀ l ∈ Lr, l ≠ none)
    (hcl : ∃ l ∈ Lc, linkMatches heap true (env.Address responder) group l = true)
    (hrl : ∃ l ∈ Lr, linkMatches heap false (env.Address controller) group l = true) :
    (env.links controller t = (Lc, none) →
      env.links responder (t ++ [DevCall.Links controller]) = (Lr, none) →
      link.Link env heap group controller responder t =
        some (some link.ErrAlreadyLinked,
          t ++ [DevCall.Links controller, DevCall.Links responder])) ∧
    (∀ e1 e2 : Option Error,
      (e1 = none ∨ e1 = some Error.ErrNotLinked) →
      (e2 = none ∨ e2 = some Error.ErrNotLinked) →
      env.linkDB controller t = (true, e1) →
      env.linkDB responder (t ++ [DevCall.LinkDB controller]) = (true, e2) →
      env.dbLinks controller
        (t ++ [DevCall.LinkDB controller] ++ [DevCall.LinkDB responder]) = Lc →
      env.dbLinks responder
        (t ++ [DevCall.LinkDB controller] ++ [DevCall.LinkDB responder]
          ++ [DevCall.DBLinks controller]) = Lr →
      CreateLink env heap controller responder group t =
        some (some Error.ErrAlreadyLinked,
          t ++ [DevCall.LinkDB controller, DevCall.LinkDB responder,
            DevCall.DBLinks controller, DevCall.DBLinks responder])) :=
  ⟨Link_both_found env heap group controller responder t Lc Lr hnnc hnnr hcl hrl,
    fun e1 e2 => CreateLink_both_found env heap group controller responder t Lc Lr hnnc hnnr
      hcl hrl e1 e2⟩

/-- Link_already_linked on `linkedDevices`: device 0 holds the controller record
(object 0) and device 1 the responder record (object 3) of group 5. -/
theorem Link_already_linked_witness :
    link.Link linkedDevices linkedHeap 5 0 1 [] =
      some (some link.ErrAlreadyLinked, [DevCall.Links 0, DevCall.Links 1]) ∧
    CreateLink linkedDevices linkedHeap 0 1 5 [] =
      some (some Error.ErrAlreadyLinked,
        [DevCall.LinkDB 0, DevCall.LinkDB 1, DevCall.DBLinks 0, DevCall.DBLinks 1]) :=
  have h := Link_already_linked linkedDevices linkedHeap 5 0 1 [] [some 0, some 1]
    [some 2, some 3] (by decide) (by decide) ⟨some 0, by decide, by decide⟩
    ⟨some 3, by decide, by decide⟩
  ⟨h.1 rfl rfl, h.2 none none (Or.inl rfl) (Or.inl rfl) rfl rfl rfl rfl⟩

/-- C14 fails on the code for the responder-only case. Device 0 (controller)
holds no record and device 1 (responder) holds the responder record for
(00.00.00, group 5), object 10, which FindLinkRecord finds. Link then calls
RemoveLinks on the responder with the nil controllerLink, not with the record
found, and goes on to ForceLink; CreateLink likewise calls RemoveLink(nil) on
the responder's database. -/
theorem Link_stale_responder :
    link.FindLinkRecord staleDevices staleHeap 0 true (staleDevices.Address 1) 5 []
      = some ((none, none), [DevCall.Links 0]) ∧
    link.FindLinkRecord staleDevices staleHeap 1 false (staleDevices.Address 0) 5
        [DevCall.Links 0] = some ((some 10, none), [DevCall.Links 0, DevCall.Links 1]) ∧
    link.Link staleDevices staleHeap 5 0 1 [] =
      some (none,
        [DevCall.Links 0, DevCall.Links 1, DevCall.RemoveLinks 1 [none],
          DevCall.EnterLinkingMode 0 5, DevCall.Sleep 2, DevCall.EnterLinkingMode 1 5,
          DevCall.Sleep 1, DevCall.ExitLinkingMode 1, DevCall.ExitLinkingMode 0]) ∧
    CreateLink staleDevices staleHeap 0 1 5 [] =
      some (none,
        [DevCall.LinkDB 0, DevCall.LinkDB 1, DevCall.DBLinks 0, DevCall.DBLinks 1,
          DevCall.DBRemoveLink 1 none, DevCall.EnterLinkingMode 0 5,
          DevCall.EnterLinkingMode 0 5]) := by
  decide

/-! ## CrossLink -/

theorem CrossLink_of_first_ok (env : Devices) (heap : Heap) (group : Group) (a b : Dev)
    (t t1 : Trace) (e1 : Option Error)
    (h : link.Link env heap group a b t = some (e1, t1))
    (he : e1 = none ∨ e1 = some link.ErrAlreadyLinked) :
    link.CrossLink env heap group a b t =
      (link.Link env heap group b a t1).map
        (fun r => (if r.1 = some link.ErrAlreadyLinked then none else r.1, r.2)) := by
  unfold link.CrossLink
  rw [h]
  simp only [if_pos he]
  cases h2 : link.Link env heap group b a t1 with
  | none => rfl
  | some r =>
    obtain ⟨e2, t2⟩ := r
    simp only [Option.map_some']
    split <;> rfl

theorem CrossLink_of_first_failed (env : Devices) (heap : Heap) (group : Group) (a b : Dev)
    (t t1 : Trace) (e1 : Option Error)
    (h : link.Link env heap group a b t = some (e1, t1))
    (he : ¬ (e1 = none ∨ e1 = some link.ErrAlreadyLinked)) :
    link.CrossLink env heap group a b t = some (e1, t1) := by
  unfold link.CrossLink
  rw [h]
  simp only [if_neg he]

theorem CrossLink_ne_ErrAlreadyLinked (env : Devices) (heap : Heap) (group : Group) (a b : Dev)
    (t t2 : Trace) (e : Option Error)
    (h : link.CrossLink env heap group a b t = some (e, t2)) :
    e ≠ some link.ErrAlreadyLinked := by
  cases h1 : link.Link env heap group a b t with
  | none =>
    unfold link.CrossLink at h
    rw [h1] at h
    exact absurd h (by simp)
  | some r1 =>
    obtain ⟨e1, t1⟩ := r1
    by_cases he : e1 = none ∨ e1 = some link.ErrAlreadyLinked
    · rw [CrossLink_of_first_ok env heap group a b t t1 e1 h1 he] at h
      cases h2 : link.Link env heap group b a t1 with
      | none =>
        rw [h2] at h
        exact absurd h (by simp)
      | some r2 =>
        obtain ⟨e2, t3⟩ := r2
        rw [h2] at h
        simp only [Option.map_some', Option.some.injEq, Prod.mk.injEq] at h
        obtain ⟨h3, _⟩ := h
        by_cases he2 : e2 = some link.ErrAlreadyLinked
        · rw [if_pos he2] at h3
          rw [← h3]
          exact fun hh => by cases hh
        · rw [if_neg he2] at h3
          rw [← h3]
          exact he2
    · rw [CrossLink_of_first_failed env heap group a b t t1 e1 h1 he] at h
      simp only [Option.some.injEq, Prod.mk.injEq] at h
      obtain ⟨h3, _⟩ := h
      rw [← h3]
      exact fun hh => he (Or.inr hh)

theorem CrossLink_linkdb_ne_ErrAlreadyLinked (env : Devices) (heap : Heap) (group : Group)
    (a b : Dev) (t t2 : Trace) (e : Option Error)
    (h : CrossLink env heap a b group t = some (e, t2)) :
    e ≠ some Error.ErrAlreadyLinked := by
  unfold CrossLink at h
  cases h1 : CreateLink env heap a b group t with
  | none =>
    rw [h1] at h
    exact absurd h (by simp)
  | some r1 =>
    obtain ⟨e1, t1⟩ := r1
    rw [h1] at h
    simp only at h
    by_cases he : e1 = none ∨ e1 = some Error.ErrAlreadyLinked
    · rw [if_pos he] at h
      cases h2 : CreateLink env heap b a group t1 with
      | none =>
        rw [h2] at h
        exact absurd h (by simp)
      | some r2 =>
        obtain ⟨e2, t3⟩ := r2
        rw [h2] at h
        simp only at h
        by_cases he2 : e2 = some Error.ErrAlreadyLinked
        · rw [if_pos he2] at h
          simp only [Option.some.injEq, Prod.mk.injEq] at h
          rw [← h.1]
          exact fun hh => by cases hh
        · rw [if_neg he2] at h
          simp only [Option.some.injEq, Prod.mk.injEq] at h
          rw [← h.1]
          exact he2
    · rw [if_neg he] at h
      simp only [Option.some.injEq, Prod.mk.injEq] at h
      rw [← h.1]
      exact fun hh => he (Or.inr hh)

/-- C15: CrossLink(group, a, b) runs Link(group, a, b); unless that leg returned
an error other than ErrAlreadyLinked (which CrossLink then returns), it runs
Link(group, b, a) and returns its error, with ErrAlreadyLinked replaced by nil.
CrossLink therefore never returns ErrAlreadyLinked (nor does CrossLink of
linkdb.go). For two devices whose link lists hold the controller and the
responder record for each other in that group, CrossLink returns nil having
made only the four Links() calls: no record removal and no linking-mode change
is requested, however often it is repeated. -/
theorem CrossLink_swallows_ErrAlreadyLinked (env : Devices) (heap : Heap) (group : Group)
    (a b : Dev) (t : Trace) :
    (∀ e1 t1, link.Link env heap group a b t = some (e1, t1) →
      ((e1 = none ∨ e1 = some link.ErrAlreadyLinked) →
        link.CrossLink env heap group a b t =
          (link.Link env heap group b a t1).map
            (fun r => (if r.1 = some link.ErrAlreadyLinked then none else r.1, r.2))) ∧
      (¬ (e1 = none ∨ e1 = some link.ErrAlreadyLinked) →
        link.CrossLink env heap group a b t = some (e1, t1))) ∧
    (∀ e t2, link.CrossLink env heap group a b t = some (e, t2) →
      e ≠ some link.ErrAlreadyLinked) ∧
    (∀ e t2, CrossLink env heap a b group t = some (e, t2) →
      e ≠ some Error.ErrAlreadyLinked) ∧
    (∀ La Lb : List LinkPtr,
      (∀ t2, env.links a t2 = (La, none)) → (∀ t2, env.links b t2 = (Lb, none)) →
      (∀ l ∈ La, l ≠ none) → (∀ l ∈ Lb, l ≠ none) →
      (∃ l ∈ La, linkMatches heap true (env.Address b) group l = true) →
      (∃ l ∈ La, linkMatches heap false (env.Address b) group l = true) →
      (∃ l ∈ Lb, linkMatches heap true (env.Address a) group l = true) →
      (∃ l ∈ Lb, linkMatches heap false (env.Address a) group l = true) →
      ∀ t0, link.CrossLink env heap group a b t0 =
        some (none,
          t0 ++ [DevCall.Links a, DevCall.Links b, DevCall.Links b, DevCall.Links a])) := by
  refine ⟨fun e1 t1 h => ⟨CrossLink_of_first_ok env heap group a b t t1 e1 h,
      CrossLink_of_first_failed env heap group a b t t1 e1 h⟩,
    fun e t2 h => CrossLink_ne_ErrAlreadyLinked env heap group a b t t2 e h,
    fun e t2 h => CrossLink_linkdb_ne_ErrAlreadyLinked env heap group a b t t2 e h, ?_⟩
  intro La Lb hLa hLb hnna hnnb hac har hbc hbr t0
  have h1 := Link_both_found env heap group a b t0 La Lb hnna hnnb hac hbr (hLa _) (hLb _)
  have h2 := Link_both_found env heap group b a (t0 ++ [DevCall.Links a, DevCall.Links b])
    Lb La hnnb hnna hbc har (hLb _) (hLa _)
  rw [CrossLink_of_first_ok env heap group a b t0 _ _ h1 (Or.inr rfl), h2]
  simp

/-- CrossLink_swallows_ErrAlreadyLinked on the fully linked devices 0 and 1 of
`linkedDevices`: nil is returned after four Links() calls. -/
theorem CrossLink_swallows_ErrAlreadyLinked_witness :
    link.CrossLink linkedDevices linkedHeap 5 0 1 [] =
      some (none, [DevCall.Links 0, DevCall.Links 1, DevCall.Links 1, DevCall.Links 0]) :=
  (CrossLink_swallows_ErrAlreadyLinked linkedDevices linkedHeap 5 0 1 []).2.2.2
    [some 0, some 1] [some 2, some 3] (fun _ => rfl) (fun _ => rfl) (by decide) (by decide)
    ⟨some 0, by decide, by decide⟩ ⟨some 1, by decide, by decide⟩
    ⟨some 2, by decide, by decide⟩ ⟨some 3, by decide, by decide⟩ []

/-! ## CrossLinkAll -/

theorem crossLinkEach_append (env : Devices) (heap : Heap) (group : Group)
    (A B : List (Dev × Dev)) (t : Trace) :
    crossLinkEach env heap group (A ++ B) t =
      continueRun (crossLinkEach env heap group A t) (crossLinkEach env heap group B) := by
  induction A generalizing t with
  | nil => rfl
  | cons p rest ih =>
    obtain ⟨a, b⟩ := p
    simp only [List.cons_append, crossLinkEach]
    cases h : link.CrossLink env heap group a b t with
    | none => rfl
    | some r =>
      obtain ⟨e, t2⟩ := r
      cases e with
      | none => exact ih t2
      | some err => rfl

theorem crossLinkAllInner_eq (env : Devices) (heap : Heap) (group : Group) (l1 : Dev)
    (L : List Dev) (hl : l1 ∉ L) (t : Trace) :
    link.crossLinkAllInner env heap group l1 L t =
      crossLinkEach env heap group (L.map (fun y => (l1, y))) t := by
  induction L generalizing t with
  | nil => rfl
  | cons l2 rest ih =>
    have hne : l1 ≠ l2 := fun h => hl (h ▸ List.mem_cons_self _ _)
    have hrest : l1 ∉ rest := fun h => hl (List.mem_cons_of_mem _ h)
    simp only [link.crossLinkAllInner, List.map_cons, crossLinkEach, if_pos hne]
    cases h : link.CrossLink env heap group l1 l2 t with
    | none => rfl
    | some r =>
      obtain ⟨e, t2⟩ := r
      cases e with
      | none => exact ih hrest t2
      | some err => rfl

theorem crossLinkAllOuter_eq (env : Devices) (heap : Heap) (group : Group)
    (L : List Dev) (hnd : L.Nodup) (t : Trace) :
    link.crossLinkAllOuter env heap group L t
      = crossLinkEach env heap group (pairsLex L) t := by
  induction L generalizing t with
  | nil => rfl
  | cons l1 rest ih =>
    have hl : l1 ∉ rest := (List.nodup_cons.1 hnd).1
    have hrest : rest.Nodup := (List.nodup_cons.1 hnd).2
    rw [link.crossLinkAllOuter, pairsLex, crossLinkEach_append]
    have hinner : link.crossLinkAllInner env heap group l1 (l1 :: rest) t
        = link.crossLinkAllInner env heap group l1 rest t := by
      rw [link.crossLinkAllInner]
      simp
    rw [hinner, crossLinkAllInner_eq env heap group l1 rest hl t]
    cases h : crossLinkEach env heap group (rest.map (fun y => (l1, y))) t with
    | none => rfl
    | some r =>
      obtain ⟨e, t2⟩ := r
      cases e with
      | none => exact ih hrest t2
      | some err => rfl

theorem mem_pairsLex {α : Type} (L : List α) (a b : α) :
    (a, b) ∈ pairsLex L ↔
      ∃ i j : Nat, i < j ∧ L[i]? = some a ∧ L[j]? = some b := by
  induction L with
  | nil => simp [pairsLex]
  | cons x rest ih =>
    simp only [pairsLex, List.mem_append, List.mem_map, Prod.mk.injEq, ih]
    constructor
    · rintro (⟨y, hy, rfl, rfl⟩ | ⟨i, j, hij, hi, hj⟩)
      · obtain ⟨k, hk⟩ := List.getElem?_of_mem hy
        exact ⟨0, k + 1, Nat.succ_pos _, by simp, by simpa using hk⟩
      · exact ⟨i + 1, j + 1, Nat.succ_lt_succ hij, by simpa using hi, by simpa using hj⟩
    · rintro ⟨i, j, hij, hi, hj⟩
      cases j with
      | zero => exact absurd hij (Nat.not_lt_zero _)
      | succ j =>
        rw [List.getElem?_cons_succ] at hj
        cases i with
        | zero =>
          rw [List.getElem?_cons_zero] at hi
          exact Or.inl ⟨b, List.getElem?_mem hj, (Option.some.inj hi), rfl⟩
        | succ i =>
          rw [List.getElem?_cons_succ] at hi
          exact Or.inr ⟨i, j, Nat.lt_of_succ_lt_succ hij, hi, hj⟩

theorem length_pairsLex {α : Type} (L : List α) :
    2 * (pairsLex L).length = L.length * (L.length - 1) := by
  induction L with
  | nil => rfl
  | cons x rest ih =>
    simp only [pairsLex, List.length_append, List.length_map, List.length_cons,
      Nat.add_sub_cancel]
    rw [Nat.mul_add, ih]
    cases rest.length with
    | zero => rfl
    | succ n => simp only [Nat.add_sub_cancel]; ring

theorem nodup_pairsLex {α : Type} (L : List α) (h : L.Nodup) : (pairsLex L).Nodup := by
  induction L with
  | nil => exact List.nodup_nil
  | cons x rest ih =>
    have hx : x ∉ rest := (List.nodup_cons.1 h).1
    have hrest : rest.Nodup := (List.nodup_cons.1 h).2
    rw [pairsLex, List.nodup_append]
    refine ⟨?_, ih hrest, ?_⟩
    · exact hrest.map (fun a b hab => (Prod.mk.inj hab).2)
    · intro p hp1 hp2
      obtain ⟨a, b⟩ := p
      simp only [List.mem_map, Prod.mk.injEq] at hp1
      obtain ⟨y, _, hxa, _⟩ := hp1
      obtain ⟨i, j, _, hi, _⟩ := (mem_pairsLex rest a b).1 hp2
      exact hx (hxa ▸ List.getElem?_mem hi)

theorem pairwise_pairsLex {α : Type} (R : α → α → Prop) (L : List α) (h : L.Pairwise R) :
    (pairsLex L).Pairwise (fun p q => R p.1 q.1 ∨ (p.1 = q.1 ∧ R p.2 q.2)) := by
  induction L with
  | nil => exact List.Pairwise.nil
  | cons x rest ih =>
    have hx : ∀ y ∈ rest, R x y := (List.pairwise_cons.1 h).1
    have hrest : rest.Pairwise R := (List.pairwise_cons.1 h).2
    rw [pairsLex, List.pairwise_append]
    refine ⟨?_, ih hrest, ?_⟩
    · rw [List.pairwise_map]
      exact hrest.imp (fun hab => Or.inr ⟨rfl, hab⟩)
    · intro p hp q hq
      obtain ⟨a, b⟩ := q
      simp only [List.mem_map] at hp
      obtain ⟨y, _, rfl⟩ := hp
      obtain ⟨i, j, _, hi, _⟩ := (mem_pairsLex rest a b).1 hq
      exact Or.inl (hx a (List.getElem?_mem hi))

/-- C16: for every list of pairwise-distinct devices, CrossLinkAll is CrossLink
on each pair (d_i, d_j) with i < j, taken in turn and stopping at the first
CrossLink that returns an error, which is returned; nil is returned when none
fails. The pairs are exactly those with i < j (none with i = j or i > j), each
occurs once, there are n(n-1)/2 of them, and they come in lexicographic order
of (i, j): for every relation R by which the device list is ordered, the pairs
are ordered by R on the first component, then by R on the second. -/
theorem CrossLinkAll_pairs (env : Devices) (heap : Heap) (group : Group) (devs : List Dev)
    (t : Trace) (hnd : devs.Nodup) :
    link.CrossLinkAll env heap group devs t
      = crossLinkEach env heap group (pairsLex devs) t ∧
    (∀ a b, (a, b) ∈ pairsLex devs ↔
      ∃ i j : Nat, i < j ∧ devs[i]? = some a ∧ devs[j]? = some b) ∧
    (pairsLex devs).Nodup ∧
    2 * (pairsLex devs).length = devs.length * (devs.length - 1) ∧
    (∀ R : Dev → Dev → Prop, devs.Pairwise R →
      (pairsLex devs).Pairwise (fun p q => R p.1 q.1 ∨ (p.1 = q.1 ∧ R p.2 q.2))) :=
  ⟨crossLinkAllOuter_eq env heap group devs hnd t, mem_pairsLex devs, nodup_pairsLex devs hnd,
    length_pairsLex devs, fun R h => pairwise_pairsLex R devs h⟩

/-- CrossLinkAll_pairs on the devices 0, 1, 2: the pairs are (0,1), (0,2), (1,2). -/
theorem CrossLinkAll_pairs_witness :
    pairsLex [0, 1, 2] = [(0, 1), (0, 2), (1, 2)] ∧
    link.CrossLinkAll refusingDevices exampleHeap 5 [0, 1, 2] []
      = crossLinkEach refusingDevices exampleHeap 5 [(0, 1), (0, 2), (1, 2)] [] :=
  ⟨by decide, (CrossLinkAll_pairs refusingDevices exampleHeap 5 [0, 1, 2] [] (by decide)).1⟩

/-! ## ForceLink, Unlink and UnlinkAll -/

/-- C17, as stated, fails: when EnterLinkingMode fails on the controller
(device 0 of `refusingDevices`), ForceLink returns that error having called
ExitLinkingMode on the controller only; ExitLinkingMode is never invoked on the
responder (device 1). -/
theorem ForceLink_controller_refuses_counterexample :
    link.ForceLink refusingDevices 5 0 1 [] =
      (some Error.ErrNotLinked,
        [DevCall.EnterLinkingMode 0 5, DevCall.Sleep 2, DevCall.Sleep 1,
          DevCall.ExitLinkingMode 0]) ∧
    DevCall.ExitLinkingMode 1 ∉ (link.ForceLink refusingDevices 5 0 1 []).2 := by
  decide

/-- C17, amended: on every execution of ForceLink, ExitLinkingMode is invoked on
the controller as the last call before ForceLink returns. When the controller's
EnterLinkingMode succeeded, the responder is put into linking mode and
ExitLinkingMode is invoked on the responder as well (before the controller's),
whether the responder's EnterLinkingMode succeeded or failed. When the
controller's EnterLinkingMode failed, its error is returned and the responder
receives neither EnterLinkingMode nor ExitLinkingMode. -/
theorem ForceLink_exits (env : Devices) (group : Group) (controller responder : Dev)
    (t : Trace) :
    (env.result (DevCall.EnterLinkingMode controller group) t = none →
      link.ForceLink env group controller responder t =
        (env.result (DevCall.EnterLinkingMode responder group)
            (t ++ [DevCall.EnterLinkingMode controller group, DevCall.Sleep 2]),
          t ++ [DevCall.EnterLinkingMode controller group, DevCall.Sleep 2,
            DevCall.EnterLinkingMode responder group, DevCall.Sleep 1,
            DevCall.ExitLinkingMode responder, DevCall.ExitLinkingMode controller])) ∧
    (∀ e, env.result (DevCall.EnterLinkingMode controller group) t = some e →
      link.ForceLink env group controller responder t =
        (some e,
          t ++ [DevCall.EnterLinkingMode controller group, DevCall.Sleep 2, DevCall.Sleep 1,
            DevCall.ExitLinkingMode controller])) := by
  constructor
  · intro h
    simp [link.ForceLink, Devices.call, h]
  · intro e h
    simp [link.ForceLink, Devices.call, h]

/-- ForceLink_exits with device 1 as controller and the refusing device 0 as
responder: the responder's failure is returned and both devices are asked to
exit linking mode. -/
theorem ForceLink_exits_witness :
    link.ForceLink refusingDevices 5 1 0 [] =
      (some Error.ErrNotLinked,
        [DevCall.EnterLinkingMode 1 5, DevCall.Sleep 2, DevCall.EnterLinkingMode 0 5,
          DevCall.Sleep 1, DevCall.ExitLinkingMode 0, DevCall.ExitLinkingMode 1]) :=
  (ForceLink_exits refusingDevices 5 1 0 []).1 rfl

/-- C18: Unlink first calls controller.EnterUnlinkingMode(group). If that
fails, its error is returned, the responder receives no call, and only the
controller is asked to exit linking mode. If it succeeds, Unlink calls
responder.EnterLinkingMode(group) (linking mode, not unlinking mode), then
ExitLinkingMode on the responder and on the controller, and returns what the
responder's EnterLinkingMode returned: its error, or nil when both succeeded. -/
theorem Unlink_sequence (env : Devices) (group : Group) (controller responder : Dev)
    (t : Trace) :
    (env.result (DevCall.EnterUnlinkingMode controller group) t = none →
      link.Unlink env group controller responder t =
        (env.result (DevCall.EnterLinkingMode responder group)
            (t ++ [DevCall.EnterUnlinkingMode controller group, DevCall.Sleep 2]),
          t ++ [DevCall.EnterUnlinkingMode controller group, DevCall.Sleep 2,
            DevCall.EnterLinkingMode responder group, DevCall.Sleep 1,
            DevCall.ExitLinkingMode responder, DevCall.ExitLinkingMode controller])) ∧
    (∀ e, env.result (DevCall.EnterUnlinkingMode controller group) t = some e →
      link.Unlink env group controller responder t =
        (some e,
          t ++ [DevCall.EnterUnlinkingMode controller group, DevCall.Sleep 2, DevCall.Sleep 1,
            DevCall.ExitLinkingMode controller])) := by
  constructor
  · intro h
    simp [link.Unlink, Devices.call, h]
  · intro e h
    simp [link.Unlink, Devices.call, h]

/-- Unlink_sequence on `refusingDevices`: with the refusing device 0 as
controller the error comes back at once; with device 1 as controller and
device 0 as responder, EnterLinkingMode on the responder fails. -/
theorem Unlink_sequence_witness :
    link.Unlink refusingDevices 5 0 1 [] =
      (some Error.ErrNotLinked,
        [DevCall.EnterUnlinkingMode 0 5, DevCall.Sleep 2, DevCall.Sleep 1,
          DevCall.ExitLinkingMode 0]) ∧
    link.Unlink refusingDevices 5 1 0 [] =
      (some Error.ErrNotLinked,
        [DevCall.EnterUnlinkingMode 1 5, DevCall.Sleep 2, DevCall.EnterLinkingMode 0 5,
          DevCall.Sleep 1, DevCall.ExitLinkingMode 0, DevCall.ExitLinkingMode 1]) :=
  ⟨(Unlink_sequence refusingDevices 5 0 1 []).2 Error.ErrNotLinked rfl,
    (Unlink_sequence refusingDevices 5 1 0 []).1 rfl⟩

/-- C19 fails on the code. The controller (device 0 of `unlinkDevices`) holds one
record for the responder (device 1) in group 5. UnlinkAll(controller,
responder) makes one Unlink for group 5, but with the two devices exchanged:
the responder is put into unlinking mode and the controller into linking mode.
The run differs from Unlink(5, controller, responder). -/
theorem UnlinkAll_roles_swapped :
    link.UnlinkAll unlinkDevices exampleHeap 0 1 [] =
      some (none,
        [DevCall.Links 0, DevCall.EnterUnlinkingMode 1 5, DevCall.Sleep 2,
          DevCall.EnterLinkingMode 0 5, DevCall.Sleep 1, DevCall.ExitLinkingMode 0,
          DevCall.ExitLinkingMode 1]) ∧
    link.UnlinkAll unlinkDevices exampleHeap 0 1 [] =
      some (link.Unlink unlinkDevices 5 1 0 [DevCall.Links 0]) ∧
    link.UnlinkAll unlinkDevices exampleHeap 0 1 [] ≠
      some (link.Unlink unlinkDevices 5 0 1 [DevCall.Links 0]) := by
  decide

/-! ## FindDuplicateLinks -/

theorem duplicatesOf_cons (Equal : LinkPtr → LinkPtr → Bool) (x : LinkPtr)
    (rest : List LinkPtr) :
    duplicatesOf Equal (x :: rest) = rest.filter (Equal x) ++ duplicatesOf Equal rest := by
  unfold duplicatesOf
  rw [pairsLex, List.filter_append, List.map_append, List.filter_map, List.map_map]
  have e1 : (Prod.snd ∘ fun y : LinkPtr => (x, y)) = id := rfl
  have e2 : ((fun p : LinkPtr × LinkPtr => Equal p.1 p.2) ∘ fun y => (x, y)) = Equal x := rfl
  rw [e1, e2, List.map_id]

theorem findDuplicatesInner_eq (Equal : LinkPtr → LinkPtr → Bool) (l1 : LinkPtr)
    (rest dups : List LinkPtr) :
    link.findDuplicatesInner Equal l1 rest dups = dups ++ rest.filter (Equal l1) := by
  induction rest generalizing dups with
  | nil => simp [link.findDuplicatesInner]
  | cons l2 r ih =>
    rw [link.findDuplicatesInner, List.filter_cons]
    cases h : Equal l1 l2
    · simp only [Bool.false_eq_true, if_false]
      exact ih dups
    · simp only [if_true]
      rw [ih]
      simp

theorem findDuplicatesOuter_eq (Equal : LinkPtr → LinkPtr → Bool) (L dups : List LinkPtr) :
    link.findDuplicatesOuter Equal L dups = dups ++ duplicatesOf Equal L := by
  induction L generalizing dups with
  | nil => simp [link.findDuplicatesOuter, duplicatesOf, pairsLex]
  | cons l1 rest ih =>
    rw [link.findDuplicatesOuter, ih, findDuplicatesInner_eq, duplicatesOf_cons,
      List.append_assoc]

theorem mem_duplicatesOf (Equal : LinkPtr → LinkPtr → Bool) (L : List LinkPtr) (r : LinkPtr) :
    r ∈ duplicatesOf Equal L ↔
      ∃ i j : Nat, ∃ a : LinkPtr,
        i < j ∧ L[i]? = some a ∧ L[j]? = some r ∧ Equal a r = true := by
  induction L with
  | nil => simp [duplicatesOf, pairsLex]
  | cons x rest ih =>
    rw [duplicatesOf_cons, List.mem_append, ih, List.mem_filter]
    constructor
    · rintro (⟨hr, he⟩ | ⟨i, j, a, hij, hi, hj, he⟩)
      · obtain ⟨k, hk⟩ := List.getElem?_of_mem hr
        exact ⟨0, k + 1, x, Nat.succ_pos _, by simp, by simpa using hk, he⟩
      · exact ⟨i + 1, j + 1, a, Nat.succ_lt_succ hij, by simpa using hi, by simpa using hj, he⟩
    · rintro ⟨i, j, a, hij, hi, hj, he⟩
      cases j with
      | zero => exact absurd hij (Nat.not_lt_zero _)
      | succ j =>
        rw [List.getElem?_cons_succ] at hj
        cases i with
        | zero =>
          rw [List.getElem?_cons_zero] at hi
          have hxa : x = a := Option.some.inj hi
          exact Or.inl ⟨List.getElem?_mem hj, hxa ▸ he⟩
        | succ i =>
          rw [List.getElem?_cons_succ] at hi
          exact Or.inr ⟨i, j, a, Nat.lt_of_succ_lt_succ hij, hi, hj, he⟩

theorem filter_eq_singleton {α : Type} (P : α → Bool) (R : List α) (k : Nat) (b : α)
    (hk : R[k]? = some b) (hb : P b = true)
    (huniq : ∀ k2 b2, R[k2]? = some b2 → P b2 = true → k2 = k) : R.filter P = [b] := by
  induction R generalizing k with
  | nil => simp at hk
  | cons x r ih =>
    rw [List.filter_cons]
    cases k with
    | zero =>
      rw [List.getElem?_cons_zero] at hk
      have hxb : x = b := Option.some.inj hk
      rw [hxb, hb]
      simp only [if_true, List.cons.injEq, true_and]
      rw [List.filter_eq_nil_iff]
      intro y hy hPy
      obtain ⟨n, hn⟩ := List.getElem?_of_mem hy
      have := huniq (n + 1) y (by simpa using hn) hPy
      exact absurd this (Nat.succ_ne_zero _)
    | succ k =>
      rw [List.getElem?_cons_succ] at hk
      have hx : P x = false := by
        cases hPx : P x with
        | false => rfl
        | true => exact absurd (huniq 0 x (by simp) hPx) (Nat.succ_ne_zero _).symm
      rw [hx]
      simp only [Bool.false_eq_true, if_false]
      exact ih k hk (fun k2 b2 h1 h2 =>
        Nat.succ_injective (huniq (k2 + 1) b2 (by simpa using h1) h2))

theorem duplicatesOf_eq_nil (Equal : LinkPtr → LinkPtr → Bool) (L : List LinkPtr)
    (h : ∀ i j : Nat, ∀ a b : LinkPtr, i < j → L[i]? = some a → L[j]? = some b →
      Equal a b = false) : duplicatesOf Equal L = [] := by
  cases hd : duplicatesOf Equal L with
  | nil => rfl
  | cons r rs =>
    have hr : r ∈ duplicatesOf Equal L := by rw [hd]; exact List.mem_cons_self _ _
    obtain ⟨i, j, a, hij, hi, hj, he⟩ := (mem_duplicatesOf Equal L r).1 hr
    rw [h i j a r hij hi hj] at he
    exact absurd he (by simp)

theorem duplicatesOf_eq_singleton (Equal : LinkPtr → LinkPtr → Bool) (L : List LinkPtr)
    (i j : Nat) (a b : LinkPtr) (hij : i < j) (hi : L[i]? = some a) (hj : L[j]? = some b)
    (he : Equal a b = true)
    (huniq : ∀ i2 j2 : Nat, ∀ a2 b2 : LinkPtr, i2 < j2 → L[i2]? = some a2 →
      L[j2]? = some b2 → Equal a2 b2 = true → i2 = i ∧ j2 = j) :
    duplicatesOf Equal L = [b] := by
  induction L generalizing i j with
  | nil => simp at hi
  | cons x rest ih =>
    rw [duplicatesOf_cons]
    cases j with
    | zero => exact absurd hij (Nat.not_lt_zero _)
    | succ j =>
      rw [List.getElem?_cons_succ] at hj
      cases i with
      | zero =>
        rw [List.getElem?_cons_zero] at hi
        have hxa : x = a := Option.some.inj hi
        have h1 : rest.filter (Equal x) = [b] :=
          filter_eq_singleton (Equal x) rest j b hj (hxa ▸ he) (fun k2 b2 hk2 hP =>
            Nat.succ_injective
              (huniq 0 (k2 + 1) x b2 (Nat.succ_pos _) (by simp) (by simpa using hk2) hP).2)
        have h2 : duplicatesOf Equal rest = [] :=
          duplicatesOf_eq_nil Equal rest (fun i2 j2 a2 b2 h12 hi2 hj2 => by
            cases hE : Equal a2 b2 with
            | false => rfl
            | true =>
              exact absurd
                (huniq (i2 + 1) (j2 + 1) a2 b2 (Nat.succ_lt_succ h12) (by simpa using hi2)
                  (by simpa using hj2) hE).1 (Nat.succ_ne_zero _))
        rw [h1, h2]
        rfl
      | succ i =>
        rw [List.getElem?_cons_succ] at hi
        have h1 : rest.filter (Equal x) = [] := by
          rw [List.filter_eq_nil_iff]
          intro y hy hPy
          obtain ⟨n, hn⟩ := List.getElem?_of_mem hy
          exact absurd
            (huniq 0 (n + 1) x y (Nat.succ_pos _) (by simp) (by simpa using hn) hPy).1
            (Nat.succ_ne_zero _).symm
        have h2 : duplicatesOf Equal rest = [b] :=
          ih i j (Nat.lt_of_succ_lt_succ hij) hi hj (fun i2 j2 a2 b2 h12 hi2 hj2 hE => by
            have := huniq (i2 + 1) (j2 + 1) a2 b2 (Nat.succ_lt_succ h12) (by simpa using hi2)
              (by simpa using hj2) hE
            exact ⟨Nat.succ_injective this.1, Nat.succ_injective this.2⟩)
        rw [h1, h2]
        rfl

theorem FindDuplicateLinks_eq (env : Devices) (Equal : LinkPtr → LinkPtr → Bool)
    (linkable : Dev) (t : Trace) (L : List LinkPtr) (hL : env.links linkable t = (L, none)) :
    link.FindDuplicateLinks env Equal linkable t =
      ((duplicatesOf Equal L, none), t ++ [DevCall.Links linkable]) := by
  unfold link.FindDuplicateLinks
  simp only [hL, if_true]
  rw [findDuplicatesOuter_eq]
  rfl

/-- C20: when Links() returns the list L without error, the records returned by
FindDuplicateLinks are exactly the records of L that are Equal to a record at
an earlier position of L; if exactly one pair of positions i < j holds Equal
records, the result is the single record at j. When Links() fails with an
error, the result is empty and that error is returned. -/
theorem FindDuplicateLinks_spec (env : Devices) (Equal : LinkPtr → LinkPtr → Bool)
    (linkable : Dev) (t : Trace) (L : List LinkPtr) :
    (env.links linkable t = (L, none) →
      (link.FindDuplicateLinks env Equal linkable t).1.2 = none ∧
      (∀ r, r ∈ (link.FindDuplicateLinks env Equal linkable t).1.1 ↔
        ∃ i j : Nat, ∃ a : LinkPtr,
          i < j ∧ L[i]? = some a ∧ L[j]? = some r ∧ Equal a r = true) ∧
      (∀ i j : Nat, ∀ a b : LinkPtr, i < j → L[i]? = some a → L[j]? = some b →
        Equal a b = true →
        (∀ i2 j2 : Nat, ∀ a2 b2 : LinkPtr, i2 < j2 → L[i2]? = some a2 →
          L[j2]? = some b2 → Equal a2 b2 = true → i2 = i ∧ j2 = j) →
        (link.FindDuplicateLinks env Equal linkable t).1.1 = [b])) ∧
    (∀ e, env.links linkable t = (L, some e) →
      (link.FindDuplicateLinks env Equal linkable t).1 = ([], some e)) := by
  constructor
  · intro hL
    rw [FindDuplicateLinks_eq env Equal linkable t L hL]
    exact ⟨rfl, mem_duplicatesOf Equal L,
      fun i j a b hij hi hj he huniq =>
        duplicatesOf_eq_singleton Equal L i j a b hij hi hj he huniq⟩
  · intro e hL
    unfold link.FindDuplicateLinks
    simp [hL]

/-- FindDuplicateLinks_spec with Link.Equal on three records of which the first
and the third are Equal and differ in their Data: the result is the third. -/
theorem FindDuplicateLinks_spec_witness :
    (link.FindDuplicateLinks duplicateDevices (Link.Equal duplicateHeap) 0 []).1.1
      = [some 2] :=
  ((FindDuplicateLinks_spec duplicateDevices (Link.Equal duplicateHeap) 0 []
      [some 0, some 1, some 2]).1 rfl).2.2 0 2 (some 0) (some 2) (by decide) rfl rfl
    (by decide) (by
      intro i2 j2 a2 b2 h12 hi2 hj2 hE
      have hj : j2 < 3 := by
        by_contra hge
        rw [List.getElem?_eq_none (by simpa using hge)] at hj2
        exact absurd hj2 (by simp)
      interval_cases j2 <;> interval_cases i2 <;> simp at hi2 hj2 <;> subst hi2 <;>
        subst hj2 <;> first | exact ⟨rfl, rfl⟩ | exact absurd hE (by decide))

/-! ## Port.Read -/

theorem frameBuf_eq (n sel : Nat) :
    ((make (n + 2)).set 0 0x02).set 1 sel = 2 :: sel :: make n := by
  simp [make, List.replicate_succ]

theorem ReadAtLeast_full (r : Reader) (n : Nat) (h : n ≤ r.data.length) :
    ∃ lb, r.ReadAtLeast (make n) n =
      ((r.data.take n, none), ⟨r.data.drop n, lb, r.err⟩) := by
  unfold Reader.ReadAtLeast
  by_cases hn : n = 0
  · subst hn
    exact ⟨r.lastByte, by simp [make]⟩
  · refine ⟨if r.data.take n = [] then r.lastByte
      else (((r.data.take n).getLastD 0 : Nat) : Int), ?_⟩
    have hlen : (make n).length = n := by simp [make]
    have htake : (List.take n r.data).length = n := by simp [h]
    simp only [hlen, Nat.lt_irrefl, if_false, hn, htake, Nat.le_refl, if_true]
    have hc : copy (make n) (List.take n r.data) = List.take n r.data := by
      unfold copy
      rw [hlen, htake]
      simp [make]
    rw [hc]

theorem ReadAtLeast_ok (r : Reader) (n : Nat)
    (h : (r.ReadAtLeast (make n) n).1.2 = none) :
    (r.ReadAtLeast (make n) n).1.1.length = n ∧
    r.data = (r.ReadAtLeast (make n) n).1.1 ++ (r.ReadAtLeast (make n) n).2.data ∧
    (r.ReadAtLeast (make n) n).2.err = r.err := by
  by_cases hle : n ≤ r.data.length
  · obtain ⟨lb, hlb⟩ := ReadAtLeast_full r n hle
    rw [hlb]
    simp [hle]
  · exfalso
    have hn : n ≠ 0 := by omega
    have hlen : (make n).length = n := by simp [make]
    unfold Reader.ReadAtLeast at h
    simp only [hlen, Nat.lt_irrefl, if_false, hn] at h
    have h2 : ¬ (n ≤ (List.take n r.data).length) := by
      rw [List.length_take]
      omega
    rw [if_neg h2] at h
    split at h
    · exact absurd h (by simp)
    · split at h <;> exact absurd h (by simp)


theorem readLoop_succ (table : Nat → Option Nat) (fuel : Nat) (r : Reader) :
    Port.readLoop table (fuel + 1) r =
      match r.ReadByte.1.2 with
      | some e => ReadResult.returned [] (some e) r.ReadByte.2
      | none =>
          if r.ReadByte.1.1 ≠ 0x02 then Port.readLoop table fuel r.ReadByte.2
          else
            match table r.ReadByte.2.ReadByte.1.1 with
            | some packetLen =>
                ReadResult.returned
                  ((((make (packetLen + 2)).set 0 0x02).set 1 r.ReadByte.2.ReadByte.1.1).take 2
                    ++ (r.ReadByte.2.ReadByte.2.ReadAtLeast
                        ((((make (packetLen + 2)).set 0 0x02).set 1
                          r.ReadByte.2.ReadByte.1.1).drop 2) packetLen).1.1)
                  (r.ReadByte.2.ReadByte.2.ReadAtLeast
                    ((((make (packetLen + 2)).set 0 0x02).set 1
                      r.ReadByte.2.ReadByte.1.1).drop 2) packetLen).1.2
                  (r.ReadByte.2.ReadByte.2.ReadAtLeast
                    ((((make (packetLen + 2)).set 0 0x02).set 1
                      r.ReadByte.2.ReadByte.1.1).drop 2) packetLen).2
            | none =>
                match r.ReadByte.2.ReadByte.2.UnreadByte.1 with
                | none => Port.readLoop table fuel r.ReadByte.2.ReadByte.2.UnreadByte.2
                | some e => ReadResult.returned [] (some e) r.ReadByte.2.ReadByte.2.UnreadByte.2 := by
  rfl

/-- One iteration on a byte other than the marker. -/
theorem readLoop_skip (table : Nat → Option Nat) (fuel : Nat) (g : Nat) (tail : List Nat)
    (lb : Int) (err : Error) (hg : g ≠ 2) :
    Port.readLoop table (fuel + 1) ⟨g :: tail, lb, err⟩ =
      Port.readLoop table fuel ⟨tail, (g : Int), err⟩ := by
  rw [readLoop_succ]
  simp [Reader.ReadByte, hg]

/-- One iteration on a marker followed by an unknown selector. -/
theorem readLoop_unknown (table : Nat → Option Nat) (fuel : Nat) (s : Nat) (tail : List Nat)
    (lb : Int) (err : Error) (hs : table s = none) :
    Port.readLoop table (fuel + 1) ⟨2 :: s :: tail, lb, err⟩ =
      Port.readLoop table fuel ⟨s :: tail, -1, err⟩ := by
  rw [readLoop_succ]
  have hs0 : ¬ ((s : Int) < 0) := by omega
  simp [Reader.ReadByte, Reader.UnreadByte, hs, hs0]

/-- One iteration on a marker at the very end of the stream, when the selector
0 is unknown: the failed read of the selector is followed by UnreadByte, which
puts the marker back and succeeds. -/
theorem readLoop_marker_at_end (table : Nat → Option Nat) (fuel : Nat)
    (lb : Int) (err : Error) (h0 : table 0 = none) :
    Port.readLoop table (fuel + 1) ⟨[2], lb, err⟩ =
      Port.readLoop table fuel ⟨[2], -1, err⟩ := by
  rw [readLoop_succ]
  simp [Reader.ReadByte, Reader.UnreadByte, h0]

/-- One iteration on a marker followed by a known selector. -/
theorem readLoop_known (table : Nat → Option Nat) (fuel : Nat) (s n : Nat) (tail : List Nat)
    (lb : Int) (err : Error) (hs : table s = some n) :
    Port.readLoop table (fuel + 1) ⟨2 :: s :: tail, lb, err⟩ =
      ReadResult.returned
        (2 :: s :: ((⟨tail, (s : Int), err⟩ : Reader).ReadAtLeast (make n) n).1.1)
        ((⟨tail, (s : Int), err⟩ : Reader).ReadAtLeast (make n) n).1.2
        ((⟨tail, (s : Int), err⟩ : Reader).ReadAtLeast (make n) n).2 := by
  rw [readLoop_succ]
  simp [Reader.ReadByte, hs, frameBuf_eq]

theorem readLoop_empty (table : Nat → Option Nat) (fuel : Nat) (lb : Int) (err : Error) :
    Port.readLoop table (fuel + 1) ⟨[], lb, err⟩ =
      ReadResult.returned [] (some err) ⟨[], lb, err⟩ := by
  rw [readLoop_succ]
  simp [Reader.ReadByte]

/-- A marker at the very end with selector 0 known. -/
theorem readLoop_marker_at_end_known (table : Nat → Option Nat) (fuel : Nat) (n : Nat)
    (lb : Int) (err : Error) (h0 : table 0 = some n) :
    Port.readLoop table (fuel + 1) ⟨[2], lb, err⟩ =
      ReadResult.returned
        (2 :: 0 :: ((⟨[], 2, err⟩ : Reader).ReadAtLeast (make n) n).1.1)
        ((⟨[], 2, err⟩ : Reader).ReadAtLeast (make n) n).1.2
        ((⟨[], 2, err⟩ : Reader).ReadAtLeast (make n) n).2 := by
  rw [readLoop_succ]
  simp [Reader.ReadByte, h0, frameBuf_eq]


/-- The loop returns without error only with a frame header and body taken
from consecutive bytes of the stream. -/
theorem readLoop_returned (table : Nat → Option Nat) (h0 : table 0 ≠ some 0) (fuel : Nat) :
    ∀ (r0 : Reader) (buf : List Nat) (r1 : Reader),
      Port.readLoop table fuel r0 = ReadResult.returned buf none r1 →
      ∃ (pre : List Nat) (sel n : Nat) (body : List Nat),
        r0.data = pre ++ (2 :: sel :: body) ++ r1.data ∧ buf = 2 :: sel :: body ∧
        table sel = some n ∧ body.length = n ∧ r1.err = r0.err := by
  induction fuel with
  | zero =>
    intro r0 buf r1 h
    exact absurd h (by simp [Port.readLoop])
  | succ fuel ih =>
    intro r0 buf r1 h
    obtain ⟨data, lb, err⟩ := r0
    cases data with
    | nil =>
      rw [readLoop_empty] at h
      exact absurd h (by simp)
    | cons b rest =>
      by_cases hb : b = 2
      · subst hb
        cases rest with
        | nil =>
          cases ht : table 0 with
          | none =>
            rw [readLoop_marker_at_end table fuel lb err ht] at h
            obtain ⟨pre, sel, n, body, h1, h2, h3, h4, h5⟩ := ih _ buf r1 h
            exact ⟨pre, sel, n, body, h1, h2, h3, h4, h5⟩
          | some n =>
            rw [readLoop_marker_at_end_known table fuel n lb err ht] at h
            simp only [ReadResult.returned.injEq] at h
            obtain ⟨_, herr, _⟩ := h
            have hn : n ≠ 0 := fun hn => h0 (by rw [ht, hn])
            have := (ReadAtLeast_ok _ n herr).2.1
            have hlen := (ReadAtLeast_ok _ n herr).1
            simp only at this
            have h3 := congrArg List.length this
            simp only [List.length_nil, List.length_append] at h3
            omega
        | cons s tail =>
          cases ht : table s with
          | none =>
            rw [readLoop_unknown table fuel s tail lb err ht] at h
            obtain ⟨pre, sel, n, body, h1, h2, h3, h4, h5⟩ := ih _ buf r1 h
            refine ⟨2 :: pre, sel, n, body, ?_, h2, h3, h4, h5⟩
            simp only at h1
            simp only [List.cons_append, h1]
          | some n =>
            rw [readLoop_known table fuel s n tail lb err ht] at h
            simp only [ReadResult.returned.injEq] at h
            obtain ⟨hbuf, herr, hr⟩ := h
            obtain ⟨hlen, hdata, herr2⟩ := ReadAtLeast_ok _ n herr
            rw [hr] at hdata herr2
            refine ⟨[], s, n, _, ?_, hbuf.symm, ht, hlen, herr2⟩
            simp only at hdata
            simp only [List.nil_append, List.cons_append, List.cons.injEq, true_and]
            exact hdata
      · rw [readLoop_skip table fuel b rest lb err hb] at h
        obtain ⟨pre, sel, n, body, h1, h2, h3, h4, h5⟩ := ih _ buf r1 h
        refine ⟨b :: pre, sel, n, body, ?_, h2, h3, h4, h5⟩
        simp only at h1
        simp only [List.cons_append, h1]


theorem Read_of_loop_ok (table : Nat → Option Nat) (fuel : Nat) (r0 r1 : Reader)
    (buf : List Nat) (h : Port.readLoop table fuel r0 = ReadResult.returned buf none r1) :
    Port.Read table fuel r0 =
      if buf.getD 1 0 = 0x62 then
        if buf.length ≤ 5 then ReadResult.panic
        else if Flags.Extended (buf.getD 5 0) then
          ReadResult.returned ((buf ++ make 14).take 9
              ++ (r1.ReadAtLeast ((buf ++ make 14).drop 9) 14).1.1)
            (r1.ReadAtLeast ((buf ++ make 14).drop 9) 14).1.2
            (r1.ReadAtLeast ((buf ++ make 14).drop 9) 14).2
        else ReadResult.returned buf none r1
      else ReadResult.returned buf none r1 := by
  unfold Port.Read
  rw [h]

theorem Read_of_loop_err (table : Nat → Option Nat) (fuel : Nat) (r0 r1 : Reader)
    (buf : List Nat) (e : Error)
    (h : Port.readLoop table fuel r0 = ReadResult.returned buf (some e) r1) :
    Port.Read table fuel r0 = ReadResult.returned buf (some e) r1 := by
  unfold Port.Read
  rw [h]

theorem Read_of_loop_running (table : Nat → Option Nat) (fuel : Nat) (r0 : Reader)
    (h : Port.readLoop table fuel r0 = ReadResult.running) :
    Port.Read table fuel r0 = ReadResult.running := by
  unfold Port.Read
  rw [h]

theorem Read_of_loop_panic (table : Nat → Option Nat) (fuel : Nat) (r0 : Reader)
    (h : Port.readLoop table fuel r0 = ReadResult.panic) :
    Port.Read table fuel r0 = ReadResult.panic := by
  unfold Port.Read
  rw [h]

/-- The example table gives the selector 0x62 the body length 7. -/
theorem exampleLens_62 (n : Nat) (h : exampleLens 0x62 = some n) : n = 7 := by
  have e : exampleLens 0x62 = some 7 := by decide
  rw [e] at h
  exact (Option.some.inj h).symm

/-- C21: whenever Port.Read returns the frame f without error, f is a run of
consecutive bytes of the input stream (the stream is pre ++ f ++ what the
reader has left), f[0] = 0x02, f[1] is a selector of the length table, and
len(f) = 2 + table[f[1]], plus 14 exactly when f[1] = 0x62 and the flags byte
f[5] has the extended bit. The table is not among the sources: it is taken with
the body length 7 for the selector 0x62 (the offsets 5 and 9 of the code), and
without an empty body for the selector 0. -/
theorem Port_Read_frame (table : Nat → Option Nat) (h0 : table 0 ≠ some 0)
    (h62 : ∀ n, table 0x62 = some n → n = 7) (fuel : Nat) (r0 r2 : Reader) (f : List Nat)
    (h : Port.Read table fuel r0 = ReadResult.returned f none r2) :
    ∃ (pre : List Nat) (sel n : Nat),
      r0.data = pre ++ f ++ r2.data ∧ f[0]? = some 2 ∧ f[1]? = some sel ∧
      table sel = some n ∧
      f.length = 2 + n + (if sel = 0x62 ∧ Flags.Extended (f.getD 5 0) = true then 14 else 0) := by
  cases hl : Port.readLoop table fuel r0 with
  | running =>
    rw [Read_of_loop_running table fuel r0 hl] at h
    exact absurd h (by simp)
  | panic =>
    rw [Read_of_loop_panic table fuel r0 hl] at h
    exact absurd h (by simp)
  | returned buf e r1 =>
    cases e with
    | some e =>
      rw [Read_of_loop_err table fuel r0 r1 buf e hl] at h
      exact absurd h (by simp)
    | none =>
      obtain ⟨pre, sel, n, body, hdata, hbuf, ht, hlen, _⟩ :=
        readLoop_returned table h0 fuel r0 buf r1 hl
      rw [Read_of_loop_ok table fuel r0 r1 buf hl] at h
      subst hbuf
      simp only [List.getD_cons_succ, List.getD_cons_zero] at h
      by_cases hsel : sel = 0x62
      · have hn : n = 7 := h62 n (hsel ▸ ht)
        subst hn
        rw [if_pos hsel, if_neg (by simp [hlen])] at h
        by_cases hx : Flags.Extended (body.getD 3 0) = true
        · rw [if_pos hx] at h
          have e1 : (2 :: sel :: body ++ make 14).drop 9 = make 14 := by
            rw [List.drop_append_of_le_length (by simp [hlen])]
            rw [List.drop_eq_nil_of_le (by simp [hlen])]
            rfl
          have e2 : (2 :: sel :: body ++ make 14).take 9 = 2 :: sel :: body := by
            rw [List.take_append_of_le_length (by simp [hlen])]
            exact List.take_of_length_le (by simp [hlen])
          rw [e1, e2] at h
          simp only [ReadResult.returned.injEq] at h
          obtain ⟨hf, herr, hr⟩ := h
          obtain ⟨hlen2, hdata2, _⟩ := ReadAtLeast_ok r1 14 herr
          rw [hr] at hdata2
          have hx2 : Flags.Extended (f.getD 5 0) = true := by
            rw [← hf]
            have : (2 :: sel :: body ++ (r1.ReadAtLeast (make 14) 14).1.1).getD 5 0
                = body.getD 3 0 := by
              simp only [List.cons_append, List.getD_cons_succ, List.getD_eq_getElem?_getD]
              simp only [List.getElem?_cons_succ]
              rw [List.getElem?_append_left (by omega)]
            rw [this]
            exact hx
          refine ⟨pre, sel, 7, ?_, ?_, ?_, ht, ?_⟩
          · rw [hdata, ← hf, hdata2]
            simp
          · rw [← hf]; simp
          · rw [← hf]; simp
          · rw [if_pos ⟨hsel, hx2⟩, ← hf]
            simp [hlen, hlen2]
        · rw [if_neg hx] at h
          simp only [ReadResult.returned.injEq, true_and] at h
          obtain ⟨hf, hr⟩ := h
          subst hf hr
          refine ⟨pre, sel, 7, hdata, by simp, by simp, ht, ?_⟩
          rw [if_neg (fun hh => hx hh.2)]
          simp [hlen]
      · rw [if_neg hsel] at h
        simp only [ReadResult.returned.injEq, true_and] at h
        obtain ⟨hf, hr⟩ := h
        subst hf hr
        refine ⟨pre, sel, n, hdata, by simp, by simp, ht, ?_⟩
        rw [if_neg (fun hh => hsel hh.1)]
        simp [hlen]
        omega

/-- Port_Read_frame at an extended 0x62 frame of 23 bytes that follows one stray
byte and is followed by one more byte. -/
theorem Port_Read_frame_witness :
    Port.Read exampleLens 3
        ⟨[7, 2, 0x62, 1, 2, 3, 0x1f, 5, 6, 7, 1, 2, 3, 4, 5, 6, 7, 8, 9, 10, 11, 12, 13, 14, 9],
          -1, Error.EOF⟩
      = ReadResult.returned
          [2, 0x62, 1, 2, 3, 0x1f, 5, 6, 7, 1, 2, 3, 4, 5, 6, 7, 8, 9, 10, 11, 12, 13, 14] none
          ⟨[9], 14, Error.EOF⟩ ∧
    ∃ (pre : List Nat) (sel n : Nat),
      [7, 2, 0x62, 1, 2, 3, 0x1f, 5, 6, 7, 1, 2, 3, 4, 5, 6, 7, 8, 9, 10, 11, 12, 13, 14, 9]
        = pre ++ [2, 0x62, 1, 2, 3, 0x1f, 5, 6, 7, 1, 2, 3, 4, 5, 6, 7, 8, 9, 10, 11, 12, 13, 14]
            ++ [9] ∧
      [2, 0x62, 1, 2, 3, 0x1f, 5, 6, 7, 1, 2, 3, 4, 5, 6, 7, 8, 9, 10, 11, 12, 13, 14][0]?
        = some 2 ∧
      [2, 0x62, 1, 2, 3, 0x1f, 5, 6, 7, 1, 2, 3, 4, 5, 6, 7, 8, 9, 10, 11, 12, 13, 14][1]?
        = some sel ∧
      exampleLens sel = some n ∧
      [2, 0x62, 1, 2, 3, 0x1f, 5, 6, 7, 1, 2, 3, 4, 5, 6, 7, 8, 9, 10, 11, 12, 13, 14].length
        = 2 + n + (if sel = 0x62 ∧ Flags.Extended
            ([2, 0x62, 1, 2, 3, 0x1f, 5, 6, 7, 1, 2, 3, 4, 5, 6, 7, 8, 9, 10, 11, 12, 13, 14].getD
              5 0) = true then 14 else 0) :=
  ⟨by decide,
   Port_Read_frame exampleLens (by decide) exampleLens_62 3
    ⟨[7, 2, 0x62, 1, 2, 3, 0x1f, 5, 6, 7, 1, 2, 3, 4, 5, 6, 7, 8, 9, 10, 11, 12, 13, 14, 9],
      -1, Error.EOF⟩ ⟨[9], 14, Error.EOF⟩
    [2, 0x62, 1, 2, 3, 0x1f, 5, 6, 7, 1, 2, 3, 4, 5, 6, 7, 8, 9, 10, 11, 12, 13, 14]
    (by decide)⟩

/-- Leading garbage is skipped: the loop then behaves as on the stream without it. -/
theorem readLoop_garbage (table : Nat → Option Nat) (s0 : Nat) (F : List Nat) (err : Error)
    (fuel : Nat) (X : ReadResult)
    (hX : ∀ lb, Port.readLoop table fuel ⟨s0 :: F, lb, err⟩ = X)
    (garbage : List Nat) (hg : isGarbage table s0 garbage = true) :
    ∀ lb, Port.readLoop table (garbage.length + fuel) ⟨garbage ++ s0 :: F, lb, err⟩ = X := by
  induction garbage with
  | nil =>
    intro lb
    simpa using hX lb
  | cons g gs ih =>
    intro lb
    simp only [isGarbage, Bool.and_eq_true, Bool.or_eq_true, decide_eq_true_eq,
      Option.isNone_iff_eq_none] at hg
    obtain ⟨hg1, hg2⟩ := hg
    have hfuel : (g :: gs).length + fuel = (gs.length + fuel) + 1 := by
      simp only [List.length_cons]; omega
    rw [hfuel]
    by_cases h2 : g = 2
    · subst h2
      have hnone : table (gs.headD s0) = none := by
        rcases hg1 with h | h
        · exact absurd rfl h
        · exact h
      cases gs with
      | nil =>
        simp only [List.headD_nil] at hnone
        simp only [List.cons_append, List.nil_append]
        rw [readLoop_unknown table _ s0 F lb err hnone]
        exact ih hg2 (-1)
      | cons s tail =>
        simp only [List.headD_cons] at hnone
        simp only [List.cons_append]
        rw [readLoop_unknown table _ s (tail ++ s0 :: F) lb err hnone]
        exact ih hg2 (-1)
    · simp only [List.cons_append]
      rw [readLoop_skip table _ g (gs ++ s0 :: F) lb err h2]
      exact ih hg2 _

/-- The shape of a well-formed frame. -/
theorem wellFormedFrame_cases (table : Nat → Option Nat) (frame : List Nat)
    (hf : wellFormedFrame table frame = true) :
    ∃ (sel n : Nat) (body : List Nat), frame = 2 :: sel :: body ∧ table sel = some n ∧
      body.length =
        n + (if sel = 0x62 ∧ Flags.Extended (frame.getD 5 0) = true then 14 else 0) := by
  unfold wellFormedFrame at hf
  split at hf
  · rename_i sel body
    split at hf
    · rename_i n hn
      exact ⟨sel, n, body, rfl, hn, by simpa using hf⟩
    · exact absurd hf (by simp)
  · exact absurd hf (by simp)

/-- C22: for every stream garbage ++ frame ++ rest in which frame is a complete
well-formed frame and no marker 0x02 of garbage is immediately followed in the
stream by a known selector (garbage may hold markers followed by unknown
selectors and may end in a marker, whose follower is then the marker of the
frame, so 0x02 is not a known selector), Port.Read returns exactly frame
without error and leaves exactly rest in the reader, as soon as the loop may
run for more iterations than garbage has bytes. -/
theorem Port_Read_resync (table : Nat → Option Nat)
    (h62 : ∀ n, table 0x62 = some n → n = 7) (garbage frame rest : List Nat)
    (lb : Int) (err : Error)
    (hg : isGarbage table 2 garbage = true) (hf : wellFormedFrame table frame = true)
    (fuel : Nat) (hfuel : garbage.length < fuel) :
    ∃ r2 : Reader,
      Port.Read table fuel ⟨garbage ++ frame ++ rest, lb, err⟩
        = ReadResult.returned frame none r2 ∧
      r2.data = rest ∧ r2.err = err := by
  obtain ⟨k, hk⟩ : ∃ k, fuel = garbage.length + (k + 1) := ⟨fuel - garbage.length - 1, by omega⟩
  subst hk
  obtain ⟨sel, n, body, hframe, ht, hf⟩ := wellFormedFrame_cases table frame hf
  subst hframe
  have hloop := readLoop_garbage table 2 (sel :: body ++ rest) err (k + 1) _
    (fun lb2 => readLoop_known table k sel n (body ++ rest) lb2 err ht) garbage hg lb
  have hdata : garbage ++ (2 :: sel :: body) ++ rest
      = garbage ++ 2 :: (sel :: body ++ rest) := by simp
  rw [hdata]
  have hn : n ≤ (body ++ rest).length := by
    rw [List.length_append, hf]; omega
  obtain ⟨lb1, hfull⟩ := ReadAtLeast_full ⟨body ++ rest, (sel : Int), err⟩ n hn
  rw [hfull] at hloop
  simp only at hloop
  have hbn : n ≤ body.length := by rw [hf]; omega
  have htake : (body ++ rest).take n = body.take n := List.take_append_of_le_length hbn
  have hdrop : (body ++ rest).drop n = body.drop n ++ rest :=
    List.drop_append_of_le_length hbn
  rw [htake, hdrop] at hloop
  rw [Read_of_loop_ok table _ _ _ _ hloop]
  simp only [List.getD_cons_succ, List.getD_cons_zero]
  by_cases hsel : sel = 0x62
  · have hn7 : n = 7 := h62 n (hsel ▸ ht)
    subst hn7
    have hlt : (List.take 7 body).length = 7 := by
      rw [List.length_take]; omega
    rw [if_pos hsel, if_neg (by simp [hlt])]
    have hg5 : (List.take 7 body).getD 3 0 = (2 :: sel :: body).getD 5 0 := by
      simp [List.getElem?_take]
    by_cases hx : Flags.Extended ((List.take 7 body).getD 3 0) = true
    · have hx2 : Flags.Extended ((2 :: sel :: body).getD 5 0) = true := by
        rw [← hg5]; exact hx
      rw [if_pos ⟨hsel, hx2⟩] at hf
      rw [if_pos hx]
      have e1 : (2 :: sel :: List.take 7 body ++ make 14).drop 9 = make 14 := by
        rw [List.drop_append_of_le_length (by simp [hlt])]
        rw [List.drop_eq_nil_of_le (by simp [hlt])]
        rfl
      have e2 : (2 :: sel :: List.take 7 body ++ make 14).take 9
          = 2 :: sel :: List.take 7 body := by
        rw [List.take_append_of_le_length (by simp [hlt])]
        exact List.take_of_length_le (by simp [hlt])
      rw [e1, e2]
      have h14 : 14 ≤ (⟨List.drop 7 body ++ rest, lb1, err⟩ : Reader).data.length := by
        simp only [List.length_append, List.length_drop]; omega
      obtain ⟨lb2, hfull2⟩ := ReadAtLeast_full ⟨List.drop 7 body ++ rest, lb1, err⟩ 14 h14
      rw [hfull2]
      simp only
      have hd14 : (List.drop 7 body).length = 14 := by
        rw [List.length_drop]; omega
      have t1 : List.take 14 (List.drop 7 body ++ rest) = List.drop 7 body := by
        rw [List.take_append_of_le_length (Nat.le_of_eq hd14.symm)]
        exact List.take_of_length_le (Nat.le_of_eq hd14)
      have t2 : List.drop 14 (List.drop 7 body ++ rest) = rest := by
        rw [List.drop_append_of_le_length (Nat.le_of_eq hd14.symm),
          List.drop_eq_nil_of_le (Nat.le_of_eq hd14)]
        rfl
      refine ⟨⟨rest, lb2, err⟩, ?_, rfl, rfl⟩
      rw [t1, t2]
      simp
    · have hx2 : ¬ Flags.Extended ((2 :: sel :: body).getD 5 0) = true := by
        rw [← hg5]; exact hx
      rw [if_neg (fun hh => hx2 hh.2)] at hf
      rw [if_neg hx]
      refine ⟨⟨rest, lb1, err⟩, ?_, rfl, rfl⟩
      rw [List.take_of_length_le (by omega), List.drop_eq_nil_of_le (by omega)]
      simp
  · rw [if_neg (fun hh => hsel hh.1)] at hf
    rw [if_neg hsel]
    refine ⟨⟨rest, lb1, err⟩, ?_, rfl, rfl⟩
    rw [List.take_of_length_le (by omega), List.drop_eq_nil_of_le (by omega)]
    simp

/-- Port_Read_resync at garbage that holds a marker followed by an unknown
selector and ends in two markers, the last of them followed by the marker of
the frame. -/
theorem Port_Read_resync_witness :
    isGarbage exampleLens 2 [7, 2, 9, 2, 2] = true ∧
    wellFormedFrame exampleLens [2, 0x58, 6] = true ∧
    ∃ r2 : Reader,
      Port.Read exampleLens 6 ⟨[7, 2, 9, 2, 2] ++ [2, 0x58, 6] ++ [4, 4], -1, Error.EOF⟩
        = ReadResult.returned [2, 0x58, 6] none r2 ∧
      r2.data = [4, 4] ∧ r2.err = Error.EOF :=
  ⟨by decide, by decide,
   Port_Read_resync exampleLens exampleLens_62 [7, 2, 9, 2, 2] [2, 0x58, 6] [4, 4] (-1)
    Error.EOF (by decide) (by decide) 6 (by decide)⟩

/-- A stream that ends right after a marker, when 0 is no selector: the loop
never stops. -/
theorem readLoop_marker_at_end_running (table : Nat → Option Nat) (err : Error)
    (h0 : table 0 = none) (fuel : Nat) :
    ∀ lb : Int, Port.readLoop table fuel ⟨[2], lb, err⟩ = ReadResult.running := by
  induction fuel with
  | zero => intro lb; rfl
  | succ fuel ih =>
    intro lb
    rw [readLoop_marker_at_end table fuel lb err h0]
    exact ih (-1)

/-- C23: the claim fails for a stream that ends right after a marker 0x02. The
error of the ReadByte that reads the selector is never tested and is
overwritten by the result of UnreadByte, which succeeds and puts the marker
back: on the stream 0x02 (then end of stream, or any other failure) Port.Read
is still in its loop after any number of iterations and never returns the
error. The other three stages do return the read error: scanning for the
marker, the body, and the 14-byte extension. -/
theorem Port_Read_marker_at_end :
    (∀ (fuel : Nat) (lb : Int) (err : Error),
      Port.Read exampleLens fuel ⟨[0x02], lb, err⟩ = ReadResult.running) ∧
    (∀ (fuel : Nat) (lb : Int) (err : Error),
      Port.Read exampleLens (fuel + 1) ⟨[], lb, err⟩
        = ReadResult.returned [] (some err) ⟨[], lb, err⟩) ∧
    Port.Read exampleLens 3 ⟨[1, 3], -1, Error.EOF⟩
      = ReadResult.returned [] (some Error.EOF) ⟨[], 3, Error.EOF⟩ ∧
    Port.Read exampleLens 3 ⟨[2, 0x58], -1, Error.EOF⟩
      = ReadResult.returned [2, 0x58, 0] (some Error.EOF) ⟨[], 0x58, Error.EOF⟩ ∧
    Port.Read exampleLens 3 ⟨[2, 0x50, 1, 2], -1, Error.EOF⟩
      = ReadResult.returned [2, 0x50, 1, 2, 0, 0, 0, 0, 0, 0, 0] (some Error.ErrUnexpectedEOF)
          ⟨[], 2, Error.EOF⟩ ∧
    Port.Read exampleLens 3 ⟨[2, 0x62, 1, 2, 3, 0x1f, 5, 6, 7, 8, 9], -1, Error.EOF⟩
      = ReadResult.returned
          [2, 0x62, 1, 2, 3, 0x1f, 5, 6, 7, 8, 9, 0, 0, 0, 0, 0, 0, 0, 0, 0, 0, 0, 0]
          (some Error.ErrUnexpectedEOF) ⟨[], 9, Error.EOF⟩ := by
  refine ⟨?_, ?_, by decide, by decide, by decide, by decide⟩
  · intro fuel lb err
    exact Read_of_loop_running _ _ _
      (readLoop_marker_at_end_running exampleLens err (by decide) fuel lb)
  · intro fuel lb err
    exact Read_of_loop_err _ _ _ _ _ _ (readLoop_empty exampleLens fuel lb err)

/-! ## Errors of the linking step -/

/-- C24: the claim fails. Link calls ForceLink and drops its result: when
neither record exists and EnterLinkingMode fails with ErrNotLinked on the
controller (devices 0, 1) or on the responder (devices 1, 0), ForceLink returns
that error and Link returns nil. CreateLink of linkdb.go, on the same devices,
returns the error. -/
theorem Link_drops_ForceLink_error :
    (link.ForceLink refusingDevices 5 0 1 [DevCall.Links 0, DevCall.Links 1]).1
      = some Error.ErrNotLinked ∧
    link.Link refusingDevices exampleHeap 5 0 1 [] =
      some (none, [DevCall.Links 0, DevCall.Links 1, DevCall.EnterLinkingMode 0 5,
        DevCall.Sleep 2, DevCall.Sleep 1, DevCall.ExitLinkingMode 0]) ∧
    (link.ForceLink refusingDevices 5 1 0 [DevCall.Links 1, DevCall.Links 0]).1
      = some Error.ErrNotLinked ∧
    link.Link refusingDevices exampleHeap 5 1 0 [] =
      some (none, [DevCall.Links 1, DevCall.Links 0, DevCall.EnterLinkingMode 1 5,
        DevCall.Sleep 2, DevCall.EnterLinkingMode 0 5, DevCall.Sleep 1,
        DevCall.ExitLinkingMode 0, DevCall.ExitLinkingMode 1]) ∧
    CreateLink refusingDevices exampleHeap 0 1 5 [] =
      some (some Error.ErrNotLinked, [DevCall.LinkDB 0, DevCall.LinkDB 1, DevCall.DBLinks 0,
        DevCall.DBLinks 1, DevCall.EnterLinkingMode 0 5]) := by
  decide

/-! ## AddLink on a failed write -/

/-- C25: when the WriteLink made by AddLink fails with e, AddLink returns e,
and the database it leaves holds the new record all the same: in the first
available slot when there is one, appended otherwise. The write was made once,
at the address of that slot. -/
theorem AddLink_write_failure (db : BaseLinkDB) (heap : Heap) (newLink : LinkPtr) (e : Error)
    (hnn : ∀ p ∈ db.links, p ≠ none)
    (hfail : (db.LinkWriter.WriteLink heap
      (0x0fff - 8 * ((db.links.findIdx (slotAvailable heap) : Nat) + 1)) newLink).2 = some e) :
    ∃ db2 : BaseLinkDB,
      db.AddLink heap newLink = some (db2, heap, some e) ∧
      db2.links =
        (if db.links.findIdx (slotAvailable heap) < db.links.length then
          db.links.set (db.links.findIdx (slotAvailable heap)) newLink
        else db.links ++ [newLink]) ∧
      db2.links[db.links.findIdx (slotAvailable heap)]? = some newLink ∧
      db2.LinkWriter.calls = db.LinkWriter.calls ++
        [⟨0x0fff - 8 * ((db.links.findIdx (slotAvailable heap) : Nat) + 1), newLink⟩] := by
  rw [AddLink_eq db heap newLink hnn, hfail]
  refine ⟨_, rfl, rfl, ?_, rfl⟩
  by_cases h : db.links.findIdx (slotAvailable heap) < db.links.length
  · simp only [if_pos h]
    simp [h]
  · simp only [if_neg h]
    have hlen : db.links.findIdx (slotAvailable heap) = db.links.length :=
      Nat.le_antisymm (List.findIdx_le_length _) (Nat.le_of_not_lt h)
    rw [hlen]
    simp

/-- AddLink_write_failure on three slots of which the second is available, over
a writer that fails: the record is in the second slot and the error is returned. -/
theorem AddLink_write_failure_witness :
    ∃ db2 : BaseLinkDB,
      (⟨failingWriter, [some 0, some 1, some 2]⟩ : BaseLinkDB).AddLink mixedHeap (some 7)
        = some (db2, mixedHeap, some Error.ErrNotLinked) ∧
      db2.links = [some 0, some 7, some 2] ∧
      db2.LinkWriter.calls = [⟨0x0fef, some 7⟩] := by
  obtain ⟨db2, h1, h2, _, h4⟩ :=
    AddLink_write_failure ⟨failingWriter, [some 0, some 1, some 2]⟩ mixedHeap (some 7)
      Error.ErrNotLinked (by decide) rfl
  refine ⟨db2, h1, ?_, ?_⟩
  · rw [h2]; decide
  · rw [h4]; decide

/-! ## Connection construction and listeners -/

/-- C26: construction with the TTL t succeeds if and only if t is at most 3;
for any other t it fails with the text "invalid ttl <t>, must be in range 0-3"
holding the decimal value of t, as for 4 and 254. -/
theorem NewConnectionTTL_range (t : Nat) :
    (NewConnectionTTL t = none ↔ t ≤ 3) ∧
    (3 < t → NewConnectionTTL t =
      some (Error.other ("invalid ttl " ++ toString t ++ ", must be in range 0-3"))) ∧
    NewConnectionTTL 4 = some (Error.other "invalid ttl 4, must be in range 0-3") ∧
    NewConnectionTTL 254 = some (Error.other "invalid ttl 254, must be in range 0-3") := by
  refine ⟨?_, ?_, by decide, by decide⟩
  · unfold NewConnectionTTL
    by_cases h : t > 3
    · rw [if_pos h]
      simp only [reduceCtorEq, false_iff]
      omega
    · rw [if_neg h]
      simp only [true_iff]
      omega
  · intro h
    unfold NewConnectionTTL
    rw [if_pos h]

/-- NewConnectionTTL_range at the TTL values 3 and 200. -/
theorem NewConnectionTTL_range_witness :
    NewConnectionTTL 3 = none ∧
    NewConnectionTTL 200 = some (Error.other "invalid ttl 200, must be in range 0-3") :=
  ⟨(NewConnectionTTL_range 3).1.2 (by decide),
   ((NewConnectionTTL_range 200).2.1 (by decide)).trans (by decide)⟩

/-- Removing the listeners of the given queues keeps the listeners of the other queues. -/
theorem removeAll_listeners (keys : List Nat) (ml : msgListeners) :
    (keys.foldl msgListeners.RemoveListener ml).listeners
      = ml.listeners.filter (fun kl => decide (kl.1 ∉ keys)) := by
  induction keys generalizing ml with
  | nil => simp
  | cons k ks ih =>
    rw [List.foldl_cons, ih]
    simp only [msgListeners.RemoveListener, List.filter_filter]
    congr 1
    funext kl
    by_cases h1 : kl.1 = k <;> by_cases h2 : kl.1 ∈ ks <;> simp [h1, h2]

/-- What offer does to one listener: the filter is kept, and the message is
added to the queue only when type and command match. -/
theorem offer_cases (bufLen : Nat) (l : msgListener) (m : Message) :
    (l.offer bufLen m).t = l.t ∧ (l.offer bufLen m).cmds = l.cmds ∧
    ((l.offer bufLen m).queue = l.queue ∨
      ((l.offer bufLen m).queue = l.queue ++ [m] ∧ l.t = m.Flags.Type_ ∧ m.Command ∈ l.cmds)) := by
  unfold msgListener.offer
  split
  · rename_i h
    exact ⟨rfl, rfl, Or.inr ⟨rfl, h.1, h.2.1⟩⟩
  · exact ⟨rfl, rfl, Or.inl rfl⟩

/-- C27: deliver(m) keeps every listener and its filter, and adds m to the
queue of a listener only if the listener's type is the type of m and the
command of m is among the listener's commands. In the registry of
TestMsgListeners a Direct message with the Ping command reaches the first
listener and neither of the two others; after RemoveListener for the three
queues, and in general for every registered queue, no listener is left. -/
theorem deliver_filters (ml : msgListeners) (m : Message) :
    (∀ (i k : Nat) (l : msgListener), ml.listeners[i]? = some (k, l) →
      ∃ l2 : msgListener, (ml.deliver m).listeners[i]? = some (k, l2) ∧
        l2.t = l.t ∧ l2.cmds = l.cmds ∧
        (l2.queue = l.queue ∨
          (l2.queue = l.queue ++ [m] ∧ l.t = m.Flags.Type_ ∧ m.Command ∈ l.cmds))) ∧
    (ml.deliver m).listeners.length = ml.listeners.length ∧
    (∀ cmdPing cmdALDB : Command, cmdPing ≠ cmdALDB →
      m.Flags.Type_ = MsgTypeDirect → m.Command = cmdPing →
      ((testListeners cmdPing cmdALDB).deliver m).listeners.map (fun kl => kl.2.queue)
        = [[m], [], []]) ∧
    (∀ cmdPing cmdALDB : Command,
      ((((testListeners cmdPing cmdALDB).deliver m).RemoveListener 0).RemoveListener
        1).RemoveListener 2 = ⟨[], 1, 3⟩) ∧
    ((ml.listeners.map Prod.fst).foldl msgListeners.RemoveListener ml).listeners = [] := by
  refine ⟨?_, ?_, ?_, ?_, ?_⟩
  · intro i k l h
    refine ⟨l.offer ml.bufLen m, ?_, offer_cases ml.bufLen l m⟩
    simp [msgListeners.deliver, h]
  · simp [msgListeners.deliver]
  · intro cmdPing cmdALDB hne ht hc
    have hne2 : ¬ (cmdPing = cmdALDB) := hne
    have hbd : ¬ (MsgTypeBroadcast = MsgTypeDirect) := by decide
    simp [testListeners, msgListeners.AddListener, msgListeners.deliver, msgListener.offer,
      ht, hc, hne2, hbd]
  · intro cmdPing cmdALDB
    simp [testListeners, msgListeners.AddListener, msgListeners.deliver,
      msgListeners.RemoveListener]
  · rw [removeAll_listeners]
    rw [List.filter_eq_nil_iff]
    intro kl hkl
    simp only [decide_eq_true_eq, not_not]
    exact List.mem_map_of_mem Prod.fst hkl

/-- The listeners of TestMsgListeners with commands 00.0f.00 and 00.2f.00, and a
Direct message with the first command: deliver_filters gives the three queues. -/
theorem deliver_filters_witness :
    ((testListeners ⟨0, 0x0f, 0⟩ ⟨0, 0x2f, 0⟩).deliver
        ⟨⟨1, 2, 3⟩, ⟨4, 5, 6⟩, 0x0f, ⟨0, 0x0f, 0⟩, []⟩).listeners.map (fun kl => kl.2.queue)
      = [[⟨⟨1, 2, 3⟩, ⟨4, 5, 6⟩, 0x0f, ⟨0, 0x0f, 0⟩, []⟩], [], []] :=
  (deliver_filters (testListeners ⟨0, 0x0f, 0⟩ ⟨0, 0x2f, 0⟩)
    ⟨⟨1, 2, 3⟩, ⟨4, 5, 6⟩, 0x0f, ⟨0, 0x0f, 0⟩, []⟩).2.2.1 ⟨0, 0x0f, 0⟩ ⟨0, 0x2f, 0⟩
    (by decide) (by decide) rfl

/-! ## The command of a decoded message -/

/-- For the remaining flag bits x, the group taken from a NAK is the group
taken from the ACK. -/
theorem nak_group_eq_ack_group :
    ∀ x < 0x20,
      ((0x70 &&& (0xa0 ||| x)) >>> 4 = (0x20 ||| x) >>> 4) ∧
      ((0x70 &&& (0xe0 ||| x)) >>> 4 = (0x60 ||| x) >>> 4) ∧
      (0xa0 ||| x) &&& 0xe0 = 0xa0 ∧ (0xe0 ||| x) &&& 0xe0 = 0xe0 ∧
      (0x20 ||| x) &&& 0xe0 = 0x20 ∧ (0x60 ||| x) &&& 0xe0 = 0x60 := by
  decide

/-- An accepted input has at least 9 bytes and its Command is the one stored
with the header. -/
theorem accepted_command_eq (m : Message) (d : List Nat)
    (h : (m.UnmarshalBinary d).2 = none) :
    (m.UnmarshalBinary d).1.Command = (decodedHeader m d).Command ∧ 9 ≤ d.length := by
  by_cases h9 : d.length < 9
  · rw [UnmarshalBinary_short m d h9] at h
    exact absurd h (by simp)
  · refine ⟨?_, by omega⟩
    rw [UnmarshalBinary_long m d h9]
    split
    · split <;> rfl
    · rfl

/-- C28: for every d that UnmarshalBinary accepts, the decoded Command is
[g, d[7], d[8]] with g = (d[6] & 0x70) >> 4 when d[6] & 0xE0 is 0xA0 or 0xE0 and
g = d[6] >> 4 otherwise; a direct NAK (all-link cleanup NAK) and the direct ACK
(all-link cleanup ACK) with the same five remaining flag bits x decode to the
same group byte. -/
theorem UnmarshalBinary_command (m : Message) (d : List Nat)
    (h : (m.UnmarshalBinary d).2 = none) :
    9 ≤ d.length ∧
    (m.UnmarshalBinary d).1.Command =
      ⟨if d.getD 6 0 &&& 0xe0 = 0xa0 ∨ d.getD 6 0 &&& 0xe0 = 0xe0
          then (d.getD 6 0 &&& 0x70) >>> 4 else d.getD 6 0 >>> 4,
        d.getD 7 0, d.getD 8 0⟩ ∧
    (∀ (m2 : Message) (d2 : List Nat) (x : Nat), (m2.UnmarshalBinary d2).2 = none → x < 0x20 →
      (d.getD 6 0 = 0xa0 ||| x ∧ d2.getD 6 0 = 0x20 ||| x) ∨
        (d.getD 6 0 = 0xe0 ||| x ∧ d2.getD 6 0 = 0x60 ||| x) →
      (m.UnmarshalBinary d).1.Command.b0 = (m2.UnmarshalBinary d2).1.Command.b0) := by
  obtain ⟨hc, h9⟩ := accepted_command_eq m d h
  refine ⟨h9, ?_, ?_⟩
  · rw [hc]
    unfold decodedHeader
    simp only [Bool.or_eq_true, beq_iff_eq, Nat.and_comm 0x70]
  · intro m2 d2 x h2 hx hcase
    obtain ⟨hc2, _⟩ := accepted_command_eq m2 d2 h2
    rw [hc, hc2]
    unfold decodedHeader
    obtain ⟨e1, e2, e3, e4, e5, e6⟩ := nak_group_eq_ack_group x hx
    rcases hcase with ⟨ha, hb⟩ | ⟨ha, hb⟩
    · simp only [ha, hb, e3, e5, e1]
      simp
    · simp only [ha, hb, e4, e6, e2]
      simp

/-- UnmarshalBinary_command at a direct NAK with flags 0xaf and at the direct ACK
with flags 0x2f. -/
theorem UnmarshalBinary_command_witness :
    (Message.zero.UnmarshalBinary [1, 2, 3, 4, 5, 6, 0xaf, 0x2f, 7]).1.Command = ⟨2, 0x2f, 7⟩ ∧
    (Message.zero.UnmarshalBinary [1, 2, 3, 4, 5, 6, 0xaf, 0x2f, 7]).1.Command.b0 =
      (Message.zero.UnmarshalBinary [1, 2, 3, 4, 5, 6, 0x2f, 0x2f, 7]).1.Command.b0 :=
  ⟨(UnmarshalBinary_command Message.zero [1, 2, 3, 4, 5, 6, 0xaf, 0x2f, 7] (by decide)).2.1.trans
      (by decide),
   (UnmarshalBinary_command Message.zero [1, 2, 3, 4, 5, 6, 0xaf, 0x2f, 7] (by decide)).2.2
      Message.zero [1, 2, 3, 4, 5, 6, 0x2f, 0x2f, 7] 0x0f (by decide) (by decide)
      (Or.inl ⟨by decide, by decide⟩)⟩

/-! ## UnlinkAll after a failed Unlink -/

/-- C29: the claim fails. UnlinkAll assigns the result of every Unlink to err
and goes on: with two matching records of which the first Unlink fails with
ErrNotLinked (EnterUnlinkingMode refused for group 1) and the second succeeds,
UnlinkAll returns nil. -/
theorem UnlinkAll_masks_failure :
    link.Unlink maskingDevices 1 1 0 [DevCall.Links 0] =
      (some Error.ErrNotLinked, [DevCall.Links 0, DevCall.EnterUnlinkingMode 1 1,
        DevCall.Sleep 2, DevCall.Sleep 1, DevCall.ExitLinkingMode 1]) ∧
    link.UnlinkAll maskingDevices exampleHeap 0 1 [] =
      some (none, [DevCall.Links 0, DevCall.EnterUnlinkingMode 1 1, DevCall.Sleep 2,
        DevCall.Sleep 1, DevCall.ExitLinkingMode 1, DevCall.EnterUnlinkingMode 1 2,
        DevCall.Sleep 2, DevCall.EnterLinkingMode 0 2, DevCall.Sleep 1,
        DevCall.ExitLinkingMode 0, DevCall.ExitLinkingMode 1]) := by
  decide

/-! ## The second step of CreateLink -/

/-- C30: the claim fails. The second step of CreateLink switches on the
controller again: with no record present and every call succeeding, the
controller (device 0) receives both EnterLinkingMode(5) calls, or
TapSetButton(2) and then TapSetButton(1) when it is an I1 device, and the
responder (device 1) receives no such call. -/
theorem CreateLink_second_step_on_controller :
    CreateLink (bareDevices true) exampleHeap 0 1 5 [] =
      some (none, [DevCall.LinkDB 0, DevCall.LinkDB 1, DevCall.DBLinks 0, DevCall.DBLinks 1,
        DevCall.EnterLinkingMode 0 5, DevCall.EnterLinkingMode 0 5]) ∧
    CreateLink (bareDevices false) exampleHeap 0 1 5 [] =
      some (none, [DevCall.LinkDB 0, DevCall.LinkDB 1, DevCall.DBLinks 0, DevCall.DBLinks 1,
        DevCall.TapSetButton 0 2, DevCall.TapSetButton 0 1]) := by
  decide

/-! ## The record search and the in-use bit -/

/-- The controller bit does not depend on the in-use bit. -/
theorem Controller_or_80 (f : Nat) :
    RecordControlFlags.Controller (f ||| 0x80) = RecordControlFlags.Controller f := by
  unfold RecordControlFlags.Controller
  have h : (f ||| 0x80) &&& 0x40 = f &&& 0x40 := by
    apply Nat.eq_of_testBit_eq
    intro i
    simp only [Nat.testBit_and, Nat.testBit_or]
    have h40 : (0x40 : Nat) = 2 ^ 6 := by norm_num
    have h80 : (0x80 : Nat) = 2 ^ 7 := by norm_num
    rw [h40, h80, Nat.testBit_two_pow, Nat.testBit_two_pow]
    by_cases h6 : 6 = i
    · subst h6; simp
    · simp [h6]
  rw [h]

/-- The test of the search gives the same answer on two slots that differ at
most in the in-use bit. -/
theorem linkMatches_sameButInUse (heap1 heap2 : Heap) (controller : Bool) (address : Address)
    (group : Group) (l1 l2 : LinkPtr) (h : sameButInUse heap1 heap2 l1 l2 = true) :
    linkMatches heap1 controller address group l1
      = linkMatches heap2 controller address group l2 := by
  cases l1 with
  | none =>
    cases l2 with
    | none => rfl
    | some q => exact absurd h (by simp [sameButInUse])
  | some p =>
    cases l2 with
    | none => exact absurd h (by simp [sameButInUse])
    | some q =>
      simp only [sameButInUse, Bool.and_eq_true, decide_eq_true_eq] at h
      obtain ⟨⟨⟨hf, hg⟩, ha⟩, _⟩ := h
      have hc : (heap1 p).Flags.Controller = (heap2 q).Flags.Controller := by
        rw [← Controller_or_80 (heap1 p).Flags, ← Controller_or_80 (heap2 q).Flags, hf]
      simp only [linkMatches, hc, hg, ha]

/-- FindLink on two lists that differ at most in in-use bits: both panic, both
return nil, or both return the record of the same index. -/
theorem FindLink_sameButInUse (heap1 heap2 : Heap) (controller : Bool) (address : Address)
    (group : Group) (L1 L2 : List LinkPtr)
    (h : List.Forall₂ (fun l1 l2 => sameButInUse heap1 heap2 l1 l2 = true) L1 L2) :
    (FindLink heap1 L1 controller address group = none ∧
      FindLink heap2 L2 controller address group = none) ∨
    (FindLink heap1 L1 controller address group = some none ∧
      FindLink heap2 L2 controller address group = some none) ∨
    ∃ (k p q : Nat), L1[k]? = some (some p) ∧ L2[k]? = some (some q) ∧
      FindLink heap1 L1 controller address group = some (some p) ∧
      FindLink heap2 L2 controller address group = some (some q) := by
  induction h with
  | nil => exact Or.inr (Or.inl ⟨rfl, rfl⟩)
  | @cons l1 l2 r1 r2 hl _ ih =>
    have hm := linkMatches_sameButInUse heap1 heap2 controller address group l1 l2 hl
    cases l1 with
    | none =>
      cases l2 with
      | none => exact Or.inl ⟨rfl, rfl⟩
      | some q => exact absurd hl (by simp [sameButInUse])
    | some p =>
      cases l2 with
      | none => exact absurd hl (by simp [sameButInUse])
      | some q =>
        by_cases hp : linkMatches heap1 controller address group (some p) = true
        · have hq : linkMatches heap2 controller address group (some q) = true := hm ▸ hp
          refine Or.inr (Or.inr ⟨0, p, q, by simp, by simp, ?_, ?_⟩)
          · unfold linkMatches at hp
            rw [FindLink, if_pos hp]
          · unfold linkMatches at hq
            rw [FindLink, if_pos hq]
        · have hq : ¬ linkMatches heap2 controller address group (some q) = true := hm ▸ hp
          have e1 : FindLink heap1 (some p :: r1) controller address group
              = FindLink heap1 r1 controller address group := by
            unfold linkMatches at hp
            rw [FindLink, if_neg hp]
          have e2 : FindLink heap2 (some q :: r2) controller address group
              = FindLink heap2 r2 controller address group := by
            unfold linkMatches at hq
            rw [FindLink, if_neg hq]
          rw [e1, e2]
          rcases ih with ⟨h1, h2⟩ | ⟨h1, h2⟩ | ⟨k, p2, q2, hk1, hk2, h1, h2⟩
          · exact Or.inl ⟨h1, h2⟩
          · exact Or.inr (Or.inl ⟨h1, h2⟩)
          · exact Or.inr (Or.inr ⟨k + 1, p2, q2, by simpa using hk1, by simpa using hk2, h1, h2⟩)

/-- FindLinkRecord returns what FindLink returns on the list given by Links(). -/
theorem FindLinkRecord_of_FindLink (env : Devices) (heap : Heap) (linkable : Dev)
    (controller : Bool) (address : Address) (group : Group) (t : Trace) (L : List LinkPtr)
    (hL : env.links linkable t = (L, none)) :
    link.FindLinkRecord env heap linkable controller address group t =
      (FindLink heap L controller address group).map
        (fun found => ((found, none), t ++ [DevCall.Links linkable])) := by
  unfold link.FindLinkRecord
  simp only [hL, if_true]
  rw [findLinkRecordLoop_eq_FindLink]
  cases h : FindLink heap L controller address group with
  | none => rfl
  | some found => cases found <;> rfl

/-- C31: the record search ignores the in-use bit. For two link lists whose
records differ, slot by slot, at most in the in-use bit, FindLink and
FindLinkRecord end the same way on both: a panic on both (a nil slot before the
first match), nil on both, or the record of the same index k on both; on one
list of pointers seen in two such heaps the two results are equal. If the
controller holds a matching controller record and the responder a matching
responder record, each of them available (tombstoned), Link returns
ErrAlreadyLinked after the two Links() calls and performs no linking. -/
theorem search_ignores_inUse (heap1 heap2 : Heap) (controller : Bool) (address : Address)
    (group : Group) (L1 L2 : List LinkPtr)
    (h : List.Forall₂ (fun l1 l2 => sameButInUse heap1 heap2 l1 l2 = true) L1 L2) :
    ((FindLink heap1 L1 controller address group = none ∧
        FindLink heap2 L2 controller address group = none) ∨
      (FindLink heap1 L1 controller address group = some none ∧
        FindLink heap2 L2 controller address group = some none) ∨
      ∃ (k p q : Nat), L1[k]? = some (some p) ∧ L2[k]? = some (some q) ∧
        FindLink heap1 L1 controller address group = some (some p) ∧
        FindLink heap2 L2 controller address group = some (some q)) ∧
    (∀ (env1 env2 : Devices) (linkable : Dev) (t : Trace),
      env1.links linkable t = (L1, none) → env2.links linkable t = (L2, none) →
      (link.FindLinkRecord env1 heap1 linkable controller address group t = none ∧
        link.FindLinkRecord env2 heap2 linkable controller address group t = none) ∨
      (link.FindLinkRecord env1 heap1 linkable controller address group t
          = some ((none, none), t ++ [DevCall.Links linkable]) ∧
        link.FindLinkRecord env2 heap2 linkable controller address group t
          = some ((none, none), t ++ [DevCall.Links linkable])) ∨
      ∃ (k p q : Nat), L1[k]? = some (some p) ∧ L2[k]? = some (some q) ∧
        link.FindLinkRecord env1 heap1 linkable controller address group t
          = some ((some p, none), t ++ [DevCall.Links linkable]) ∧
        link.FindLinkRecord env2 heap2 linkable controller address group t
          = some ((some q, none), t ++ [DevCall.Links linkable])) ∧
    (L1 = L2 →
      FindLink heap1 L1 controller address group
        = FindLink heap2 L1 controller address group) ∧
    (∀ (env : Devices) (c r : Dev) (t : Trace) (Lc Lr : List LinkPtr),
      (∀ l ∈ Lc, l ≠ none) → (∀ l ∈ Lr, l ≠ none) →
      (∃ l ∈ Lc, linkMatches heap1 true (env.Address r) group l = true ∧
        slotAvailable heap1 l = true) →
      (∃ l ∈ Lr, linkMatches heap1 false (env.Address c) group l = true ∧
        slotAvailable heap1 l = true) →
      env.links c t = (Lc, none) →
      env.links r (t ++ [DevCall.Links c]) = (Lr, none) →
      link.Link env heap1 group c r t =
        some (some link.ErrAlreadyLinked, t ++ [DevCall.Links c, DevCall.Links r])) := by
  have hF := FindLink_sameButInUse heap1 heap2 controller address group L1 L2 h
  refine ⟨hF, ?_, ?_, ?_⟩
  · intro env1 env2 linkable t h1 h2
    rw [FindLinkRecord_of_FindLink env1 heap1 linkable controller address group t L1 h1,
      FindLinkRecord_of_FindLink env2 heap2 linkable controller address group t L2 h2]
    rcases hF with ⟨e1, e2⟩ | ⟨e1, e2⟩ | ⟨k, p, q, hk1, hk2, e1, e2⟩
    · exact Or.inl ⟨by rw [e1]; rfl, by rw [e2]; rfl⟩
    · exact Or.inr (Or.inl ⟨by rw [e1]; rfl, by rw [e2]; rfl⟩)
    · exact Or.inr (Or.inr ⟨k, p, q, hk1, hk2, by rw [e1]; rfl, by rw [e2]; rfl⟩)
  · intro hEq
    subst hEq
    rcases hF with ⟨e1, e2⟩ | ⟨e1, e2⟩ | ⟨k, p, q, hk1, hk2, e1, e2⟩
    · rw [e1, e2]
    · rw [e1, e2]
    · rw [e1, e2]
      rw [hk1] at hk2
      rw [Option.some.inj (Option.some.inj hk2)]
  · intro env c r t Lc Lr hnnc hnnr hcl hrl hc hr
    obtain ⟨lc, hlc, hmc, _⟩ := hcl
    obtain ⟨lr, hlr, hmr, _⟩ := hrl
    exact Link_both_found env heap1 group c r t Lc Lr hnnc hnnr ⟨lc, hlc, hmc⟩ ⟨lr, hlr, hmr⟩
      hc hr

/-- The records of `linkedDevices` with in-use bits (linkedHeap) and without
(tombstonedHeap): the search on device 1 finds the object 3 in both, and Link on
the tombstoned records returns ErrAlreadyLinked. -/
theorem search_ignores_inUse_witness :
    FindLink linkedHeap [some 2, some 3] false ⟨0, 0, 0⟩ 5
      = FindLink tombstonedHeap [some 2, some 3] false ⟨0, 0, 0⟩ 5 ∧
    FindLink tombstonedHeap [some 2, some 3] false ⟨0, 0, 0⟩ 5 = some (some 3) ∧
    slotAvailable tombstonedHeap (some 0) = true ∧
    slotAvailable tombstonedHeap (some 3) = true ∧
    link.Link linkedDevices tombstonedHeap 5 0 1 [] =
      some (some link.ErrAlreadyLinked, [DevCall.Links 0, DevCall.Links 1]) :=
  ⟨(search_ignores_inUse linkedHeap tombstonedHeap false ⟨0, 0, 0⟩ 5 [some 2, some 3]
      [some 2, some 3] (by
        refine List.Forall₂.cons (by decide) (List.Forall₂.cons (by decide) List.Forall₂.nil)
        )).2.2.1 rfl,
   by decide, by decide, by decide,
   (search_ignores_inUse tombstonedHeap tombstonedHeap true ⟨0, 0, 1⟩ 5 [] []
      List.Forall₂.nil).2.2.2 linkedDevices 0 1 [] [some 0, some 1] [some 2, some 3]
      (by decide) (by decide) ⟨some 0, by decide, by decide, by decide⟩
      ⟨some 3, by decide, by decide, by decide⟩ rfl rfl⟩

/-! ## The number of duplicates -/

/-- A list is the list of its entries by index. -/
theorem eq_map_range_getD (L : List LinkPtr) :
    L = (List.range L.length).map (fun j => L.getD j none) := by
  apply List.ext_getElem
  · simp
  · intro i h1 h2
    simp [List.getD_eq_getElem?_getD, List.getElem?_eq_getElem h1]

/-- Filtering a list is filtering its indices. -/
theorem filter_eq_map_index (P : LinkPtr → Bool) (L : List LinkPtr) :
    L.filter P =
      ((List.range L.length).filter (fun j => P (L.getD j none))).map
        (fun j => L.getD j none) := by
  conv_lhs => rw [eq_map_range_getD L]
  rw [List.filter_map]
  rfl

/-- The duplicates are the records at j of the index pairs i < j that hold Equal
records, one entry for each pair. -/
theorem duplicatesOf_pairs (Equal : LinkPtr → LinkPtr → Bool) (L : List LinkPtr) :
    ∃ pairs : List (Nat × Nat), pairs.Nodup ∧
      (∀ i j : Nat, (i, j) ∈ pairs ↔
        (i < j ∧ j < L.length ∧ Equal (L.getD i none) (L.getD j none) = true)) ∧
      duplicatesOf Equal L = pairs.map (fun p => L.getD p.2 none) := by
  induction L with
  | nil => exact ⟨[], List.nodup_nil, by simp, by simp [duplicatesOf, pairsLex]⟩
  | cons x rest ih =>
    obtain ⟨ps, hnd, hmem, heq⟩ := ih
    refine ⟨((List.range rest.length).filter (fun j => Equal x (rest.getD j none))).map
        (fun j => (0, j + 1)) ++ ps.map (fun p => (p.1 + 1, p.2 + 1)), ?_, ?_, ?_⟩
    · apply List.Nodup.append
      · apply List.Nodup.map
        · intro a b hab
          simpa using hab
        · exact (List.nodup_range _).filter _
      · apply List.Nodup.map
        · intro a b hab
          simp only [Prod.mk.injEq, Nat.add_right_cancel_iff] at hab
          exact Prod.ext hab.1 hab.2
        · exact hnd
      · intro p hp1 hp2
        simp only [List.mem_map] at hp1 hp2
        obtain ⟨j, _, hj⟩ := hp1
        obtain ⟨q, _, hq⟩ := hp2
        rw [← hj] at hq
        simp at hq
    · intro i j
      simp only [List.mem_append, List.mem_map, List.mem_filter, List.mem_range, Prod.mk.injEq,
        List.length_cons]
      constructor
      · rintro (⟨k, ⟨hk, hE⟩, h0, hkj⟩ | ⟨q, hq, hq1, hq2⟩)
        · subst h0 hkj
          exact ⟨Nat.succ_pos _, Nat.succ_lt_succ hk, by simpa using hE⟩
        · obtain ⟨q1, q2⟩ := q
          simp only at hq1 hq2
          subst hq1 hq2
          obtain ⟨h1, h2, h3⟩ := (hmem q1 q2).1 hq
          exact ⟨Nat.succ_lt_succ h1, Nat.succ_lt_succ h2, by simpa using h3⟩
      · rintro ⟨hij, hj, hE⟩
        cases j with
        | zero => exact absurd hij (Nat.not_lt_zero _)
        | succ j =>
          cases i with
          | zero =>
            exact Or.inl ⟨j, ⟨Nat.lt_of_succ_lt_succ hj, by simpa using hE⟩, rfl, rfl⟩
          | succ i =>
            exact Or.inr ⟨(i, j), (hmem i j).2 ⟨Nat.lt_of_succ_lt_succ hij,
              Nat.lt_of_succ_lt_succ hj, by simpa using hE⟩, rfl, rfl⟩
    · rw [duplicatesOf_cons, List.map_append, heq, filter_eq_map_index (Equal x) rest]
      simp only [List.map_map]
      rfl

/-- When the Equal pairs are the pairs of a set g of indices, the duplicates
number k(k-1)/2 for the k indices of g. -/
theorem length_duplicatesOf_group (Equal : LinkPtr → LinkPtr → Bool) (L : List LinkPtr) :
    ∀ g : Nat → Bool,
      (∀ i j : Nat, i < j → j < L.length →
        Equal (L.getD i none) (L.getD j none) = (g i && g j)) →
      2 * (duplicatesOf Equal L).length =
        ((List.range L.length).filter g).length * (((List.range L.length).filter g).length - 1) := by
  induction L with
  | nil => intro g _; simp [duplicatesOf, pairsLex]
  | cons x rest ih =>
    intro g h
    have ih2 := ih (fun i => g (i + 1)) (fun i j hij hj => by
      simpa using h (i + 1) (j + 1) (Nat.succ_lt_succ hij) (Nat.succ_lt_succ hj))
    have hk : (List.filter g (List.range (x :: rest).length)).length
        = (if g 0 then 1 else 0)
          + (List.filter (fun i => g (i + 1)) (List.range rest.length)).length := by
      rw [List.length_cons, List.range_succ_eq_map, List.filter_cons, List.filter_map]
      have hcomp : (g ∘ Nat.succ) = fun i => g (i + 1) := rfl
      rw [hcomp]
      by_cases h0 : g 0 = true
      · simp only [h0, if_true, List.length_cons, List.length_map]
        rw [Nat.add_comm]
      · simp only [h0, Bool.false_eq_true, if_false, Nat.zero_add, List.length_map]
    have hf : (rest.filter (Equal x)).length
        = if g 0 then (List.filter (fun i => g (i + 1)) (List.range rest.length)).length
          else 0 := by
      rw [filter_eq_map_index (Equal x) rest, List.length_map]
      have hc : List.filter (fun j => Equal x (rest.getD j none)) (List.range rest.length)
          = List.filter (fun j => g 0 && g (j + 1)) (List.range rest.length) := by
        apply List.filter_congr
        intro j hj
        rw [List.mem_range] at hj
        simpa using h 0 (j + 1) (Nat.succ_pos _) (Nat.succ_lt_succ hj)
      rw [hc]
      by_cases h0 : g 0 = true
      · simp [h0]
      · simp [h0]
    rw [duplicatesOf_cons, List.length_append, hk, hf, Nat.mul_add, ih2]
    generalize (List.filter (fun i => g (i + 1)) (List.range rest.length)).length = k
    by_cases h0 : g 0 = true
    · simp only [h0, if_true]
      cases k with
      | zero => rfl
      | succ k =>
        simp only [Nat.add_sub_cancel, Nat.add_sub_cancel_left]
        ring
    · simp only [h0, Bool.false_eq_true, if_false, Nat.zero_add, Nat.mul_zero]

/-- C32: when Links() returns the list L without error, FindDuplicateLinks
returns one entry for each index pair i < j whose records are Equal, the record
at j: its length is the number of such pairs. When the Equal pairs are exactly
the pairs of a group g of k indices, the result has k(k-1)/2 entries; three
mutually Equal records a, b, c yield [b, c, c]; and the result is empty exactly
when no two records (at i < j) are Equal. -/
theorem FindDuplicateLinks_count (env : Devices) (Equal : LinkPtr → LinkPtr → Bool)
    (linkable : Dev) (t : Trace) (L : List LinkPtr)
    (hL : env.links linkable t = (L, none)) :
    (∃ pairs : List (Nat × Nat), pairs.Nodup ∧
      (∀ i j : Nat, (i, j) ∈ pairs ↔
        (i < j ∧ j < L.length ∧ Equal (L.getD i none) (L.getD j none) = true)) ∧
      (link.FindDuplicateLinks env Equal linkable t).1.1
        = pairs.map (fun p => L.getD p.2 none)) ∧
    (link.FindDuplicateLinks env Equal linkable t).1.1.length =
      (Finset.filter
        (fun p : Nat × Nat =>
          p.1 < p.2 ∧ Equal (L.getD p.1 none) (L.getD p.2 none) = true)
        (Finset.range L.length ×ˢ Finset.range L.length)).card ∧
    (∀ g : Nat → Bool,
      (∀ i j : Nat, i < j → j < L.length →
        Equal (L.getD i none) (L.getD j none) = (g i && g j)) →
      (link.FindDuplicateLinks env Equal linkable t).1.1.length =
        ((List.range L.length).filter g).length
          * (((List.range L.length).filter g).length - 1) / 2) ∧
    (∀ a b c : LinkPtr, L = [a, b, c] →
      Equal a b = true → Equal a c = true → Equal b c = true →
      (link.FindDuplicateLinks env Equal linkable t).1.1 = [b, c, c]) ∧
    ((link.FindDuplicateLinks env Equal linkable t).1.1 = [] ↔
      ∀ i j : Nat, i < j → j < L.length →
        Equal (L.getD i none) (L.getD j none) = false) := by
  rw [FindDuplicateLinks_eq env Equal linkable t L hL]
  obtain ⟨pairs, hnd, hmem, heq⟩ := duplicatesOf_pairs Equal L
  refine ⟨⟨pairs, hnd, hmem, heq⟩, ?_, ?_, ?_, ?_⟩
  · show (duplicatesOf Equal L).length = _
    rw [heq, List.length_map, ← List.toFinset_card_of_nodup hnd]
    congr 1
    ext ⟨i, j⟩
    simp only [List.mem_toFinset, Finset.mem_filter, Finset.mem_product, Finset.mem_range]
    rw [hmem]
    constructor
    · rintro ⟨h1, h2, h3⟩
      exact ⟨⟨Nat.lt_trans h1 h2, h2⟩, h1, h3⟩
    · rintro ⟨⟨_, h2⟩, h1, h3⟩
      exact ⟨h1, h2, h3⟩
  · intro g hg
    show (duplicatesOf Equal L).length = _
    rw [← length_duplicatesOf_group Equal L g hg]
    simp
  · intro a b c habc hab hac hbc
    show duplicatesOf Equal L = _
    rw [habc]
    simp [duplicatesOf, pairsLex, hab, hac, hbc]
  · show duplicatesOf Equal L = [] ↔ _
    rw [heq, List.map_eq_nil_iff]
    constructor
    · intro hnil i j hij hj
      cases hE : Equal (L.getD i none) (L.getD j none) with
      | false => rfl
      | true =>
        have : (i, j) ∈ pairs := (hmem i j).2 ⟨hij, hj, hE⟩
        rw [hnil] at this
        exact absurd this (List.not_mem_nil _)
    · intro hall
      cases hp : pairs with
      | nil => rfl
      | cons p ps =>
        obtain ⟨i, j⟩ := p
        have hin : (i, j) ∈ pairs := by rw [hp]; exact List.mem_cons_self _ _
        obtain ⟨h1, h2, h3⟩ := (hmem i j).1 hin
        rw [hall i j h1 h2] at h3
        exact absurd h3 (by simp)

/-- FindDuplicateLinks_count on four records of which the first, third and fourth
are mutually Equal: three entries, the last record twice. -/
theorem FindDuplicateLinks_count_witness :
    (link.FindDuplicateLinks groupDevices (Link.Equal duplicateHeap) 0 []).1.1.length
      = 3 * (3 - 1) / 2 ∧
    (link.FindDuplicateLinks groupDevices (Link.Equal duplicateHeap) 0 []).1.1
      = [some 2, some 3, some 3] :=
  ⟨((FindDuplicateLinks_count groupDevices (Link.Equal duplicateHeap) 0 []
      [some 0, some 1, some 2, some 3] rfl).2.2.1 (fun i => i != 1) (by
        intro i j hij hj
        have hj4 : j < 4 := hj
        interval_cases j <;> interval_cases i <;> decide)).trans (by decide),
   by decide⟩

/-! ## UnmarshalBinary on a failed decode -/

/-- C33: with fewer than 9 bytes UnmarshalBinary returns the too-short error for
9 and leaves the receiver unchanged; with 9 to 22 bytes and an extended flags
byte it returns the too-short error for 23 with the receiver's Src, Dst, Flags
and Command already overwritten from the input, and its Payload unchanged. -/
theorem UnmarshalBinary_not_atomic (m : Message) (d : List Nat) :
    (d.length < 9 →
      m.UnmarshalBinary d = (m, some (Error.ErrBufferTooShort 9 d.length))) ∧
    (9 ≤ d.length → d.length < 23 → Flags.Extended (d.getD 6 0) = true →
      (m.UnmarshalBinary d).2 = some (Error.ErrBufferTooShort 23 d.length) ∧
      (m.UnmarshalBinary d).1.Src = ⟨d.getD 0 0, d.getD 1 0, d.getD 2 0⟩ ∧
      (m.UnmarshalBinary d).1.Dst = ⟨d.getD 3 0, d.getD 4 0, d.getD 5 0⟩ ∧
      (m.UnmarshalBinary d).1.Flags = d.getD 6 0 ∧
      (m.UnmarshalBinary d).1.Command =
        ⟨if d.getD 6 0 &&& 0xe0 = 0xa0 ∨ d.getD 6 0 &&& 0xe0 = 0xe0
            then (d.getD 6 0 &&& 0x70) >>> 4 else d.getD 6 0 >>> 4,
          d.getD 7 0, d.getD 8 0⟩ ∧
      (m.UnmarshalBinary d).1.Payload = m.Payload) := by
  refine ⟨UnmarshalBinary_short m d, ?_⟩
  intro h9 h23 hx
  rw [UnmarshalBinary_long m d (by omega), if_pos hx, if_pos h23]
  match d, h9 with
  | s0 :: s1 :: s2 :: d0 :: d1 :: d2 :: f :: c1 :: c2 :: rest, _ =>
    rw [decodedHeader_cons9]
    simp only [List.getD_cons_succ, List.getD_cons_zero, Bool.or_eq_true, beq_iff_eq,
      Nat.and_comm 0x70, and_self]

/-- UnmarshalBinary_not_atomic on the extended example as receiver: an 11-byte
extended input overwrites the header fields and keeps the payload; an 8-byte
input leaves the receiver as it was. -/
theorem UnmarshalBinary_not_atomic_witness :
    (extendedExample.UnmarshalBinary [9, 9, 9, 8, 8, 8, 0x1a, 0x2f, 7, 1, 2]).2
      = some (Error.ErrBufferTooShort 23 11) ∧
    (extendedExample.UnmarshalBinary [9, 9, 9, 8, 8, 8, 0x1a, 0x2f, 7, 1, 2]).1
      = ⟨⟨9, 9, 9⟩, ⟨8, 8, 8⟩, 0x1a, ⟨1, 0x2f, 7⟩, extendedExample.Payload⟩ ∧
    extendedExample.UnmarshalBinary [9, 9, 9, 8, 8, 8, 0x1a, 0x2f]
      = (extendedExample, some (Error.ErrBufferTooShort 9 8)) :=
  ⟨((UnmarshalBinary_not_atomic extendedExample [9, 9, 9, 8, 8, 8, 0x1a, 0x2f, 7, 1, 2]).2
      (by decide) (by decide) (by decide)).1,
   by decide,
   (UnmarshalBinary_not_atomic extendedExample [9, 9, 9, 8, 8, 8, 0x1a, 0x2f]).1 (by decide)⟩

/-! ## RemoveLink of a record that is not stored -/

/-- C34: for every database and every record r, nil included, that is Equal to
no stored slot, RemoveLink(r) returns nil (not ErrLinkNotFound), makes no
WriteLink call and leaves the link sequence and the records unchanged. -/
theorem RemoveLink_not_found (db : BaseLinkDB) (heap : Heap) (r : LinkPtr)
    (h : ∀ l ∈ db.links, Link.Equal heap l r = false) :
    db.RemoveLink heap r = some (db, heap, none) ∧
    (∀ db2 heap2 err, db.RemoveLink heap r = some (db2, heap2, err) →
      err = none ∧ err ≠ some Error.ErrLinkNotFound ∧
      db2.LinkWriter.calls = db.LinkWriter.calls ∧ db2.links = db.links ∧ heap2 = heap) := by
  have hmain : db.RemoveLink heap r = some (db, heap, none) := by
    unfold BaseLinkDB.RemoveLink
    rw [removeLinkLoop_eq, List.findIdx_eq_length_of_false (by simpa using h)]
    simp
  refine ⟨hmain, ?_⟩
  intro db2 heap2 err h2
  rw [hmain] at h2
  simp only [Option.some.injEq, Prod.mk.injEq] at h2
  obtain ⟨h1, h3, h4⟩ := h2
  subst h1 h3 h4
  exact ⟨rfl, by simp, rfl, rfl, rfl⟩

/-- RemoveLink_not_found on the four-slot example with a record of another
group, and on a two-slot database with the nil record. -/
theorem RemoveLink_not_found_witness :
    exampleDB.RemoveLink mixedHeap (some 4) = some (exampleDB, mixedHeap, none) ∧
    (⟨LinkWriter.succeeding, [some 0, some 1]⟩ : BaseLinkDB).RemoveLink mixedHeap none
      = some (⟨LinkWriter.succeeding, [some 0, some 1]⟩, mixedHeap, none) :=
  ⟨(RemoveLink_not_found exampleDB mixedHeap (some 4) (by decide)).1,
   (RemoveLink_not_found ⟨LinkWriter.succeeding, [some 0, some 1]⟩ mixedHeap none
      (by decide)).1⟩

end Insteon
